import Mathlib

/-! OpenRCT2: land rights, park parameters and park rating.

A shallow embedding of

* `src/openrct2/actions/LandSetRightsAction.cpp`
* `src/openrct2/actions/ParkSetParameterAction.cpp`
* `src/openrct2/world/Park.cpp`

The global game state of the C++ program is an explicit value of type
`GameState` that every operation receives and returns.  Unsigned machine
arithmetic is written with an explicit reduction modulo `2^w`; a signed value
is an `Int` that is brought back into its range with `wrapInt32`.

Declarations of the program that the three files use but do not contain
(headers, `Map.cpp`) are modelled; each such definition says so in its
doc comment.
-/

namespace OpenRCT2

/-! ## Machine integers -/

/-- Value of an integer after conversion to `uint32_t`. -/
def wrapUInt32 (v : Int) : Int := v % 4294967296

/-- Value of an integer after conversion to `int32_t`, wrapped into the signed range. -/
def wrapInt32 (v : Int) : Int := (v + 2147483648) % 4294967296 - 2147483648

/-- Value of an integer after conversion to `int64_t`, the representation of
`money64`, wrapped into the signed range. -/
def wrapInt64 (v : Int) : Int :=
  (v + 9223372036854775808) % 18446744073709551616 - 9223372036854775808

/-- The function `std::clamp(v, lo, hi)`. -/
def clamp (v lo hi : Int) : Int := if v < lo then lo else if hi < v then hi else v

/-! ## Coordinates -/

/-- Modelled from the spec: the constant `COORDS_XY_STEP`, the fixed
tile-coordinate granularity of the range iteration (`Location.hpp` is not
among the sources); the value is the one `Floor2(spawn.x, 32)` uses in
`MapBuyLandRightsForTile`. -/
def COORDS_XY_STEP : Int := 32

/-- World coordinates `CoordsXY`. -/
structure CoordsXY where
  x : Int
  y : Int
deriving DecidableEq, Repr

/-- Tile coordinates `TileCoordsXY`. -/
structure TileCoordsXY where
  x : Int
  y : Int
deriving DecidableEq, Repr

/-- Modelled from the spec: the conversion `TileCoordsXY{ coords }`
(`Location.hpp` is not among the sources): both coordinates divided by
`COORDS_XY_STEP` with the truncating division of C++. -/
def CoordsXY.ToTileCoords (c : CoordsXY) : TileCoordsXY :=
  { x := Int.tdiv c.x COORDS_XY_STEP, y := Int.tdiv c.y COORDS_XY_STEP }

/-- The rectangle `MapRange(left, top, right, bottom)`. -/
structure MapRange where
  Left : Int
  Top : Int
  Right : Int
  Bottom : Int
deriving DecidableEq, Repr

/-- Modelled from the spec: `MapRange::Normalise` (`Location.hpp` is not among
the sources): the range with its minimum and maximum corners corrected. -/
def MapRange.Normalise (r : MapRange) : MapRange :=
  { Left := if r.Left < r.Right then r.Left else r.Right
    Top := if r.Top < r.Bottom then r.Top else r.Bottom
    Right := if r.Left > r.Right then r.Left else r.Right
    Bottom := if r.Top > r.Bottom then r.Top else r.Bottom }

/-- Modelled from the spec: `Floor2(value, 32)` of `util/Math.hpp` (not among
the sources): the value floored to a multiple of 32. -/
def Floor2 (value : Int) : Int := value - value % 32

/-! ## Tile elements -/

/-- Modelled from the spec: the ownership bits of the per-tile bitmask
(owned, construction rights owned, available for sale, construction rights
available), declared in `Surface.h`, which is not among the sources.  The
comment in `MapBuyLandRightsForTile` fixes `OWNERSHIP_UNOWNED` as 0. -/
def OWNERSHIP_UNOWNED : Nat := 0

/-- Modelled from the spec: the bit "construction rights owned" (see
`OWNERSHIP_UNOWNED`). -/
def OWNERSHIP_CONSTRUCTION_RIGHTS_OWNED : Nat := 16

/-- Modelled from the spec: the bit "owned" (see `OWNERSHIP_UNOWNED`). -/
def OWNERSHIP_OWNED : Nat := 32

/-- Modelled from the spec: the bit "construction rights available" (see
`OWNERSHIP_UNOWNED`). -/
def OWNERSHIP_CONSTRUCTION_RIGHTS_AVAILABLE : Nat := 64

/-- Modelled from the spec: the bit "available for sale" (see
`OWNERSHIP_UNOWNED`). -/
def OWNERSHIP_AVAILABLE : Nat := 128

/-- Modelled from the spec: the entrance type of a park entrance, declared in
`Entrance.h`, which is not among the sources. -/
def ENTRANCE_TYPE_PARK_ENTRANCE : Nat := 2

/-- Modelled from the spec: the surface record of a tile (`Surface.h` is not
among the sources): the ownership bitmask, the 4-bit fence mask and the base
height. -/
structure SurfaceElement where
  Ownership : Nat
  ParkFences : Nat
  BaseHeight : Nat
deriving DecidableEq, Repr

/-- Modelled from the spec: an entrance element of a tile (`Entrance.h` is not
among the sources): its entrance type, its ghost flag and its base height. -/
structure EntranceElement where
  EntranceType : Nat
  Ghost : Bool
  BaseHeight : Nat
deriving DecidableEq, Repr

/-- An element of a tile: the surface, an entrance, or an element of another
type (path, track, scenery, wall, banner). -/
inductive TileElement where
  | Surface (e : SurfaceElement)
  | Entrance (e : EntranceElement)
  | Other
deriving DecidableEq, Repr

/-- Modelled from the spec: accessor `SurfaceElement::GetOwnership` (`Surface.h`
is not among the sources): the ownership bits of the surface, the high nibble
0xF0 of its byte. -/
def SurfaceElement.GetOwnership (e : SurfaceElement) : Nat := e.Ownership &&& 240

/-- Modelled from the spec: accessor `SurfaceElement::SetOwnership` (`Surface.h`
is not among the sources): the ownership bits are replaced by the high nibble
0xF0 of the argument, a `uint8_t`; the other bits of the argument are dropped
and the other fields are kept. -/
def SurfaceElement.SetOwnership (e : SurfaceElement) (newOwnership : Nat) : SurfaceElement :=
  { e with Ownership := newOwnership &&& 240 }

/-- Modelled from the spec: accessor `SurfaceElement::GetParkFences`
(`Surface.h` is not among the sources): the stored fence mask. -/
def SurfaceElement.GetParkFences (e : SurfaceElement) : Nat := e.ParkFences

/-- Modelled from the spec: accessor `SurfaceElement::SetParkFences`
(`Surface.h` is not among the sources): the fence mask is replaced, the other
fields are kept; `ParkUpdateFences` passes masks below 16 only. -/
def SurfaceElement.SetParkFences (e : SurfaceElement) (newParkFences : Nat) : SurfaceElement :=
  { e with ParkFences := newParkFences }

/-- First surface element of an element sequence (`*view.begin()` of
`TileElementsView<SurfaceElement>`), `none` for the null pointer. -/
def firstSurface : List TileElement → Option SurfaceElement
  | [] => none
  | TileElement.Surface e :: _ => some e
  | _ :: rest => firstSurface rest

/-- The entrance elements of an element sequence, in order
(`TileElementsView<EntranceElement>`). -/
def entranceElements : List TileElement → List EntranceElement
  | [] => []
  | TileElement.Entrance e :: rest => e :: entranceElements rest
  | _ :: rest => entranceElements rest

/-- Write through the pointer that `firstSurface` returns: the first surface
element of the sequence is replaced by its image under `f`. -/
def modifyFirstSurface (f : SurfaceElement → SurfaceElement) : List TileElement → List TileElement
  | [] => []
  | TileElement.Surface e :: rest => TileElement.Surface (f e) :: rest
  | other :: rest => other :: modifyFirstSurface f rest

/-! ## Game state -/

/-- A peep spawn: entry point coordinates and facing direction. -/
structure PeepSpawn where
  x : Int
  y : Int
  z : Int
  direction : Nat
deriving DecidableEq, Repr

/-- A guest entity, with the fields `CalculateParkRating` reads.
`LeavingPark` is the truth value of `PeepFlags & PEEP_FLAGS_LEAVING_PARK`. -/
structure Guest where
  OutsideOfPark : Bool
  Happiness : Nat
  LeavingPark : Bool
  GuestIsLostCountdown : Nat
deriving DecidableEq, Repr

/-- The values of `RideStatus`. -/
inductive RideStatus where
  | Closed
  | Open
  | Testing
  | Simulating
deriving DecidableEq, Repr

/-- A ride, with the fields the functions of `Park.cpp` read.

* `HasRatings` is the value of `RideHasRatings(ride)`, a function of
  `Ride.cpp`, which is not among the sources.
* `BrokenDown`, `Crashed` and `Tested` are the truth values of
  `lifecycle_flags & RIDE_LIFECYCLE_BROKEN_DOWN`, `... & RIDE_LIFECYCLE_CRASHED`
  and `... & RIDE_LIFECYCLE_TESTED`.
* `price0` is `price[0]`.
* `BonusValue`, `HasTrack` and `HasDataLogging` are the bonus value and the
  flags `RIDE_TYPE_FLAG_HAS_TRACK` and `RIDE_TYPE_FLAG_HAS_DATA_LOGGING` of
  `ride.GetRideTypeDescriptor()`.
* `SegmentLength` is `ride.GetStation().SegmentLength`.
* `CustomersInLast5Minutes` is the value of `RideCustomersInLast5Minutes(ride)`,
  a function of `Ride.cpp`. -/
structure Ride where
  downtime : Nat
  HasRatings : Bool
  excitement : Int
  intensity : Int
  status : RideStatus
  BrokenDown : Bool
  Crashed : Bool
  Tested : Bool
  value : Int
  price0 : Int
  BonusValue : Nat
  HasTrack : Bool
  HasDataLogging : Bool
  SegmentLength : Int
  CustomersInLast5Minutes : Nat
deriving DecidableEq, Repr

/-- A litter entity; `Age` is the value of `Litter::GetAge()`. -/
structure Litter where
  Age : Nat
deriving DecidableEq, Repr

/-- An award of the park; `Positive` is the value of
`AwardIsPositive(award.Type)`, a function of `Award.cpp`, which is not among
the sources. -/
structure Award where
  Positive : Bool
deriving DecidableEq, Repr

/-- The global state the three files read and write.

* `Tiles x y` is the element sequence of the tile with tile coordinates
  `(x, y)`; it is empty where the map has no tile.
* `ScreenFlagsEditor` is the truth value of `gScreenFlags & SCREEN_FLAGS_EDITOR`.
* `ForcedParkRating` is the file-level variable `_forcedParkRating`.
* `ParkRatingCasualtyPenalty` is the global `gParkRatingCasualtyPenalty`.
* `MapLandRightsUpdateSuccess` is the global `gMapLandRightsUpdateSuccess`.
* `Cash` is the value of `FinanceGetCurrentCash()`.
* `Awards` is the value of `GetAwards()`.
* The five histories are arrays; the length of the list is the array size. -/
structure GameState where
  Tiles : Int → Int → List TileElement
  MapSize : TileCoordsXY
  PeepSpawns : List PeepSpawn
  LandPrice : Int
  ScreenFlagsEditor : Bool
  SandboxMode : Bool
  MapLandRightsUpdateSuccess : Bool
  ParkFlags : Nat
  SamePriceThroughoutPark : Nat
  ForcedParkRating : Int
  ParkRating : Nat
  NumGuestsInPark : Nat
  Guests : List Guest
  Rides : List Ride
  LitterList : List Litter
  ParkRatingCasualtyPenalty : Int
  NumGuestsInParkLastWeek : Nat
  NumGuestsHeadingForPark : Nat
  GuestChangeModifier : Nat
  GuestGenerationProbability : Int
  TotalRideValueForMoney : Int
  SuggestedGuestMaximum : Nat
  ParkEntranceFee : Int
  ParkValue : Int
  CompanyValue : Int
  BankLoan : Int
  Cash : Int
  Awards : List Award
  CurrentTicks : Nat
  ParkRatingHistory : List Nat
  GuestsInParkHistory : List Nat
  CashHistory : List Int
  WeeklyProfitHistory : List Int
  ParkValueHistory : List Int
  WeeklyProfitAverageDividend : Int
  WeeklyProfitAverageDivisor : Nat

/-- Element sequence of the tile a location lies on (`MapGetFirstElementAt`
and the elements that follow it up to `IsLastForTile`). -/
def GameState.elementsAt (s : GameState) (coords : CoordsXY) : List TileElement :=
  s.Tiles coords.ToTileCoords.x coords.ToTileCoords.y

/-- Modelled from the spec: `MapGetSurfaceElementAt` of `Map.cpp` (not among
the sources): the tile's surface record, `none` (the null pointer) when the
surface is missing. -/
def MapGetSurfaceElementAt (s : GameState) (coords : CoordsXY) : Option SurfaceElement :=
  firstSurface (s.elementsAt coords)

/-- State after a write `surfaceElement->...` through the pointer that
`MapGetSurfaceElementAt(coords)` returned. -/
def GameState.modifySurfaceAt (s : GameState) (coords : CoordsXY)
    (f : SurfaceElement → SurfaceElement) : GameState :=
  { s with
    Tiles := fun tx ty =>
      if tx = coords.ToTileCoords.x ∧ ty = coords.ToTileCoords.y then
        modifyFirstSurface f (s.Tiles tx ty)
      else s.Tiles tx ty }

/-! ## Map queries -/

/-- Modelled from the spec: the constant `kMaximumMapSizeBig` of the map
bounds (`Map.h` is not among the sources): the technical maximum of 1001
tiles, in world units. -/
def MAXIMUM_MAP_SIZE_BIG : Int := 32032

/-- Modelled from the spec: `GetMapSizeUnits` (`Map.cpp` is not among the
sources): the world coordinate at which the last, border, tile starts. -/
def GetMapSizeUnits (s : GameState) : CoordsXY :=
  { x := (s.MapSize.x - 1) * COORDS_XY_STEP, y := (s.MapSize.y - 1) * COORDS_XY_STEP }

/-- Modelled from the spec: `GetMapSizeMaxXY` (`Map.cpp` is not among the
sources): the greatest world coordinate inside the map bounds. -/
def GetMapSizeMaxXY (s : GameState) : CoordsXY :=
  { x := (GetMapSizeUnits s).x - 1, y := (GetMapSizeUnits s).y - 1 }

/-- Modelled from the spec: `ClampRangeWithinMap` (`Map.cpp` is not among the
sources): the range clamped to the map bounds, which start after the border
tile at `COORDS_XY_STEP` and end at `GetMapSizeMaxXY`. -/
def ClampRangeWithinMap (s : GameState) (range : MapRange) : MapRange :=
  { Left := max COORDS_XY_STEP range.Left
    Top := max COORDS_XY_STEP range.Top
    Right := min (GetMapSizeMaxXY s).x range.Right
    Bottom := min (GetMapSizeMaxXY s).y range.Bottom }

/-- Modelled from the spec: `MapIsLocationValid` (`Map.cpp` is not among the
sources): both coordinates are non-negative and below the maximum map size. -/
def MapIsLocationValid (coords : CoordsXY) : Bool :=
  decide (coords.x < MAXIMUM_MAP_SIZE_BIG ∧ 0 ≤ coords.x) &&
    decide (coords.y < MAXIMUM_MAP_SIZE_BIG ∧ 0 ≤ coords.y)

/-- Modelled from the spec: `GameAction::LocationValid` (`GameAction.cpp` is
not among the sources): the location is a valid map location. -/
def LocationValid (coords : CoordsXY) : Bool := MapIsLocationValid coords

/-- Modelled from the spec: `MapIsEdge` (`Map.cpp` is not among the sources):
the location lies on the border of the map. -/
def MapIsEdge (s : GameState) (coords : CoordsXY) : Bool :=
  decide (coords.x < 32 ∨ coords.y < 32 ∨
    coords.x ≥ (GetMapSizeUnits s).x ∨ coords.y ≥ (GetMapSizeUnits s).y)

/-- Modelled from the spec: `MapIsLocationInPark` (`Map.cpp` is not among the
sources): the location is valid and its surface has the owned bit. -/
def MapIsLocationInPark (s : GameState) (coords : CoordsXY) : Bool :=
  if MapIsLocationValid coords then
    match MapGetSurfaceElementAt s coords with
    | none => false
    | some surfaceElement => decide (surfaceElement.GetOwnership &&& OWNERSHIP_OWNED ≠ 0)
  else false

/-! ## Park fences (`Park.cpp`) -/

/-- Loop body of `ParkUpdateFences`: the element is a park entrance that is
not a ghost, so that no fence is required. -/
def isNonGhostParkEntrance : TileElement → Bool
  | TileElement.Entrance e => decide (e.EntranceType = ENTRANCE_TYPE_PARK_ENTRANCE) && !e.Ghost
  | _ => false

/-- The four directional bits of `ParkUpdateFences`. -/
def neighbourFences (s : GameState) (coords : CoordsXY) : Nat :=
  (if MapIsLocationInPark s { x := coords.x - COORDS_XY_STEP, y := coords.y } then 8 else 0) |||
  (if MapIsLocationInPark s { x := coords.x, y := coords.y - COORDS_XY_STEP } then 4 else 0) |||
  (if MapIsLocationInPark s { x := coords.x + COORDS_XY_STEP, y := coords.y } then 2 else 0) |||
  (if MapIsLocationInPark s { x := coords.x, y := coords.y + COORDS_XY_STEP } then 1 else 0)

/-- Last statement of `ParkUpdateFences`: the fence mask is written only when
it differs from the stored one. -/
def storeFences (s : GameState) (coords : CoordsXY) (surfaceElement : SurfaceElement)
    (newFences : Nat) : GameState :=
  if surfaceElement.GetParkFences ≠ newFences then
    s.modifySurfaceAt coords (fun e => e.SetParkFences newFences)
  else s

/-- Function `ParkUpdateFences(coords)`. -/
def ParkUpdateFences (coords : CoordsXY) (s : GameState) : GameState :=
  if MapIsEdge s coords then s
  else
    match MapGetSurfaceElementAt s coords with
    | none => s
    | some surfaceElement =>
      if surfaceElement.GetOwnership &&& OWNERSHIP_OWNED = 0 then
        if (s.elementsAt coords).isEmpty then s
        else
          let fenceRequired := !(s.elementsAt coords).any isNonGhostParkEntrance
          storeFences s coords surfaceElement (if fenceRequired then neighbourFences s coords else 0)
      else storeFences s coords surfaceElement 0

/-- Function `ParkUpdateFencesAroundTile(coords)`. -/
def ParkUpdateFencesAroundTile (coords : CoordsXY) (s : GameState) : GameState :=
  let s1 := ParkUpdateFences coords s
  let s2 := ParkUpdateFences { x := coords.x + COORDS_XY_STEP, y := coords.y } s1
  let s3 := ParkUpdateFences { x := coords.x - COORDS_XY_STEP, y := coords.y } s2
  let s4 := ParkUpdateFences { x := coords.x, y := coords.y + COORDS_XY_STEP } s3
  ParkUpdateFences { x := coords.x, y := coords.y - COORDS_XY_STEP } s4

/-! ## Game action results -/

namespace GameActions

/-- The status codes of `GameActions::Status` that the two actions return. -/
inductive Status where
  | Ok
  | InvalidParameters
  | NotInEditorMode
deriving DecidableEq, Repr

end GameActions

/-- The string identifiers the two actions use. -/
inductive StringId where
  | STR_NONE
  | STR_LAND_NOT_FOR_SALE
  | STR_ERR_INVALID_PARAMETER
  | STR_ERR_SURFACE_ELEMENT_NOT_FOUND
  | STR_ERR_VALUE_OUT_OF_RANGE
  | STR_CANT_CLOSE_PARK
  | STR_CANT_OPEN_PARK
deriving DecidableEq, Repr

/-- The expenditure categories of a result the two actions use. -/
inductive ExpenditureType where
  | LandPurchase
  | Count
deriving DecidableEq, Repr

/-- Modelled from the spec: the constant `LOCATION_NULL` of an unset result
position (`Location.hpp` is not among the sources). -/
def LOCATION_NULL : Int := -32768

namespace GameActions

/-- Modelled from the spec: the value type `GameActions::Result`
(`GameAction.h` is not among the sources): status, error title and message,
cost, position and expenditure category.  The position keeps the x and y of
the source; its z, the value of `TileElementHeight`, is not represented. -/
structure Result where
  Error : Status
  ErrorTitle : StringId
  ErrorMessage : StringId
  Cost : Int
  Position : CoordsXY
  Expenditure : ExpenditureType
deriving DecidableEq, Repr

/-- Constructor `GameActions::Result(status, title, message)`. -/
def Result.make (status : Status) (title message : StringId) : Result :=
  { Error := status, ErrorTitle := title, ErrorMessage := message, Cost := 0,
    Position := { x := LOCATION_NULL, y := LOCATION_NULL },
    Expenditure := ExpenditureType.Count }

/-- Default constructor `GameActions::Result()`. -/
def Result.ok : Result := Result.make Status.Ok StringId.STR_NONE StringId.STR_NONE

end GameActions

/-! ## `LandSetRightsAction.cpp` -/

/-- Modelled from the spec: the five settings of `LandSetRightSetting`
(`LandSetRightsAction.h` is not among the sources), numbered in the order of
their declaration; the setting is a `uint8_t`, so a value from 5 on is an
out-of-range enum value. -/
def LandSetRightSetting.UnownLand : Nat := 0

/-- Modelled from the spec: see `LandSetRightSetting.UnownLand`. -/
def LandSetRightSetting.UnownConstructionRights : Nat := 1

/-- Modelled from the spec: see `LandSetRightSetting.UnownLand`. -/
def LandSetRightSetting.SetForSale : Nat := 2

/-- Modelled from the spec: see `LandSetRightSetting.UnownLand`. -/
def LandSetRightSetting.SetConstructionRightsForSale : Nat := 3

/-- Modelled from the spec: see `LandSetRightSetting.UnownLand`. -/
def LandSetRightSetting.SetOwnershipWithChecks : Nat := 4

/-- The parameters of a `LandSetRightsAction`: `_range`, `_setting` and
`_ownership`. -/
structure LandSetRightsAction where
  range : MapRange
  setting : Nat
  ownership : Nat
deriving DecidableEq, Repr

/-- Constructor `LandSetRightsAction(coord, setting, ownership)` for a single
location. -/
def LandSetRightsAction.ofCoord (coord : CoordsXY) (setting ownership : Nat) :
    LandSetRightsAction :=
  { range := { Left := coord.x, Top := coord.y, Right := coord.x, Bottom := coord.y },
    setting := setting, ownership := ownership }

/-- The loop over the entrance elements of the tile in the
`SetOwnershipWithChecks` case: `true` when the loop leaves the function with
the zero-cost result, `false` when it runs to its end. -/
def entranceLoopReturns (ownership : Nat) (surfaceElement : SurfaceElement) :
    List EntranceElement → Bool
  | [] => false
  | entranceElement :: rest =>
    if entranceElement.EntranceType ≠ ENTRANCE_TYPE_PARK_ENTRANCE then
      entranceLoopReturns ownership surfaceElement rest
    else if ownership = OWNERSHIP_OWNED ∨ ownership = OWNERSHIP_AVAILABLE then true
    else if (ownership = OWNERSHIP_CONSTRUCTION_RIGHTS_OWNED ∨
          ownership = OWNERSHIP_CONSTRUCTION_RIGHTS_AVAILABLE) ∧
        ((entranceElement.BaseHeight : Int) - 3 > (surfaceElement.BaseHeight : Int) ∨
          entranceElement.BaseHeight < surfaceElement.BaseHeight) then true
    else entranceLoopReturns ownership surfaceElement rest

/-- The `erase`/`remove_if` statement of `MapBuyLandRightsForTile`: the spawns
on the tile at `loc` are removed, the others keep their order. -/
def erasePeepSpawnsAt (loc : CoordsXY) (spawns : List PeepSpawn) : List PeepSpawn :=
  spawns.filter (fun spawn => !(decide (Floor2 spawn.x = loc.x) && decide (Floor2 spawn.y = loc.y)))

/-- Function `LandSetRightsAction::MapBuyLandRightsForTile(loc, isExecuting)`:
the per-tile result and the state after the call.  `MapInvalidateTile` only
marks a screen area for redrawing and is no part of the game state. -/
def MapBuyLandRightsForTile (a : LandSetRightsAction) (loc : CoordsXY) (isExecuting : Bool)
    (s : GameState) : GameActions.Result × GameState :=
  match MapGetSurfaceElementAt s loc with
  | none =>
    (GameActions.Result.make GameActions.Status.InvalidParameters
      StringId.STR_ERR_INVALID_PARAMETER StringId.STR_ERR_SURFACE_ELEMENT_NOT_FOUND, s)
  | some surfaceElement =>
    let res := GameActions.Result.ok
    match a.setting with
    | 0 =>
      if isExecuting then
        (res, ParkUpdateFencesAroundTile loc
          (s.modifySurfaceAt loc (fun e => e.SetOwnership
            (e.GetOwnership &&& (255 ^^^ (OWNERSHIP_OWNED ||| OWNERSHIP_CONSTRUCTION_RIGHTS_OWNED))))))
      else (res, s)
    | 1 =>
      if isExecuting then
        (res, s.modifySurfaceAt loc (fun e => e.SetOwnership
          (e.GetOwnership &&& (255 ^^^ OWNERSHIP_CONSTRUCTION_RIGHTS_OWNED))))
      else (res, s)
    | 2 =>
      if isExecuting then
        (res, s.modifySurfaceAt loc (fun e => e.SetOwnership (e.GetOwnership ||| OWNERSHIP_AVAILABLE)))
      else (res, s)
    | 3 =>
      if isExecuting then
        (res, s.modifySurfaceAt loc (fun e => e.SetOwnership
          (e.GetOwnership ||| OWNERSHIP_CONSTRUCTION_RIGHTS_AVAILABLE)))
      else (res, s)
    | 4 =>
      if a.ownership = surfaceElement.GetOwnership then (res, s)
      else if entranceLoopReturns a.ownership surfaceElement (entranceElements (s.elementsAt loc))
      then (res, s)
      else
        let res := { res with Cost := s.LandPrice }
        if isExecuting then
          let s1 :=
            if a.ownership ≠ OWNERSHIP_UNOWNED then
              { s with PeepSpawns := erasePeepSpawnsAt loc s.PeepSpawns }
            else s
          let s2 := s1.modifySurfaceAt loc (fun e => e.SetOwnership a.ownership)
          let s3 := ParkUpdateFencesAroundTile loc s2
          (res, { s3 with MapLandRightsUpdateSuccess := true })
        else (res, s)
    | _ =>
      (GameActions.Result.make GameActions.Status.InvalidParameters
        StringId.STR_ERR_INVALID_PARAMETER StringId.STR_ERR_VALUE_OUT_OF_RANGE, s)

/-- The values a loop `for (v = first; v <= last; v += COORDS_XY_STEP)` gives
its variable, in order. -/
def stepValues (first last : Int) : List Int :=
  List.map (fun i : Nat => first + COORDS_XY_STEP * (i : Int))
    (List.range ((last - first) / COORDS_XY_STEP + 1).toNat)

/-- Body of the inner loop of `QueryExecute` at the location `loc`, on the
result accumulated so far and the current state. -/
def tileStep (a : LandSetRightsAction) (isExecuting : Bool) (loc : CoordsXY)
    (acc : GameActions.Result × GameState) : GameActions.Result × GameState :=
  if !LocationValid loc then acc
  else
    let r := MapBuyLandRightsForTile a loc isExecuting acc.2
    if r.1.Error = GameActions.Status.Ok then
      ({ acc.1 with Cost := wrapInt64 (acc.1.Cost + r.1.Cost) }, r.2)
    else (acc.1, r.2)

/-- The locations the two nested loops of `QueryExecute` visit, in order. -/
def loopLocations (validRange : MapRange) : List CoordsXY :=
  (stepValues validRange.Top validRange.Bottom).flatMap
    (fun y => (stepValues validRange.Left validRange.Right).map (fun x => { x := x, y := y }))

/-- Function `LandSetRightsAction::QueryExecute(isExecuting)`: the result and
the state after the call.  The two statements that follow the loops when
executing, `MapCountRemainingLandRights` (which recounts two derived counters
of tiles for sale) and the sound, write none of the fields of `GameState`. -/
def LandSetRightsAction.QueryExecute (a : LandSetRightsAction) (isExecuting : Bool)
    (s : GameState) : GameActions.Result × GameState :=
  let validRange := ClampRangeWithinMap s a.range.Normalise
  let centre : CoordsXY :=
    { x := Int.tdiv (validRange.Left + validRange.Right) 2 + 16
      y := Int.tdiv (validRange.Top + validRange.Bottom) 2 + 16 }
  let res : GameActions.Result :=
    { GameActions.Result.ok with Position := centre, Expenditure := ExpenditureType.LandPurchase }
  if !s.ScreenFlagsEditor && !s.SandboxMode then
    (GameActions.Result.make GameActions.Status.NotInEditorMode
      StringId.STR_NONE StringId.STR_LAND_NOT_FOR_SALE, s)
  else
    (stepValues validRange.Top validRange.Bottom).foldl
      (fun acc y =>
        (stepValues validRange.Left validRange.Right).foldl
          (fun acc x => tileStep a isExecuting { x := x, y := y } acc) acc)
      (res, s)

/-- Function `LandSetRightsAction::Query()`. -/
def LandSetRightsAction.Query (a : LandSetRightsAction) (s : GameState) :
    GameActions.Result × GameState :=
  a.QueryExecute false s

/-- Function `LandSetRightsAction::Execute()`. -/
def LandSetRightsAction.Execute (a : LandSetRightsAction) (s : GameState) :
    GameActions.Result × GameState :=
  a.QueryExecute true s

/-! ## `ParkSetParameterAction.cpp` -/

/-- Modelled from the spec: the enumerated parameter set of `ParkParameter`
(`ParkSetParameterAction.h` is not among the sources), numbered in the order
of its declaration: Close, Open, SamePriceInPark, and `Count`, the number of
parameters.  The parameter is a `uint8_t`. -/
def ParkParameter.Close : Nat := 0

/-- Modelled from the spec: see `ParkParameter.Close`. -/
def ParkParameter.Open : Nat := 1

/-- Modelled from the spec: see `ParkParameter.Close`. -/
def ParkParameter.SamePriceInPark : Nat := 2

/-- Modelled from the spec: see `ParkParameter.Close`. -/
def ParkParameter.Count : Nat := 3

/-- Modelled from the spec: the park flag "park open" (`Park.h` is not among
the sources). -/
def PARK_FLAGS_PARK_OPEN : Nat := 1

/-- Modelled from the spec: the park flag "difficult rating" (`Park.h` is not
among the sources). -/
def PARK_FLAGS_DIFFICULT_PARK_RATING : Nat := 16384

/-- The display panels `WindowInvalidateByClass` is called with. -/
inductive WindowClass where
  | ParkInformation
  | Ride
  | Finances
deriving DecidableEq, Repr

/-- Modelled from the spec: the table `_ErrorTitles` of per-parameter error
titles (`ParkSetParameterAction.h` is not among the sources). -/
def ParkSetParameterAction.ErrorTitles (parameter : Nat) : StringId :=
  match parameter with
  | 0 => StringId.STR_CANT_CLOSE_PARK
  | 1 => StringId.STR_CANT_OPEN_PARK
  | _ => StringId.STR_NONE

/-- The parameters of a `ParkSetParameterAction`: `_parameter` and `_value`. -/
structure ParkSetParameterAction where
  parameter : Nat
  value : Nat
deriving DecidableEq, Repr

/-- Function `ParkSetParameterAction::Query()`; the function is `const` and
has no statement that writes the game state, which it returns as it is. -/
def ParkSetParameterAction.Query (a : ParkSetParameterAction) (s : GameState) :
    GameActions.Result × GameState :=
  if a.parameter ≥ ParkParameter.Count then
    (GameActions.Result.make GameActions.Status.InvalidParameters
      StringId.STR_ERR_INVALID_PARAMETER StringId.STR_ERR_VALUE_OUT_OF_RANGE, s)
  else
    ({ GameActions.Result.ok with
        ErrorTitle := ParkSetParameterAction.ErrorTitles a.parameter }, s)

/-- Function `ParkSetParameterAction::Execute()`: the result, the state after
the call, and the window classes `WindowInvalidateByClass` was called with.
`ParkFlags` is a 64-bit field and `PARK_FLAGS_PARK_OPEN` a 32-bit unsigned
constant (`GameState.h` and `Park.h` are not among the sources, the widths
are modelled from the spec), so `~PARK_FLAGS_PARK_OPEN` is the 32-bit
complement 0xFFFFFFFE, zero-extended for the 64-bit `&=`: the statement
`ParkFlags &= ~PARK_FLAGS_PARK_OPEN` clears the bit 0 and the bits 32 to
63. -/
def ParkSetParameterAction.Execute (a : ParkSetParameterAction) (s : GameState) :
    GameActions.Result × GameState × List WindowClass :=
  let res : GameActions.Result :=
    { GameActions.Result.ok with ErrorTitle := ParkSetParameterAction.ErrorTitles a.parameter }
  match a.parameter with
  | 0 =>
    if s.ParkFlags &&& PARK_FLAGS_PARK_OPEN ≠ 0 then
      (res, { s with ParkFlags := s.ParkFlags &&& (4294967295 ^^^ PARK_FLAGS_PARK_OPEN) },
        [WindowClass.ParkInformation])
    else (res, s, [])
  | 1 =>
    if s.ParkFlags &&& PARK_FLAGS_PARK_OPEN = 0 then
      (res, { s with ParkFlags := s.ParkFlags ||| PARK_FLAGS_PARK_OPEN },
        [WindowClass.ParkInformation])
    else (res, s, [])
  | 2 => (res, { s with SamePriceThroughoutPark := a.value }, [WindowClass.Ride])
  | _ =>
    (GameActions.Result.make GameActions.Status.InvalidParameters
      StringId.STR_ERR_INVALID_PARAMETER StringId.STR_ERR_VALUE_OUT_OF_RANGE, s, [])

/-! ## Park rating (`Park.cpp`) -/

/-- Body of the loop over the guests in `CalculateParkRating`; the pair is
`(happyGuestCount, lostGuestCount)`, both `uint32_t`. -/
def guestLoopBody (counts : Int × Int) (peep : Guest) : Int × Int :=
  if !peep.OutsideOfPark then
    let happyGuestCount := if peep.Happiness > 128 then wrapUInt32 (counts.1 + 1) else counts.1
    let lostGuestCount :=
      if peep.LeavingPark && decide (peep.GuestIsLostCountdown < 90) then
        wrapUInt32 (counts.2 + 1)
      else counts.2
    (happyGuestCount, lostGuestCount)
  else counts

/-- The five `int32_t` accumulators of the loop over the rides in
`CalculateParkRating`. -/
structure RideTotals where
  rideCount : Int
  excitingRideCount : Int
  totalRideUptime : Int
  totalRideIntensity : Int
  totalRideExcitement : Int
deriving DecidableEq, Repr

/-- Body of the loop over the rides in `CalculateParkRating`. -/
def rideLoopBody (t : RideTotals) (ride : Ride) : RideTotals :=
  let totalRideUptime := wrapInt32 (t.totalRideUptime + (100 - (ride.downtime : Int)))
  let t1 : RideTotals :=
    if ride.HasRatings then
      { t with
        totalRideExcitement := wrapInt32 (t.totalRideExcitement + Int.tdiv ride.excitement 8)
        totalRideIntensity := wrapInt32 (t.totalRideIntensity + Int.tdiv ride.intensity 8)
        excitingRideCount := wrapInt32 (t.excitingRideCount + 1) }
    else t
  { t1 with totalRideUptime := totalRideUptime, rideCount := wrapInt32 (t.rideCount + 1) }

/-- The block `// Guests` of `CalculateParkRating`, from the value of `result`
before it to the value after it. -/
def ratingGuests (s : GameState) (result : Int) : Int :=
  let result := wrapInt32 (result - (150 - Int.tdiv (min 2000 (wrapInt32 s.NumGuestsInPark)) 13))
  let counts := s.Guests.foldl guestLoopBody (0, 0)
  let happyGuestCount := counts.1
  let lostGuestCount := counts.2
  let result := wrapInt32 (result - 500)
  let result :=
    if s.NumGuestsInPark > 0 then
      wrapInt32 (result + wrapUInt32 (2 * min 250 (wrapUInt32 (happyGuestCount * 300) / s.NumGuestsInPark)))
    else result
  if lostGuestCount > 25 then wrapInt32 (result - wrapUInt32 ((lostGuestCount - 25) * 7))
  else result

/-- The block `// Rides` of `CalculateParkRating`. -/
def ratingRides (s : GameState) (result : Int) : Int :=
  let t := s.Rides.foldl rideLoopBody
    { rideCount := 0, excitingRideCount := 0, totalRideUptime := 0,
      totalRideIntensity := 0, totalRideExcitement := 0 }
  let result := wrapInt32 (result - 200)
  let result :=
    if t.rideCount > 0 then wrapInt32 (result + wrapInt32 (Int.tdiv t.totalRideUptime t.rideCount * 2))
    else result
  let result := wrapInt32 (result - 100)
  let result :=
    if t.excitingRideCount > 0 then
      let averageExcitement := Int.tdiv t.totalRideExcitement t.excitingRideCount
      let averageIntensity := Int.tdiv t.totalRideIntensity t.excitingRideCount
      let averageExcitement := wrapInt32 (averageExcitement - 46)
      let averageExcitement :=
        if averageExcitement < 0 then wrapInt32 (-averageExcitement) else averageExcitement
      let averageIntensity := wrapInt32 (averageIntensity - 65)
      let averageIntensity :=
        if averageIntensity < 0 then wrapInt32 (-averageIntensity) else averageIntensity
      let averageExcitement := min (Int.tdiv averageExcitement 2) 50
      let averageIntensity := min (Int.tdiv averageIntensity 2) 50
      wrapInt32 (result + wrapInt32 (wrapInt32 (100 - averageExcitement) - averageIntensity))
    else result
  let totalRideExcitement := min 1000 t.totalRideExcitement
  let totalRideIntensity := min 1000 t.totalRideIntensity
  wrapInt32 (result - (200 - Int.tdiv (totalRideExcitement + totalRideIntensity) 10))

/-- The block `// Litter` of `CalculateParkRating`. -/
def ratingLitter (s : GameState) (result : Int) : Int :=
  let litterCount : Int := (s.LitterList.filter (fun litter => decide (litter.Age ≥ 7680))).length
  wrapInt32 (result - (600 - 4 * (150 - min 150 (wrapInt32 litterCount))))

/-- Function `Park::CalculateParkRating()`. -/
def CalculateParkRating (s : GameState) : Int :=
  if s.ForcedParkRating ≥ 0 then s.ForcedParkRating
  else
    let result : Int := if s.ParkFlags &&& PARK_FLAGS_DIFFICULT_PARK_RATING ≠ 0 then 1050 else 1150
    let result := ratingGuests s result
    let result := ratingRides s result
    let result := ratingLitter s result
    let result := wrapInt32 (result - s.ParkRatingCasualtyPenalty)
    clamp result 0 999

/-- Function `ParkSetForcedRating(rating)`; the stored `ParkRating` is a
`uint16_t`.  The broadcast of the intent writes no field of `GameState`. -/
def ParkSetForcedRating (rating : Int) (s : GameState) : GameState :=
  let s1 := { s with ForcedParkRating := rating }
  { s1 with ParkRating := (CalculateParkRating s1 % 65536).toNat }

/-! ## Park flags and entrance fee (`Park.cpp`) -/

/-- Modelled from the spec: the park flag "no money" (`Park.h` is not among
the sources). -/
def PARK_FLAGS_NO_MONEY : Nat := 2048

/-- Modelled from the spec: the park flag "difficult guest generation"
(`Park.h` is not among the sources). -/
def PARK_FLAGS_DIFFICULT_GUEST_GENERATION : Nat := 4096

/-- Modelled from the spec: the park flag "free entry" (`Park.h` is not among
the sources). -/
def PARK_FLAGS_PARK_FREE_ENTRY : Nat := 8192

/-- Modelled from the spec: the park flag "show real guest names" (`Park.h`
is not among the sources). -/
def PARK_FLAGS_SHOW_REAL_GUEST_NAMES : Nat := 65536

/-- Modelled from the spec: the park flag "unlock all prices" (`Park.h` is not
among the sources). -/
def PARK_FLAGS_UNLOCK_ALL_PRICES : Nat := 2147483648

/-- Function `ParkRidePricesUnlocked()`. -/
def ParkRidePricesUnlocked (s : GameState) : Bool :=
  if s.ParkFlags &&& PARK_FLAGS_UNLOCK_ALL_PRICES ≠ 0 then true
  else if s.ParkFlags &&& PARK_FLAGS_PARK_FREE_ENTRY ≠ 0 then true
  else false

/-- Function `ParkEntranceFeeUnlocked()`. -/
def ParkEntranceFeeUnlocked (s : GameState) : Bool :=
  if s.ParkFlags &&& PARK_FLAGS_UNLOCK_ALL_PRICES ≠ 0 then true
  else if s.ParkFlags &&& PARK_FLAGS_PARK_FREE_ENTRY = 0 then true
  else false

/-- Function `ParkGetEntranceFee()`. -/
def ParkGetEntranceFee (s : GameState) : Int :=
  if s.ParkFlags &&& PARK_FLAGS_NO_MONEY ≠ 0 then 0
  else if !ParkEntranceFeeUnlocked s then 0
  else s.ParkEntranceFee

/-! ## Park value and company value (`Park.cpp`) -/

/-- Least value of `money64`. -/
def INT64_MIN : Int := -9223372036854775808

/-- Greatest value of `money64`. -/
def INT64_MAX : Int := 9223372036854775807

/-- Modelled from the spec: the constant `RIDE_VALUE_UNDEFINED` of a ride
without a value (`Ride.h` is not among the sources). -/
def RIDE_VALUE_UNDEFINED : Int := -9223372036854775808

/-- Modelled from the spec: the money literal `w.ff_GBP` (`Money.hpp` is not
among the sources); a `money64` counts tenths of the currency unit, so that
`7.00_GBP` is `GBP 7 0`, the value 70. -/
def GBP (whole hundredths : Int) : Int := whole * 10 + hundredths / 10

/-- Modelled from the spec: `AddClamp_money64` (`util/Util.h` is not among
the sources): the sum, saturating at the bounds of `money64`. -/
def AddClamp_money64 (value value_to_add : Int) : Int :=
  clamp (value + value_to_add) INT64_MIN INT64_MAX

/-- Function `Park::CalculateRideValue(ride)`. -/
def CalculateRideValue (ride : Ride) : Int :=
  if ride.value ≠ RIDE_VALUE_UNDEFINED then
    wrapInt64 (wrapInt64 (ride.value * 10) *
      wrapInt64 ((ride.CustomersInLast5Minutes : Int) + wrapInt64 ((ride.BonusValue : Int) * 4)))
  else 0

/-- Function `Park::CalculateParkValue()`. -/
def CalculateParkValue (s : GameState) : Int :=
  let result := s.Rides.foldl (fun result ride => wrapInt64 (result + CalculateRideValue ride)) 0
  wrapInt64 (result + wrapInt64 ((s.NumGuestsInPark : Int) * GBP 7 0))

/-- Function `Park::CalculateCompanyValue()`: the subtraction is the plain
`money64` subtraction, the addition is `AddClamp_money64`. -/
def CalculateCompanyValue (s : GameState) : Int :=
  let result := wrapInt64 (s.ParkValue - s.BankLoan)
  AddClamp_money64 result s.Cash

/-- Body of the loop of `Park::CalculateTotalRideValueForMoney()`. -/
def totalRideValueLoopBody (ridePricesUnlocked : Bool) (totalRideValue : Int) (ride : Ride) : Int :=
  if ride.status ≠ RideStatus.Open then totalRideValue
  else if ride.BrokenDown then totalRideValue
  else if ride.Crashed then totalRideValue
  else if ride.value ≠ RIDE_VALUE_UNDEFINED then
    let rideValue := if ridePricesUnlocked then wrapInt64 (ride.value - ride.price0) else ride.value
    if rideValue > 0 then wrapInt64 (totalRideValue + wrapInt64 (rideValue * 2))
    else totalRideValue
  else totalRideValue

/-- Function `Park::CalculateTotalRideValueForMoney()`. -/
def CalculateTotalRideValueForMoney (s : GameState) : Int :=
  let ridePricesUnlocked :=
    ParkRidePricesUnlocked s && !decide (s.ParkFlags &&& PARK_FLAGS_NO_MONEY ≠ 0)
  s.Rides.foldl (totalRideValueLoopBody ridePricesUnlocked) 0

/-- Body of the loop of `Park::CalculateSuggestedMaxGuests()`; the pair is
`(suggestedMaxGuests, difficultGenerationBonus)`, both `uint32_t`. -/
def suggestedMaxGuestsLoopBody (difficultGeneration : Bool) (acc : Int × Int) (ride : Ride) :
    Int × Int :=
  if ride.status ≠ RideStatus.Open then acc
  else if ride.BrokenDown then acc
  else if ride.Crashed then acc
  else
    let suggestedMaxGuests := wrapUInt32 (acc.1 + (ride.BonusValue : Int))
    if difficultGeneration then
      if !ride.Tested then (suggestedMaxGuests, acc.2)
      else if !ride.HasTrack then (suggestedMaxGuests, acc.2)
      else if !ride.HasDataLogging then (suggestedMaxGuests, acc.2)
      else if ride.SegmentLength < 39321600 then (suggestedMaxGuests, acc.2)
      else if ride.excitement < 600 then (suggestedMaxGuests, acc.2)
      else (suggestedMaxGuests, wrapUInt32 (acc.2 + (ride.BonusValue : Int) * 2))
    else (suggestedMaxGuests, acc.2)

/-- Function `Park::CalculateSuggestedMaxGuests()`. -/
def CalculateSuggestedMaxGuests (s : GameState) : Int :=
  let difficultGeneration := decide (s.ParkFlags &&& PARK_FLAGS_DIFFICULT_GUEST_GENERATION ≠ 0)
  let acc := s.Rides.foldl (suggestedMaxGuestsLoopBody difficultGeneration) (0, 0)
  let suggestedMaxGuests :=
    if difficultGeneration then wrapUInt32 (min acc.1 1000 + acc.2) else acc.1
  min suggestedMaxGuests 65535

/-! ## Guest generation probability (`Park.cpp`) -/

/-- Body of the loop over the awards in
`Park::CalculateGuestGenerationProbability()`; the probability is a
`uint32_t`. -/
def awardLoopBody (probability : Int) (award : Award) : Int :=
  if award.Positive then wrapUInt32 (probability + probability / 4)
  else wrapUInt32 (probability - probability / 4)

/-- The statements of `Park::CalculateGuestGenerationProbability()` that come
before the loop over the awards. -/
def probabilityBeforeAwards (s : GameState) : Int :=
  let probability : Int := wrapUInt32 (50 + clamp ((s.ParkRating : Int) - 200) 0 650)
  let numGuests := wrapUInt32 ((s.NumGuestsInPark : Int) + (s.NumGuestsHeadingForPark : Int))
  let probability :=
    if numGuests > (s.SuggestedGuestMaximum : Int) then
      if s.ParkFlags &&& PARK_FLAGS_DIFFICULT_GUEST_GENERATION ≠ 0 then probability / 4 / 4
      else probability / 4
    else probability
  let probability := if numGuests > 7000 then probability / 4 else probability
  let entranceFee := ParkGetEntranceFee s
  if entranceFee > s.TotalRideValueForMoney then
    if Int.tdiv entranceFee 2 > s.TotalRideValueForMoney then probability / 4 / 4
    else probability / 4
  else probability

/-- Function `Park::CalculateGuestGenerationProbability()`. -/
def CalculateGuestGenerationProbability (s : GameState) : Int :=
  s.Awards.foldl awardLoopBody (probabilityBeforeAwards s)

/-- The block `// Every ~13 seconds` of `Park::Update`, run when
`currentTicks % 512 == 0`.  The stored rating is a `uint16_t`.  The window
invalidation and the intent write no field of `GameState`. -/
def Park.UpdateEvery512Ticks (s : GameState) : GameState :=
  if s.CurrentTicks % 512 = 0 then
    let s1 := { s with ParkRating := (CalculateParkRating s % 65536).toNat }
    let s2 := { s1 with ParkValue := CalculateParkValue s1 }
    let s3 := { s2 with CompanyValue := CalculateCompanyValue s2 }
    let s4 := { s3 with TotalRideValueForMoney := CalculateTotalRideValueForMoney s3 }
    let s5 := { s4 with SuggestedGuestMaximum := (CalculateSuggestedMaxGuests s4).toNat }
    { s5 with GuestGenerationProbability := CalculateGuestGenerationProbability s5 }
  else s

/-! ## Histories (`Park.cpp`) -/

/-- The loop `for (i = TSize - 1; i > 0; i--) history[i] = history[i - 1];`
of `HistoryPushRecord`, from the value `i` of its variable on. -/
def HistoryPushRecord.shift {T : Type} (history : List T) : Nat → List T
  | 0 => history
  | i + 1 =>
    match history[i]? with
    | some item => HistoryPushRecord.shift (history.set (i + 1) item) i
    | none => HistoryPushRecord.shift history i

/-- Function `HistoryPushRecord<T, TSize>(history, newItem)` on an array of
`TSize` entries, `TSize` at least 1. -/
def HistoryPushRecord {T : Type} (TSize : Nat) (history : List T) (newItem : T) : List T :=
  (HistoryPushRecord.shift history (TSize - 1)).set 0 newItem

/-- Modelled from the spec: the constant `ParkRatingHistoryUndefined`
(`Park.h` is not among the sources), the greatest `uint8_t`. -/
def ParkRatingHistoryUndefined : Nat := 255

/-- Modelled from the spec: the constant `GuestsInParkHistoryUndefined`
(`Park.h` is not among the sources), the greatest `uint32_t`. -/
def GuestsInParkHistoryUndefined : Nat := 4294967295

/-- Function `Park::ResetHistories()`. -/
def Park.ResetHistories (s : GameState) : GameState :=
  { s with
    ParkRatingHistory := List.replicate s.ParkRatingHistory.length ParkRatingHistoryUndefined
    GuestsInParkHistory := List.replicate s.GuestsInParkHistory.length GuestsInParkHistoryUndefined }

/-- The value of `guestChangeModifier` in `Park::UpdateHistories()`. -/
def guestChangeModifier (s : GameState) : Nat :=
  let changeInGuestsInPark : Int :=
    wrapInt32 (wrapInt32 s.NumGuestsInPark - wrapInt32 s.NumGuestsInParkLastWeek)
  if changeInGuestsInPark > -20 then
    if changeInGuestsInPark < 20 then 0 else 2
  else 1

/-- Function `Park::UpdateHistories()`.  The rating history is an array of
`uint8_t`.  The intent and the window invalidations write no field of
`GameState`. -/
def Park.UpdateHistories (s : GameState) : GameState :=
  let s1 :=
    { s with
      GuestChangeModifier := guestChangeModifier s
      NumGuestsInParkLastWeek := s.NumGuestsInPark }
  let s2 :=
    { s1 with
      ParkRatingHistory := HistoryPushRecord 32 s1.ParkRatingHistory (s1.ParkRating / 4 % 256)
      GuestsInParkHistory := HistoryPushRecord 32 s1.GuestsInParkHistory s1.NumGuestsInPark
      CashHistory :=
        HistoryPushRecord s1.CashHistory.length s1.CashHistory (wrapInt64 (s1.Cash - s1.BankLoan)) }
  let currentWeeklyProfit :=
    if s2.WeeklyProfitAverageDivisor ≠ 0 then
      Int.tdiv s2.WeeklyProfitAverageDividend s2.WeeklyProfitAverageDivisor
    else s2.WeeklyProfitAverageDividend
  { s2 with
    WeeklyProfitHistory :=
      HistoryPushRecord s2.WeeklyProfitHistory.length s2.WeeklyProfitHistory currentWeeklyProfit
    WeeklyProfitAverageDividend := 0
    WeeklyProfitAverageDivisor := 0
    ParkValueHistory :=
      HistoryPushRecord s2.WeeklyProfitHistory.length s2.ParkValueHistory s2.ParkValue }

/-- Function `Park::Initialise()`, on the fields of `GameState`.  The
functions `FinanceInit`, `FinanceResetHistory` and `AwardReset` are not among
the sources and write finance and award fields of `GameState`; they are
parameters.  The other calls (research, inventions, marketing, park
entrances, language strings) and the assignments to staff colours, research
settings, guest initial values, scenario objective, construction rights
price and scenario texts concern no field of `GameState`. -/
def Park.Initialise (FinanceInit FinanceResetHistory AwardReset : GameState → GameState)
    (s : GameState) : GameState :=
  let s1 :=
    { s with
      NumGuestsInPark := 0
      NumGuestsInParkLastWeek := 0
      NumGuestsHeadingForPark := 0
      GuestChangeModifier := 0
      ParkRating := 0
      GuestGenerationProbability := 0
      TotalRideValueForMoney := 0
      SuggestedGuestMaximum := 0 }
  let s2 := FinanceInit s1
  let s3 :=
    { s2 with
      ParkEntranceFee := GBP 10 0
      PeepSpawns := []
      LandPrice := GBP 90 0
      ParkFlags := PARK_FLAGS_NO_MONEY ||| PARK_FLAGS_SHOW_REAL_GUEST_NAMES }
  let s4 := Park.ResetHistories s3
  let s5 := FinanceResetHistory s4
  AwardReset s5

/-! ## Guest initial happiness (`Park.cpp`) -/

/-- The loop `for (uint8_t n = 1; n < 55; n++)` of
`Park::CalculateGuestInitialHappiness`, from the value `n` of its variable on,
with `remaining` iterations left (54 at the start, so that the loop ends with
`n` at 55): the value of the `return` in the loop, `none` when the loop runs
to its end.  The product is an `int32_t`, the two divisions are those of C++,
the result is a `uint8_t`. -/
def happinessLoop (percentage : Int) : Nat → Nat → Option Int
  | 0, _ => none
  | remaining + 1, n =>
    if Int.tdiv (Int.tdiv (wrapInt32 (314159 * (9 + (n : Int)))) 100000) 2 ≥ percentage then
      some (((9 + (n : Int)) * 4) % 256)
    else happinessLoop percentage remaining (n + 1)

/-- Function `Park::CalculateGuestInitialHappiness(percentage)`; the
parameter is a `uint8_t`, and so is the clamped value. -/
def CalculateGuestInitialHappiness (percentage : Nat) : Int :=
  let percentage := clamp (percentage : Int) 15 98 % 256
  match happinessLoop percentage 54 1 with
  | some result => result
  | none => 40

/-! ## A small map for concrete evaluations -/

/-- A surface element with the given ownership mask, no fences, height 14. -/
def sampleSurface (ownership : Nat) : TileElement :=
  TileElement.Surface { Ownership := ownership, ParkFences := 0, BaseHeight := 14 }

/-- A park entrance element that is not a ghost, at height 14. -/
def sampleParkEntrance : TileElement :=
  TileElement.Entrance { EntranceType := ENTRANCE_TYPE_PARK_ENTRANCE, Ghost := false, BaseHeight := 14 }

/-- The tiles of a map of 6 by 6 tiles.  Tile (1,1) is unowned, tile (2,1) is
unowned and carries a park entrance, tile (3,1) carries a park entrance and
has no surface element, tile (4,1) has no element at all, every other tile
is owned. -/
def sampleTiles (tx ty : Int) : List TileElement :=
  if tx = 1 ∧ ty = 1 then [sampleSurface OWNERSHIP_UNOWNED]
  else if tx = 2 ∧ ty = 1 then [sampleSurface OWNERSHIP_UNOWNED, sampleParkEntrance]
  else if tx = 3 ∧ ty = 1 then [sampleParkEntrance]
  else if tx = 4 ∧ ty = 1 then []
  else if 0 ≤ tx ∧ tx < 6 ∧ 0 ≤ ty ∧ ty < 6 then [sampleSurface OWNERSHIP_OWNED]
  else []

/-- A game state on `sampleTiles` in the scenario editor, with one peep spawn
on tile (1,1), a land price of 900, no guests, rides, litter or awards, no
forced rating, no money, rating and guest histories of 32 undefined entries
and money histories of four entries. -/
def sampleState : GameState :=
  { Tiles := sampleTiles
    MapSize := { x := 6, y := 6 }
    PeepSpawns := [{ x := 48, y := 48, z := 112, direction := 0 }]
    LandPrice := 900
    ScreenFlagsEditor := true
    SandboxMode := false
    MapLandRightsUpdateSuccess := false
    ParkFlags := 0
    SamePriceThroughoutPark := 0
    ForcedParkRating := -1
    ParkRating := 0
    NumGuestsInPark := 0
    Guests := []
    Rides := []
    LitterList := []
    ParkRatingCasualtyPenalty := 0
    NumGuestsInParkLastWeek := 0
    NumGuestsHeadingForPark := 0
    GuestChangeModifier := 0
    GuestGenerationProbability := 0
    TotalRideValueForMoney := 0
    SuggestedGuestMaximum := 0
    ParkEntranceFee := 0
    ParkValue := 0
    CompanyValue := 0
    BankLoan := 0
    Cash := 0
    Awards := []
    CurrentTicks := 0
    ParkRatingHistory := List.replicate 32 255
    GuestsInParkHistory := List.replicate 32 4294967295
    CashHistory := [0, 0, 0, 0]
    WeeklyProfitHistory := [0, 0, 0, 0]
    ParkValueHistory := [0, 0, 0, 0]
    WeeklyProfitAverageDividend := 0
    WeeklyProfitAverageDivisor := 0 }

/-- The state `sampleState` with no guest in the park and 4294967295 guests
in the park last week. -/
def sampleLastWeekState : GameState :=
  { sampleState with NumGuestsInPark := 0, NumGuestsInParkLastWeek := 4294967295 }

/-- The state `sampleState` outside of the editor, the sandbox cheat off. -/
def samplePlayState : GameState :=
  { sampleState with ScreenFlagsEditor := false }

/-- The action that buys the row of tiles (1,1) to (4,1) of `sampleTiles`
with `SetOwnershipWithChecks`. -/
def sampleBuyAction : LandSetRightsAction :=
  { range := { Left := 32, Top := 32, Right := 160, Bottom := 32 }
    setting := LandSetRightSetting.SetOwnershipWithChecks
    ownership := OWNERSHIP_OWNED }

/-- The action `sampleBuyAction` with the requested mask 33, whose bit 0 is
no ownership bit. -/
def sampleLowBitAction : LandSetRightsAction :=
  { sampleBuyAction with ownership := 33 }

/-- An action on the same row whose setting, 7, is none of the five defined
settings. -/
def sampleBadSettingAction : LandSetRightsAction :=
  { range := { Left := 32, Top := 32, Right := 160, Bottom := 32 }
    setting := 7
    ownership := OWNERSHIP_OWNED }

/-- The state `sampleState` with the given stored rating and 71 positive
awards. -/
def sampleManyAwardsState (rating : Nat) : GameState :=
  { sampleState with
    ParkRating := rating
    Awards := List.replicate 71 { Positive := true } }

/-- The state `sampleState` with the stored rating 205, a suggested guest
maximum of 8000, one positive award and the given number of guests in the
park. -/
def sampleOneAwardState (guests : Nat) : GameState :=
  { sampleState with
    ParkRating := 205
    SuggestedGuestMaximum := 8000
    Awards := [{ Positive := true }]
    NumGuestsInPark := guests }

/-- The state `sampleState` with the greatest park value, a bank loan of -1
and no cash. -/
def sampleOverflowState : GameState :=
  { sampleState with
    ParkValue := 9223372036854775807
    BankLoan := -1
    Cash := 0 }

/-- The action that sets the owned tile (2,2) of `sampleTiles` for sale. -/
def sampleForSaleAction : LandSetRightsAction :=
  { range := { Left := 64, Top := 64, Right := 64, Bottom := 64 }
    setting := LandSetRightSetting.SetForSale
    ownership := OWNERSHIP_UNOWNED }

/-- The action that gives the unowned tile (1,1) of `sampleTiles` the mask
with both the owned and the available bit, with `SetOwnershipWithChecks`. -/
def sampleBothBitsAction : LandSetRightsAction :=
  { range := { Left := 32, Top := 32, Right := 32, Bottom := 32 }
    setting := LandSetRightSetting.SetOwnershipWithChecks
    ownership := OWNERSHIP_OWNED ||| OWNERSHIP_AVAILABLE }

/-- The state `sampleState` with an entrance fee of 21 and a total ride value
for money of 10. -/
def sampleFeeState : GameState :=
  { sampleState with
    ParkEntranceFee := 21
    TotalRideValueForMoney := 10 }

/-- A closed ride with the value 10, one customer in the last 5 minutes and a
ride type without bonus value. -/
def sampleClosedRide : Ride :=
  { downtime := 0
    HasRatings := true
    excitement := 0
    intensity := 0
    status := RideStatus.Closed
    BrokenDown := false
    Crashed := false
    Tested := true
    value := 10
    price0 := 0
    BonusValue := 0
    HasTrack := true
    HasDataLogging := true
    SegmentLength := 0
    CustomersInLast5Minutes := 1 }

/-- The state `sampleState` with the one ride `sampleClosedRide`. -/
def sampleClosedRideState : GameState :=
  { sampleState with Rides := [sampleClosedRide] }

/-- A state in which every tile has an owned surface without fences. -/
def sampleOwnedState : GameState :=
  { sampleState with Tiles := fun _ _ => [sampleSurface OWNERSHIP_OWNED] }

/-- The action that unowns the tile (2,2). -/
def sampleUnownAction : LandSetRightsAction :=
  { range := { Left := 64, Top := 64, Right := 64, Bottom := 64 }
    setting := LandSetRightSetting.UnownLand
    ownership := OWNERSHIP_UNOWNED }

/-- The action that buys the construction rights of the tile (2,1) of
`sampleTiles`, which carries a park entrance at the height of its surface. -/
def sampleRightsAction : LandSetRightsAction :=
  { range := { Left := 64, Top := 32, Right := 64, Bottom := 32 }
    setting := LandSetRightSetting.SetOwnershipWithChecks
    ownership := OWNERSHIP_CONSTRUCTION_RIGHTS_OWNED }

/-! ## Definitions that the statements use -/

/-- The part of a tile that `MapBuyLandRightsForTile` reads: ownership mask
and base height of the surface, and the entrance elements. -/
def rightsView (elems : List TileElement) : Option (Nat × Nat) × List EntranceElement :=
  ((firstSurface elems).map (fun e => (e.Ownership, e.BaseHeight)), entranceElements elems)

/-- The amount a location adds to the cost of `QueryExecute`: the cost of the
per-tile result when the location is valid and that result is Ok, else 0.
The per-tile result is the one of a query on the state `s`. -/
def tileCost (a : LandSetRightsAction) (s : GameState) (loc : CoordsXY) : Int :=
  if LocationValid loc = true ∧
      (MapBuyLandRightsForTile a loc false s).1.Error = GameActions.Status.Ok then
    (MapBuyLandRightsForTile a loc false s).1.Cost
  else 0

/-- The tile carries a park entrance element that is not a ghost. -/
def hasNonGhostParkEntrance (s : GameState) (loc : CoordsXY) : Bool :=
  (s.elementsAt loc).any isNonGhostParkEntrance

/-- Effect of the inner loop body of `QueryExecute` on the state alone. -/
def tileStepState (a : LandSetRightsAction) (isExecuting : Bool) (loc : CoordsXY)
    (s : GameState) : GameState :=
  if LocationValid loc = true then (MapBuyLandRightsForTile a loc isExecuting s).2 else s

/-- The guest total `numGuests` of `CalculateGuestGenerationProbability`, a
`uint32_t`. -/
def numGuests (s : GameState) : Int :=
  wrapUInt32 ((s.NumGuestsInPark : Int) + (s.NumGuestsHeadingForPark : Int))

/-- The greatest probability after `k` awards: 700 raised by a quarter `k`
times. -/
def awardBound : Nat → Int
  | 0 => 700
  | k + 1 => awardBound k + awardBound k / 4

/-- The number of positive awards of a list. -/
def positiveAwards (awards : List Award) : Nat :=
  awards.countP (fun award => award.Positive)

/-- An ownership mask has not both the owned and the available bit, nor both
the construction rights owned and the construction rights available bit. -/
def OwnershipMaskConsistent (ownership : Nat) : Prop :=
  ¬ (ownership &&& OWNERSHIP_OWNED ≠ 0 ∧ ownership &&& OWNERSHIP_AVAILABLE ≠ 0) ∧
  ¬ (ownership &&& OWNERSHIP_CONSTRUCTION_RIGHTS_OWNED ≠ 0 ∧
    ownership &&& OWNERSHIP_CONSTRUCTION_RIGHTS_AVAILABLE ≠ 0)

/-- The ownership mask of every tile with a surface element is consistent. -/
def OwnershipConsistent (s : GameState) : Prop :=
  ∀ (tx ty : Int) (e : SurfaceElement), firstSurface (s.Tiles tx ty) = some e →
    OwnershipMaskConsistent e.GetOwnership

/-- The fence mask `ParkUpdateFences(coords)` arrives at, `none` when the
function returns before its last statement. -/
def fenceTarget (s : GameState) (coords : CoordsXY) : Option Nat :=
  if MapIsEdge s coords then none
  else
    match MapGetSurfaceElementAt s coords with
    | none => none
    | some surfaceElement =>
      if surfaceElement.GetOwnership &&& OWNERSHIP_OWNED = 0 then
        if (s.elementsAt coords).isEmpty then none
        else if !(s.elementsAt coords).any isNonGhostParkEntrance then
          some (neighbourFences s coords)
        else some 0
      else some 0

/-- The two states have the same map size and, tile by tile, the same
ownership mask, the same emptiness and the same presence of a park entrance
that is not a ghost: all that `ParkUpdateFences` reads. -/
def sameFenceInputs (s1 s2 : GameState) : Prop :=
  s1.MapSize = s2.MapSize ∧
  ∀ tx ty : Int,
    (firstSurface (s1.Tiles tx ty)).map SurfaceElement.GetOwnership =
      (firstSurface (s2.Tiles tx ty)).map SurfaceElement.GetOwnership ∧
    (s1.Tiles tx ty).isEmpty = (s2.Tiles tx ty).isEmpty ∧
    (s1.Tiles tx ty).any isNonGhostParkEntrance = (s2.Tiles tx ty).any isNonGhostParkEntrance

/-- The state with the fence mask of the tile at `coords` set to the given
value, unchanged for `none`. -/
def setFencesAt (target : Option Nat) (coords : CoordsXY) (s : GameState) : GameState :=
  match target with
  | none => s
  | some newFences => s.modifySurfaceAt coords (fun e => e.SetParkFences newFences)

/-- The five locations `ParkUpdateFencesAroundTile(coords)` updates, in its
order: the centre, +x, -x, +y, -y. -/
def fenceLocations (coords : CoordsXY) : List CoordsXY :=
  [coords,
   { x := coords.x + COORDS_XY_STEP, y := coords.y },
   { x := coords.x - COORDS_XY_STEP, y := coords.y },
   { x := coords.x, y := coords.y + COORDS_XY_STEP },
   { x := coords.x, y := coords.y - COORDS_XY_STEP }]

/-- World coordinates of the corner of the tile with the given tile
coordinates. -/
def tileOrigin (tx ty : Int) : CoordsXY :=
  { x := tx * COORDS_XY_STEP, y := ty * COORDS_XY_STEP }

/-- The stored fence mask of the tile, when the tile has a surface element and
is not on the map edge, is the mask `ParkUpdateFences` computes for it. -/
def FencesFreshAt (s : GameState) (tx ty : Int) : Prop :=
  ∀ e : SurfaceElement, firstSurface (s.Tiles tx ty) = some e →
    MapIsEdge s (tileOrigin tx ty) = false →
    fenceTarget s (tileOrigin tx ty) = some e.GetParkFences

/-- Every tile that has a surface element and is not on the map edge stores
the fence mask `ParkUpdateFences` computes for it. -/
def FencesFresh (s : GameState) : Prop := ∀ tx ty : Int, FencesFreshAt s tx ty

/-- What `ParkUpdateFences` reads of a tile: whether the surface lacks the
owned bit, whether the tile is empty, whether it has a park entrance that is
not a ghost. -/
def fenceInputs (elems : List TileElement) : Option Bool × Bool × Bool :=
  ((firstSurface elems).map (fun e => decide (e.GetOwnership &&& OWNERSHIP_OWNED = 0)),
    elems.isEmpty, elems.any isNonGhostParkEntrance)

/-- The exact product a ride stands for in the park value: value x 10 x
(customers in the last 5 minutes + 4 x bonus value). -/
def rideValueProduct (ride : Ride) : Int :=
  ride.value * 10 * ((ride.CustomersInLast5Minutes : Int) + 4 * (ride.BonusValue : Int))

/-- The exact sum of the products of the rides whose value is defined. -/
def definedRidesValue (rides : List Ride) : Int :=
  ((rides.filter (fun ride => decide (ride.value ≠ RIDE_VALUE_UNDEFINED))).map rideValueProduct).sum

/-- The exact sum of the products of the rides that are open. -/
def openRidesValue (rides : List Ride) : Int :=
  ((rides.filter (fun ride => decide (ride.status = RideStatus.Open))).map rideValueProduct).sum

/-- The ride is open, not broken down and not crashed. -/
def rideIsRunning (ride : Ride) : Bool :=
  decide (ride.status = RideStatus.Open) && !ride.BrokenDown && !ride.Crashed

/-- The ride is tested, has track and data logging, a station segment length
of at least `600 << 16` and an excitement of at least 6.00. -/
def rideGivesDifficultBonus (ride : Ride) : Bool :=
  ride.Tested && ride.HasTrack && ride.HasDataLogging &&
    decide (39321600 ≤ ride.SegmentLength) && decide (600 ≤ ride.excitement)

/-- The sum S of the bonus values of the rides that are open, not broken down
and not crashed. -/
def bonusSum (rides : List Ride) : Int :=
  ((rides.filter rideIsRunning).map (fun ride => (ride.BonusValue : Int))).sum

/-- The sum B of twice the bonus value over the rides of S that give the
bonus of the difficult guest generation. -/
def difficultBonusSum (rides : List Ride) : Int :=
  (((rides.filter rideIsRunning).filter rideGivesDifficultBonus).map
    (fun ride => 2 * (ride.BonusValue : Int))).sum

/-- The probability of `Park::CalculateGuestGenerationProbability()` when the
entrance fee is read: the value after the base and the two guest-count
penalties. -/
def probabilityBeforeEntranceFee (s : GameState) : Int :=
  let probability : Int := wrapUInt32 (50 + clamp ((s.ParkRating : Int) - 200) 0 650)
  let numGuests := wrapUInt32 ((s.NumGuestsInPark : Int) + (s.NumGuestsHeadingForPark : Int))
  let probability :=
    if numGuests > (s.SuggestedGuestMaximum : Int) then
      if s.ParkFlags &&& PARK_FLAGS_DIFFICULT_GUEST_GENERATION ≠ 0 then probability / 4 / 4
      else probability / 4
    else probability
  if numGuests > 7000 then probability / 4 else probability

/-- Every park entrance of the list lies within the band of the surface:
surface base height <= h <= surface base height + 3. -/
def parkEntrancesWithinBand (surfaceElement : SurfaceElement) (entrances : List EntranceElement) :
    Prop :=
  ∀ entrance ∈ entrances, entrance.EntranceType = ENTRANCE_TYPE_PARK_ENTRANCE →
    surfaceElement.BaseHeight ≤ entrance.BaseHeight ∧
      entrance.BaseHeight ≤ surfaceElement.BaseHeight + 3

/-- The local variable `changeInGuestsInPark` of `Park::UpdateHistories()`: the
difference of the two guest counts, each cast to `int32_t`. -/
def changeInGuestsInPark (s : GameState) : Int :=
  wrapInt32 (wrapInt32 s.NumGuestsInPark - wrapInt32 s.NumGuestsInParkLastWeek)

/-- The test of the loop of `CalculateGuestInitialHappiness` in exact
arithmetic with floors: the clamped percentage is at most
floor(floor(314159 x (9 + n) / 100000) / 2). -/
def happinessCondition (percentage : Nat) (n : Nat) : Prop :=
  clamp (percentage : Int) 15 98 ≤ ((314159 * (9 + (n : Int))) / 100000) / 2

/-! ## Lemmas -/

/-- The clamp to 0..999 lands in 0..999. -/
theorem clamp_bounds (v : Int) : 0 ≤ clamp v 0 999 ∧ clamp v 0 999 ≤ 999 := by
  unfold clamp
  split_ifs <;> omega

/-- Reading the surface after a write through the surface pointer. -/
theorem firstSurface_modifyFirstSurface (f : SurfaceElement → SurfaceElement) (l : List TileElement) :
    firstSurface (modifyFirstSurface f l) = (firstSurface l).map f := by
  induction l with
  | nil => rfl
  | cons hd tl ih => cases hd <;> simp [modifyFirstSurface, firstSurface, ih]

/-- A write to the surface keeps the entrance elements. -/
theorem entranceElements_modifyFirstSurface (f : SurfaceElement → SurfaceElement)
    (l : List TileElement) : entranceElements (modifyFirstSurface f l) = entranceElements l := by
  induction l with
  | nil => rfl
  | cons hd tl ih => cases hd <;> simp [modifyFirstSurface, entranceElements, ih]

/-- A write to the fence mask keeps the rights view of a tile. -/
theorem rightsView_setParkFences (n : Nat) (l : List TileElement) :
    rightsView (modifyFirstSurface (fun e => e.SetParkFences n) l) = rightsView l := by
  unfold rightsView
  rw [firstSurface_modifyFirstSurface, entranceElements_modifyFirstSurface]
  cases firstSurface l <;> simp [SurfaceElement.SetParkFences]

/-- Fields other than the tiles are kept by a write to a surface, and the
tiles keep their rights view when the write is to the fences. -/
theorem storeFences_frame (s : GameState) (c : CoordsXY) (e : SurfaceElement) (n : Nat) :
    (storeFences s c e n).LandPrice = s.LandPrice ∧
    ∀ tx ty, rightsView ((storeFences s c e n).Tiles tx ty) = rightsView (s.Tiles tx ty) := by
  unfold storeFences
  split_ifs
  · refine ⟨rfl, fun tx ty => ?_⟩
    simp only [GameState.modifySurfaceAt]
    split_ifs
    · exact rightsView_setParkFences _ _
    · rfl
  · exact ⟨rfl, fun _ _ => rfl⟩

/-- The function `ParkUpdateFences` keeps the land price and the rights view of every tile. -/
theorem ParkUpdateFences_frame (c : CoordsXY) (s : GameState) :
    (ParkUpdateFences c s).LandPrice = s.LandPrice ∧
    ∀ tx ty, rightsView ((ParkUpdateFences c s).Tiles tx ty) = rightsView (s.Tiles tx ty) := by
  unfold ParkUpdateFences
  by_cases hE : MapIsEdge s c = true
  · rw [if_pos hE]; exact ⟨rfl, fun _ _ => rfl⟩
  · rw [if_neg hE]
    cases MapGetSurfaceElementAt s c with
    | none => exact ⟨rfl, fun _ _ => rfl⟩
    | some e =>
      simp only
      split_ifs
      all_goals first
        | exact ⟨rfl, fun _ _ => rfl⟩
        | exact storeFences_frame _ _ _ _

/-- The function `ParkUpdateFencesAroundTile` keeps the land price and the rights view of every tile. -/
theorem ParkUpdateFencesAroundTile_frame (c : CoordsXY) (s : GameState) :
    (ParkUpdateFencesAroundTile c s).LandPrice = s.LandPrice ∧
    ∀ tx ty, rightsView ((ParkUpdateFencesAroundTile c s).Tiles tx ty) = rightsView (s.Tiles tx ty) := by
  unfold ParkUpdateFencesAroundTile
  simp only
  refine ⟨?_, fun tx ty => ?_⟩
  · rw [(ParkUpdateFences_frame _ _).1, (ParkUpdateFences_frame _ _).1, (ParkUpdateFences_frame _ _).1,
      (ParkUpdateFences_frame _ _).1, (ParkUpdateFences_frame _ _).1]
  · rw [(ParkUpdateFences_frame _ _).2, (ParkUpdateFences_frame _ _).2, (ParkUpdateFences_frame _ _).2,
      (ParkUpdateFences_frame _ _).2, (ParkUpdateFences_frame _ _).2]

/-- A write to the surface of one tile keeps the other tiles. -/
theorem modifySurfaceAt_tiles_of_ne (s : GameState) (c : CoordsXY) (f : SurfaceElement → SurfaceElement)
    (tx ty : Int) (h : ¬ (tx = c.ToTileCoords.x ∧ ty = c.ToTileCoords.y)) :
    (s.modifySurfaceAt c f).Tiles tx ty = s.Tiles tx ty := by
  simp only [GameState.modifySurfaceAt, if_neg h]

/-- The per-tile step keeps the land price, and the rights view of every
tile other than the one at `loc`. -/
theorem MapBuyLandRightsForTile_frame (a : LandSetRightsAction) (loc : CoordsXY) (b : Bool)
    (s : GameState) :
    (MapBuyLandRightsForTile a loc b s).2.LandPrice = s.LandPrice ∧
    ∀ tx ty, ¬ (tx = loc.ToTileCoords.x ∧ ty = loc.ToTileCoords.y) →
      rightsView ((MapBuyLandRightsForTile a loc b s).2.Tiles tx ty) = rightsView (s.Tiles tx ty) := by
  unfold MapBuyLandRightsForTile
  split
  · exact ⟨rfl, fun _ _ _ => rfl⟩
  · split
    · split_ifs
      · refine ⟨?_, fun tx ty h => ?_⟩
        · rw [(ParkUpdateFencesAroundTile_frame _ _).1]; rfl
        · rw [(ParkUpdateFencesAroundTile_frame _ _).2, modifySurfaceAt_tiles_of_ne _ _ _ _ _ h]
      · exact ⟨rfl, fun _ _ _ => rfl⟩
    · split_ifs
      · exact ⟨rfl, fun tx ty h => by rw [modifySurfaceAt_tiles_of_ne _ _ _ _ _ h]⟩
      · exact ⟨rfl, fun _ _ _ => rfl⟩
    · split_ifs
      · exact ⟨rfl, fun tx ty h => by rw [modifySurfaceAt_tiles_of_ne _ _ _ _ _ h]⟩
      · exact ⟨rfl, fun _ _ _ => rfl⟩
    · split_ifs
      · exact ⟨rfl, fun tx ty h => by rw [modifySurfaceAt_tiles_of_ne _ _ _ _ _ h]⟩
      · exact ⟨rfl, fun _ _ _ => rfl⟩
    · split_ifs
      · exact ⟨rfl, fun _ _ _ => rfl⟩
      · exact ⟨rfl, fun _ _ _ => rfl⟩
      · refine ⟨?_, fun tx ty h => ?_⟩
        · simp only
          rw [(ParkUpdateFencesAroundTile_frame _ _).1]; rfl
        · simp only
          rw [(ParkUpdateFencesAroundTile_frame _ _).2, modifySurfaceAt_tiles_of_ne _ _ _ _ _ h]
      · refine ⟨?_, fun tx ty h => ?_⟩
        · simp only
          rw [(ParkUpdateFencesAroundTile_frame _ _).1]; rfl
        · simp only
          rw [(ParkUpdateFencesAroundTile_frame _ _).2, modifySurfaceAt_tiles_of_ne _ _ _ _ _ h]
      · exact ⟨rfl, fun _ _ _ => rfl⟩
    · exact ⟨rfl, fun _ _ _ => rfl⟩

/-- Adding to a wrapped sum and wrapping is wrapping the exact sum. -/
theorem wrapInt64_add_wrap (x y : Int) : wrapInt64 (wrapInt64 x + y) = wrapInt64 (x + y) := by
  unfold wrapInt64; omega

/-- A value inside the signed 64-bit range is its own wrapped value. -/
theorem wrapInt64_of_range (x : Int) (h0 : -9223372036854775808 ≤ x) (h1 : x < 9223372036854775808) :
    wrapInt64 x = x := by
  unfold wrapInt64; omega

/-- The entrance loop reads only the base height of the surface. -/
theorem entranceLoopReturns_congr (o : Nat) (e e' : SurfaceElement)
    (h : e'.BaseHeight = e.BaseHeight) (l : List EntranceElement) :
    entranceLoopReturns o e' l = entranceLoopReturns o e l := by
  induction l with
  | nil => rfl
  | cons hd tl ih => simp only [entranceLoopReturns, h, ih]

/-- The per-tile result is a function of the rights view of the tile and of the land price; it does not depend on `isExecuting`. -/
theorem MapBuyLandRightsForTile_result_congr (a : LandSetRightsAction) (loc : CoordsXY)
    (b b' : Bool) (s s' : GameState)
    (hv : rightsView (s'.elementsAt loc) = rightsView (s.elementsAt loc))
    (hp : s'.LandPrice = s.LandPrice) :
    (MapBuyLandRightsForTile a loc b' s').1 = (MapBuyLandRightsForTile a loc b s).1 := by
  unfold rightsView at hv
  simp only [Prod.mk.injEq] at hv
  obtain ⟨h1, h2⟩ := hv
  obtain ⟨r, st, o⟩ := a
  unfold MapBuyLandRightsForTile MapGetSurfaceElementAt
  rw [h2, hp]
  cases hs' : firstSurface (s'.elementsAt loc) <;> cases hs : firstSurface (s.elementsAt loc) <;>
    simp [hs, hs'] at h1
  · rfl
  · rename_i e' e
    have hl := entranceLoopReturns_congr o e e' h1.2 (entranceElements (s.elementsAt loc))
    simp only [SurfaceElement.GetOwnership, h1.1, hl]
    match st with
    | 0 => cases b <;> cases b' <;> rfl
    | 1 => cases b <;> cases b' <;> rfl
    | 2 => cases b <;> cases b' <;> rfl
    | 3 => cases b <;> cases b' <;> rfl
    | 4 =>
      simp only
      split_ifs <;> rfl
    | n + 5 => rfl

/-- The result the loop of `QueryExecute` accumulates over locations on pairwise different tiles, from a state that agrees with `s` on the tiles still to visit: the start cost plus the costs `tileCost a s` of the locations. -/
theorem foldl_tileStep_fst (a : LandSetRightsAction) (b : Bool) (s : GameState) :
    ∀ (locs : List CoordsXY),
      locs.Pairwise (fun l1 l2 => l1.ToTileCoords ≠ l2.ToTileCoords) →
      ∀ (res : GameActions.Result) (c : Int) (s' : GameState),
        (∀ loc ∈ locs, rightsView (s'.elementsAt loc) = rightsView (s.elementsAt loc)) →
        s'.LandPrice = s.LandPrice → res.Cost = wrapInt64 c →
        (locs.foldl (fun acc loc => tileStep a b loc acc) (res, s')).1 =
          { res with Cost := wrapInt64 (c + (locs.map (tileCost a s)).sum) } := by
  intro locs
  induction locs with
  | nil =>
    intro _ res c s' _ _ hc
    simp only [List.foldl_nil, List.map_nil, List.sum_nil, add_zero, ← hc]
  | cons loc tl ih =>
    intro hpw res c s' hv hp hc
    rw [List.pairwise_cons] at hpw
    have hres := MapBuyLandRightsForTile_result_congr a loc false b s s'
      (hv loc (List.mem_cons_self _ _)) hp
    have hfr := MapBuyLandRightsForTile_frame a loc b s'
    have hv' : ∀ l ∈ tl, rightsView ((MapBuyLandRightsForTile a loc b s').2.elementsAt l) =
        rightsView (s.elementsAt l) := by
      intro l hl
      have hne := hpw.1 l hl
      rw [← hv l (List.mem_cons_of_mem _ hl)]
      apply hfr.2
      intro h
      apply hne
      cases hA : loc.ToTileCoords
      cases hB : l.ToTileCoords
      rw [hA, hB] at h
      simp only at h
      rw [h.1, h.2]
    simp only [List.foldl_cons, List.map_cons, List.sum_cons]
    by_cases hval : LocationValid loc = true
    · by_cases hok : (MapBuyLandRightsForTile a loc false s).1.Error = GameActions.Status.Ok
      · have hstep : tileStep a b loc (res, s') =
            ({ res with Cost := wrapInt64 (res.Cost + (MapBuyLandRightsForTile a loc false s).1.Cost) },
              (MapBuyLandRightsForTile a loc b s').2) := by
          simp only [tileStep, hval, Bool.not_true, Bool.false_eq_true, if_false, hres, hok, if_true]
        have hcost : tileCost a s loc = (MapBuyLandRightsForTile a loc false s).1.Cost := by
          simp only [tileCost, hval, hok, and_self, if_true]
        rw [hstep, hcost, ih hpw.2 _ (c + (MapBuyLandRightsForTile a loc false s).1.Cost) _ hv'
          (hfr.1.trans hp) (by simp only [hc, wrapInt64_add_wrap])]
        simp only [add_assoc]
      · have hstep : tileStep a b loc (res, s') = (res, (MapBuyLandRightsForTile a loc b s').2) := by
          simp only [tileStep, hval, Bool.not_true, Bool.false_eq_true, if_false, hres, hok]
        have hcost : tileCost a s loc = 0 := by
          simp only [tileCost, hval, hok, and_false, if_false]
        rw [hstep, hcost, ih hpw.2 res c _ hv' (hfr.1.trans hp) hc]
        simp only [zero_add]
    · have hstep : tileStep a b loc (res, s') = (res, s') := by
        simp only [tileStep, hval, Bool.not_false, if_true]
      have hcost : tileCost a s loc = 0 := by
        simp [tileCost, hval]
      rw [hstep, hcost, ih hpw.2 res c s' (fun l hl => hv l (List.mem_cons_of_mem _ hl)) hp hc]
      simp only [zero_add]

/-- The state the loop of `QueryExecute` leaves is the one of the per-tile state steps. -/
theorem foldl_tileStep_snd (a : LandSetRightsAction) (b : Bool) :
    ∀ (locs : List CoordsXY) (res : GameActions.Result) (s' : GameState),
      (locs.foldl (fun acc loc => tileStep a b loc acc) (res, s')).2 =
        locs.foldl (fun st loc => tileStepState a b loc st) s' := by
  intro locs
  induction locs with
  | nil => intro _ _; rfl
  | cons loc tl ih =>
    intro res s'
    simp only [List.foldl_cons]
    have h : ∃ r, tileStep a b loc (res, s') = (r, tileStepState a b loc s') := by
      unfold tileStep tileStepState
      by_cases hval : LocationValid loc = true
      · simp only [hval, Bool.not_true, Bool.false_eq_true, if_false, if_true]
        split_ifs
        · exact ⟨_, rfl⟩
        · exact ⟨_, rfl⟩
      · simp only [Bool.not_eq_true] at hval
        simp only [hval, Bool.not_false, if_true]
        exact ⟨res, by simp⟩
    obtain ⟨r, hr⟩ := h
    rw [hr, ih]

/-- The two nested loops of `QueryExecute` are one loop over `loopLocations`. -/
theorem foldl_nested {α : Type} (f : CoordsXY → α → α) (xs : List Int) :
    ∀ (ys : List Int) (init : α),
      ys.foldl (fun acc y => xs.foldl (fun acc x => f { x := x, y := y } acc) acc) init =
        (ys.flatMap (fun y => xs.map (fun x => ({ x := x, y := y } : CoordsXY)))).foldl
          (fun acc loc => f loc acc) init := by
  intro ys
  induction ys with
  | nil => intro _; rfl
  | cons y tl ih =>
    intro init
    simp only [List.foldl_cons, List.flatMap_cons, List.foldl_append, List.foldl_map, ih]

/-- The values of a stepped loop lie between its bounds. -/
theorem mem_stepValues (first last v : Int) (h : v ∈ stepValues first last) :
    first ≤ v ∧ v ≤ last := by
  unfold stepValues COORDS_XY_STEP at h
  rw [List.mem_map] at h
  obtain ⟨i, hi, rfl⟩ := h
  rw [List.mem_range] at hi
  omega

/-- The values of a stepped loop that starts at a non-negative value lie on pairwise different tiles. -/
theorem stepValues_pairwise (first last : Int) (h0 : 0 ≤ first) :
    (stepValues first last).Pairwise (fun u v => Int.tdiv u 32 ≠ Int.tdiv v 32) := by
  unfold stepValues COORDS_XY_STEP
  rw [List.pairwise_map]
  refine (List.pairwise_lt_range _).imp ?_
  intro i j hij
  rw [Int.tdiv_eq_ediv (by omega) (by omega), Int.tdiv_eq_ediv (by omega) (by omega)]
  omega

/-- The locations of the two loops lie on pairwise different tiles. -/
theorem loopLocations_pairwise (r : MapRange) (hl : 0 ≤ r.Left) (ht : 0 ≤ r.Top) :
    (loopLocations r).Pairwise (fun l1 l2 => l1.ToTileCoords ≠ l2.ToTileCoords) := by
  unfold loopLocations
  rw [List.pairwise_flatMap]
  constructor
  · intro y _
    rw [List.pairwise_map]
    refine (stepValues_pairwise r.Left r.Right hl).imp ?_
    intro u v huv h
    apply huv
    have := congrArg TileCoordsXY.x h
    simpa [CoordsXY.ToTileCoords, COORDS_XY_STEP] using this
  · refine (stepValues_pairwise r.Top r.Bottom ht).imp ?_
    intro u v huv l1 h1 l2 h2 h
    rw [List.mem_map] at h1 h2
    obtain ⟨x1, _, rfl⟩ := h1
    obtain ⟨x2, _, rfl⟩ := h2
    apply huv
    have := congrArg TileCoordsXY.y h
    simpa [CoordsXY.ToTileCoords, COORDS_XY_STEP] using this

/-- The per-tile step of a query returns the state it received. -/
theorem MapBuyLandRightsForTile_query_state (a : LandSetRightsAction) (loc : CoordsXY)
    (s : GameState) : (MapBuyLandRightsForTile a loc false s).2 = s := by
  unfold MapBuyLandRightsForTile
  split
  · rfl
  · split <;> simp
    split_ifs <;> rfl

/-- The per-tile state steps of a query return the state they received. -/
theorem foldl_tileStepState_query (a : LandSetRightsAction) (locs : List CoordsXY)
    (s : GameState) : locs.foldl (fun st loc => tileStepState a false loc st) s = s := by
  induction locs with
  | nil => rfl
  | cons loc tl ih =>
    have h : tileStepState a false loc s = s := by
      simp only [tileStepState, MapBuyLandRightsForTile_query_state, ite_self]
    rw [List.foldl_cons, h, ih]

/-- In the editor or with the sandbox cheat, the result of `QueryExecute` is
the initial result with the costs of the loop locations added, and its state
is the one the per-tile steps leave. -/
theorem QueryExecute_editor (a : LandSetRightsAction) (b : Bool) (s : GameState)
    (h : s.ScreenFlagsEditor = true ∨ s.SandboxMode = true) :
    (a.QueryExecute b s).1 =
      { GameActions.Result.ok with
        Cost := wrapInt64
          (((loopLocations (ClampRangeWithinMap s a.range.Normalise)).map (tileCost a s)).sum)
        Position :=
          { x := Int.tdiv ((ClampRangeWithinMap s a.range.Normalise).Left +
                (ClampRangeWithinMap s a.range.Normalise).Right) 2 + 16
            y := Int.tdiv ((ClampRangeWithinMap s a.range.Normalise).Top +
                (ClampRangeWithinMap s a.range.Normalise).Bottom) 2 + 16 }
        Expenditure := ExpenditureType.LandPurchase } ∧
    (a.QueryExecute b s).2 =
      (loopLocations (ClampRangeWithinMap s a.range.Normalise)).foldl
        (fun st loc => tileStepState a b loc st) s := by
  have hcond : (!s.ScreenFlagsEditor && !s.SandboxMode) = false := by
    rcases h with h | h <;> simp [h]
  have hpw := loopLocations_pairwise (ClampRangeWithinMap s a.range.Normalise)
    (by unfold ClampRangeWithinMap COORDS_XY_STEP; simp)
    (by unfold ClampRangeWithinMap COORDS_XY_STEP; simp)
  unfold LandSetRightsAction.QueryExecute
  simp only [hcond, Bool.false_eq_true, if_false]
  rw [foldl_nested (fun loc acc => tileStep a b loc acc)]
  refine ⟨?_, ?_⟩
  · have := foldl_tileStep_fst a b s _ hpw
      { GameActions.Result.ok with
        Position :=
          { x := Int.tdiv ((ClampRangeWithinMap s a.range.Normalise).Left +
                (ClampRangeWithinMap s a.range.Normalise).Right) 2 + 16
            y := Int.tdiv ((ClampRangeWithinMap s a.range.Normalise).Top +
                (ClampRangeWithinMap s a.range.Normalise).Bottom) 2 + 16 }
        Expenditure := ExpenditureType.LandPurchase } 0 s (fun _ _ => rfl) rfl rfl
    rw [zero_add] at this
    exact this
  · exact foldl_tileStep_snd a b _ _ _

/-- Outside of the editor and without the sandbox cheat `QueryExecute` returns at once. -/
theorem QueryExecute_not_editor (a : LandSetRightsAction) (b : Bool) (s : GameState)
    (h1 : s.ScreenFlagsEditor = false) (h2 : s.SandboxMode = false) :
    a.QueryExecute b s =
      (GameActions.Result.make GameActions.Status.NotInEditorMode
        StringId.STR_NONE StringId.STR_LAND_NOT_FOR_SALE, s) := by
  unfold LandSetRightsAction.QueryExecute
  simp [h1, h2]

/-- The query of a land rights action returns the state it received. -/
theorem LandSetRights_query_state (a : LandSetRightsAction) (s : GameState) :
    (a.Query s).2 = s := by
  unfold LandSetRightsAction.Query
  by_cases h : s.ScreenFlagsEditor = true ∨ s.SandboxMode = true
  · rw [(QueryExecute_editor a false s h).2, foldl_tileStepState_query]
  · have h1 : s.ScreenFlagsEditor = false := by
      cases hh : s.ScreenFlagsEditor <;> simp [hh] at h ⊢
    have h2 : s.SandboxMode = false := by
      cases hh : s.SandboxMode <;> simp [hh] at h ⊢
    rw [QueryExecute_not_editor a false s h1 h2]

/-- Per-tile steps that each keep the state `s` keep it together. -/
theorem foldl_tileStepState_fixed (a : LandSetRightsAction) (b : Bool) (s : GameState)
    (locs : List CoordsXY) (h : ∀ loc ∈ locs, (MapBuyLandRightsForTile a loc b s).2 = s) :
    locs.foldl (fun st loc => tileStepState a b loc st) s = s := by
  induction locs with
  | nil => rfl
  | cons loc tl ih =>
    have h1 : tileStepState a b loc s = s := by
      simp only [tileStepState, h loc (List.mem_cons_self _ _), ite_self]
    rw [List.foldl_cons, h1, ih (fun l hl => h l (List.mem_cons_of_mem _ hl))]

/-- A sum of tile costs that are all 0. -/
theorem sum_tileCost_zero (a : LandSetRightsAction) (s : GameState) (locs : List CoordsXY)
    (h : ∀ loc ∈ locs, tileCost a s loc = 0) : (locs.map (tileCost a s)).sum = 0 := by
  induction locs with
  | nil => rfl
  | cons loc tl ih =>
    rw [List.map_cons, List.sum_cons, h loc (List.mem_cons_self _ _),
      ih (fun l hl => h l (List.mem_cons_of_mem _ hl)), add_zero]

/-- A location whose per-tile cost is 0 adds 0. -/
theorem tileCost_of_cost_zero (a : LandSetRightsAction) (s : GameState) (loc : CoordsXY)
    (h : (MapBuyLandRightsForTile a loc false s).1.Cost = 0) : tileCost a s loc = 0 := by
  unfold tileCost
  split_ifs
  · exact h
  · rfl

/-- A location whose per-tile result is not Ok adds 0. -/
theorem tileCost_of_not_ok (a : LandSetRightsAction) (s : GameState) (loc : CoordsXY)
    (h : (MapBuyLandRightsForTile a loc false s).1.Error ≠ GameActions.Status.Ok) :
    tileCost a s loc = 0 := by
  unfold tileCost
  rw [if_neg (fun hh => h hh.2)]

/-- The loops of a single-location action visit that location at most. -/
theorem mem_loopLocations_ofCoord (s : GameState) (c : CoordsXY) (st o : Nat) (l : CoordsXY)
    (h : l ∈ loopLocations (ClampRangeWithinMap s (LandSetRightsAction.ofCoord c st o).range.Normalise)) :
    l = c := by
  obtain ⟨cx, cy⟩ := c
  unfold loopLocations at h
  rw [List.mem_flatMap] at h
  obtain ⟨y, hy, hl⟩ := h
  rw [List.mem_map] at hl
  obtain ⟨x, hx, rfl⟩ := hl
  have h1 := mem_stepValues _ _ _ hx
  have h2 := mem_stepValues _ _ _ hy
  simp only [ClampRangeWithinMap, MapRange.Normalise, LandSetRightsAction.ofCoord, lt_self_iff_false,
    if_false, gt_iff_lt] at h1 h2
  simp only [CoordsXY.mk.injEq]
  omega

/-- With `SetOwnershipWithChecks` and the current mask of the tile the per-tile step returns the default result and the state it received. -/
theorem MapBuyLandRightsForTile_same_mask (a : LandSetRightsAction) (loc : CoordsXY)
    (s : GameState) (e : SurfaceElement) (b : Bool)
    (hs : MapGetSurfaceElementAt s loc = some e)
    (hset : a.setting = LandSetRightSetting.SetOwnershipWithChecks)
    (hown : a.ownership = e.GetOwnership) :
    MapBuyLandRightsForTile a loc b s = (GameActions.Result.ok, s) := by
  unfold MapBuyLandRightsForTile
  rw [hs]
  simp only [hset, LandSetRightSetting.SetOwnershipWithChecks, hown, if_true]

/-- With the mask `OWNERSHIP_OWNED` the entrance loop returns at the first park entrance. -/
theorem entranceLoopReturns_owned (e : SurfaceElement) (elems : List TileElement)
    (h : elems.any isNonGhostParkEntrance = true) :
    entranceLoopReturns OWNERSHIP_OWNED e (entranceElements elems) = true := by
  induction elems with
  | nil => simp at h
  | cons hd tl ih =>
    rw [List.any_cons, Bool.or_eq_true] at h
    cases hd with
    | Surface x =>
      simp only [isNonGhostParkEntrance, Bool.false_eq_true, false_or] at h
      simpa only [entranceElements] using ih h
    | Other =>
      simp only [isNonGhostParkEntrance, Bool.false_eq_true, false_or] at h
      simpa only [entranceElements] using ih h
    | Entrance x =>
      simp only [entranceElements, entranceLoopReturns]
      by_cases hx : x.EntranceType = ENTRANCE_TYPE_PARK_ENTRANCE
      · simp [hx]
      · simp only [isNonGhostParkEntrance, hx, decide_False, Bool.false_and, Bool.false_eq_true,
          false_or] at h
        simp only [ne_eq, hx, not_false_eq_true, if_true]
        exact ih h

/-- With a setting from 5 on, the per-tile step returns InvalidParameters and the state it received. -/
theorem MapBuyLandRightsForTile_bad_setting (a : LandSetRightsAction) (loc : CoordsXY) (b : Bool)
    (s : GameState) (h : 5 ≤ a.setting) :
    (MapBuyLandRightsForTile a loc b s).1.Error = GameActions.Status.InvalidParameters ∧
    (MapBuyLandRightsForTile a loc b s).2 = s := by
  obtain ⟨r, st, o⟩ := a
  unfold MapBuyLandRightsForTile
  cases MapGetSurfaceElementAt s loc with
  | none => exact ⟨rfl, rfl⟩
  | some e =>
    match st, h with
    | n + 5, _ => exact ⟨rfl, rfl⟩

/-! ## Query and Execute of the two actions -/

/-- C1: for every land rights action (any range, setting and ownership mask)
and every game state, Query and Execute return the same status and report
the same cost; the costs agree whatever the status is, so in particular when
both are Ok. -/
theorem C1_query_execute_same_status_and_cost (a : LandSetRightsAction) (s : GameState) :
    (a.Query s).1.Error = (a.Execute s).1.Error ∧ (a.Query s).1.Cost = (a.Execute s).1.Cost := by
  unfold LandSetRightsAction.Query LandSetRightsAction.Execute
  by_cases h : s.ScreenFlagsEditor = true ∨ s.SandboxMode = true
  · rw [(QueryExecute_editor a false s h).1, (QueryExecute_editor a true s h).1]
    exact ⟨rfl, rfl⟩
  · have h1 : s.ScreenFlagsEditor = false := by
      cases hh : s.ScreenFlagsEditor <;> simp [hh] at h ⊢
    have h2 : s.SandboxMode = false := by
      cases hh : s.SandboxMode <;> simp [hh] at h ⊢
    rw [QueryExecute_not_editor a false s h1 h2, QueryExecute_not_editor a true s h1 h2]
    exact ⟨rfl, rfl⟩

/-- C2: for every park parameter action and every game state, Query returns
Ok if and only if Execute returns Ok; both return Ok when the parameter is
Close, Open or SamePriceInPark, and both return InvalidParameters for every
other parameter value, in which case Execute leaves the game state unchanged
and invalidates no window. -/
theorem C2_park_parameter_query_iff_execute (a : ParkSetParameterAction) (s : GameState) :
    ((a.Query s).1.Error = GameActions.Status.Ok ↔ (a.Execute s).1.Error = GameActions.Status.Ok) ∧
    ((a.parameter = ParkParameter.Close ∨ a.parameter = ParkParameter.Open ∨
        a.parameter = ParkParameter.SamePriceInPark) →
      (a.Query s).1.Error = GameActions.Status.Ok ∧ (a.Execute s).1.Error = GameActions.Status.Ok) ∧
    (¬ (a.parameter = ParkParameter.Close ∨ a.parameter = ParkParameter.Open ∨
        a.parameter = ParkParameter.SamePriceInPark) →
      (a.Query s).1.Error = GameActions.Status.InvalidParameters ∧
      (a.Execute s).1.Error = GameActions.Status.InvalidParameters ∧
      (a.Execute s).2.1 = s ∧ (a.Execute s).2.2 = []) := by
  obtain ⟨p, v⟩ := a
  match p with
  | 0 =>
    simp [ParkSetParameterAction.Query, ParkSetParameterAction.Execute, ParkParameter.Count,
      ParkParameter.Close, GameActions.Result.ok, GameActions.Result.make]
    split_ifs <;> simp
  | 1 =>
    simp [ParkSetParameterAction.Query, ParkSetParameterAction.Execute, ParkParameter.Count,
      ParkParameter.Close, ParkParameter.Open, GameActions.Result.ok, GameActions.Result.make]
    split_ifs <;> simp
  | 2 =>
    simp [ParkSetParameterAction.Query, ParkSetParameterAction.Execute, ParkParameter.Count,
      ParkParameter.Close, ParkParameter.Open, ParkParameter.SamePriceInPark,
      GameActions.Result.ok, GameActions.Result.make]
  | n + 3 =>
    simp [ParkSetParameterAction.Query, ParkSetParameterAction.Execute, ParkParameter.Count,
      ParkParameter.Close, ParkParameter.Open, ParkParameter.SamePriceInPark,
      GameActions.Result.ok, GameActions.Result.make]

/-- The statement C2 at the parameter value 5 and at the parameter Open on
`sampleState`. -/
theorem C2_park_parameter_query_iff_execute_witness :
    ((({ parameter := 5, value := 0 } : ParkSetParameterAction).Query sampleState).1.Error =
        GameActions.Status.InvalidParameters ∧
      (({ parameter := 5, value := 0 } : ParkSetParameterAction).Execute sampleState).1.Error =
        GameActions.Status.InvalidParameters ∧
      (({ parameter := 5, value := 0 } : ParkSetParameterAction).Execute sampleState).2.1 =
        sampleState ∧
      (({ parameter := 5, value := 0 } : ParkSetParameterAction).Execute sampleState).2.2 = []) ∧
    ((({ parameter := ParkParameter.Open, value := 0 } : ParkSetParameterAction).Query
          sampleState).1.Error = GameActions.Status.Ok ∧
      (({ parameter := ParkParameter.Open, value := 0 } : ParkSetParameterAction).Execute
          sampleState).1.Error = GameActions.Status.Ok) :=
  ⟨(C2_park_parameter_query_iff_execute { parameter := 5, value := 0 } sampleState).2.2
      (by decide),
    (C2_park_parameter_query_iff_execute { parameter := ParkParameter.Open, value := 0 }
      sampleState).2.1 (Or.inr (Or.inl rfl))⟩

/-- C3: for every action and every game state, the Query of a land rights
action and the Query of a park parameter action return the game state they
received: tiles (ownership and fence masks), peep spawns, park flags, the
same-price setting and every other field are the same after the call. -/
theorem C3_query_leaves_state_unchanged (a : LandSetRightsAction) (p : ParkSetParameterAction)
    (s : GameState) : (a.Query s).2 = s ∧ (p.Query s).2 = s := by
  refine ⟨LandSetRights_query_state a s, ?_⟩
  unfold ParkSetParameterAction.Query
  split_ifs <;> rfl

/-! ## Park rating -/

/-- C4: when no rating is forced (the forced value is negative),
`CalculateParkRating` returns a value between 0 and 999, for every guest
count, guest list, ride list, litter list, casualty penalty and park flags. -/
theorem C4_rating_within_bounds (s : GameState) (h : s.ForcedParkRating < 0) :
    0 ≤ CalculateParkRating s ∧ CalculateParkRating s ≤ 999 := by
  unfold CalculateParkRating
  rw [if_neg (by omega)]
  exact clamp_bounds _

/-- The statement C4 on `sampleState`, whose forced rating is -1. -/
theorem C4_rating_within_bounds_witness :
    0 ≤ CalculateParkRating sampleState ∧ CalculateParkRating sampleState ≤ 999 :=
  C4_rating_within_bounds sampleState (by decide)

/-- C5: for every R with 0 <= R <= 999 and every game state, after
`ParkSetForcedRating(R)` the function `CalculateParkRating` returns exactly R
(and R is the stored park rating), whatever the guests, rides, litter,
casualty penalty and flags are. -/
theorem C5_forced_rating_returned (s : GameState) (R : Int) (h0 : 0 ≤ R) (h1 : R ≤ 999) :
    CalculateParkRating (ParkSetForcedRating R s) = R ∧
    ((ParkSetForcedRating R s).ParkRating : Int) = R := by
  have h : CalculateParkRating { s with ForcedParkRating := R } = R := by
    unfold CalculateParkRating
    simp [h0]
  constructor
  · unfold CalculateParkRating ParkSetForcedRating
    simp [h0]
  · unfold ParkSetForcedRating
    simp only [h]
    omega

/-- The statement C5 for R = 640 on `sampleState`. -/
theorem C5_forced_rating_returned_witness :
    CalculateParkRating (ParkSetForcedRating 640 sampleState) = 640 ∧
    ((ParkSetForcedRating 640 sampleState).ParkRating : Int) = 640 :=
  C5_forced_rating_returned sampleState 640 (by decide) (by decide)

/-! ## The per-tile step of the land rights action -/

/-- C6: for every tile that has a surface element, `SetOwnershipWithChecks`
with an ownership mask equal to the current mask of the tile gives the Ok
per-tile result with cost 0 and returns the state it received (ownership,
every fence mask and the peep spawns are unchanged), in a query
(`isExecuting` false) and in an execution (`isExecuting` true); the action on
that single location reports cost 0 and returns the state it received. -/
theorem C6_same_mask_is_noop (a : LandSetRightsAction) (loc : CoordsXY) (s : GameState)
    (e : SurfaceElement) (isExecuting : Bool) (hs : MapGetSurfaceElementAt s loc = some e)
    (hset : a.setting = LandSetRightSetting.SetOwnershipWithChecks)
    (hown : a.ownership = e.GetOwnership) :
    (MapBuyLandRightsForTile a loc isExecuting s).1.Error = GameActions.Status.Ok ∧
    (MapBuyLandRightsForTile a loc isExecuting s).1.Cost = 0 ∧
    (MapBuyLandRightsForTile a loc isExecuting s).2 = s ∧
    ((LandSetRightsAction.ofCoord loc a.setting a.ownership).QueryExecute isExecuting s).1.Cost = 0 ∧
    ((LandSetRightsAction.ofCoord loc a.setting a.ownership).QueryExecute isExecuting s).2 = s := by
  have hstep : ∀ b, MapBuyLandRightsForTile (LandSetRightsAction.ofCoord loc a.setting a.ownership)
      loc b s = (GameActions.Result.ok, s) :=
    fun b => MapBuyLandRightsForTile_same_mask _ loc s e b hs hset hown
  rw [MapBuyLandRightsForTile_same_mask a loc s e isExecuting hs hset hown]
  refine ⟨rfl, rfl, rfl, ?_⟩
  by_cases h : s.ScreenFlagsEditor = true ∨ s.SandboxMode = true
  · rw [(QueryExecute_editor _ isExecuting s h).1, (QueryExecute_editor _ isExecuting s h).2]
    constructor
    · rw [sum_tileCost_zero]
      · rfl
      · intro l hl
        rw [mem_loopLocations_ofCoord s loc _ _ l hl]
        exact tileCost_of_cost_zero _ _ _ (by rw [hstep]; rfl)
    · apply foldl_tileStepState_fixed
      intro l hl
      rw [mem_loopLocations_ofCoord s loc _ _ l hl, hstep]
  · have h1 : s.ScreenFlagsEditor = false := by
      cases hh : s.ScreenFlagsEditor <;> simp [hh] at h ⊢
    have h2 : s.SandboxMode = false := by
      cases hh : s.SandboxMode <;> simp [hh] at h ⊢
    rw [QueryExecute_not_editor _ isExecuting s h1 h2]
    exact ⟨rfl, rfl⟩

/-- The statement C6 on the owned tile (2,2) of `sampleState`, executing. -/
theorem C6_same_mask_is_noop_witness :
    (MapBuyLandRightsForTile
      { range := { Left := 64, Top := 64, Right := 64, Bottom := 64 },
        setting := LandSetRightSetting.SetOwnershipWithChecks, ownership := OWNERSHIP_OWNED }
      { x := 64, y := 64 } true sampleState).1.Cost = 0 ∧
    ((LandSetRightsAction.ofCoord { x := 64, y := 64 }
      LandSetRightSetting.SetOwnershipWithChecks OWNERSHIP_OWNED).QueryExecute true
        sampleState).2 = sampleState :=
  ⟨(C6_same_mask_is_noop
      { range := { Left := 64, Top := 64, Right := 64, Bottom := 64 },
        setting := LandSetRightSetting.SetOwnershipWithChecks, ownership := OWNERSHIP_OWNED }
      { x := 64, y := 64 } sampleState
      { Ownership := OWNERSHIP_OWNED, ParkFences := 0, BaseHeight := 14 } true
      (by decide) rfl rfl).2.1,
    (C6_same_mask_is_noop
      { range := { Left := 64, Top := 64, Right := 64, Bottom := 64 },
        setting := LandSetRightSetting.SetOwnershipWithChecks, ownership := OWNERSHIP_OWNED }
      { x := 64, y := 64 } sampleState
      { Ownership := OWNERSHIP_OWNED, ParkFences := 0, BaseHeight := 14 } true
      (by decide) rfl rfl).2.2.2.2⟩

/-- C7, as the code has it: for every tile that has a surface element and
carries a park entrance element that is not a ghost, `SetOwnershipWithChecks`
with the mask `OWNERSHIP_OWNED` gives the Ok per-tile result with cost 0 and
returns the state it received, so that the ownership mask of the tile is
unchanged, in a query and in an execution. -/
theorem C7_entrance_tile_with_surface_not_bought (a : LandSetRightsAction) (loc : CoordsXY)
    (s : GameState) (e : SurfaceElement) (isExecuting : Bool)
    (hs : MapGetSurfaceElementAt s loc = some e)
    (hent : hasNonGhostParkEntrance s loc = true)
    (hset : a.setting = LandSetRightSetting.SetOwnershipWithChecks)
    (hown : a.ownership = OWNERSHIP_OWNED) :
    (MapBuyLandRightsForTile a loc isExecuting s).1.Error = GameActions.Status.Ok ∧
    (MapBuyLandRightsForTile a loc isExecuting s).1.Cost = 0 ∧
    (MapBuyLandRightsForTile a loc isExecuting s).2 = s := by
  have h : MapBuyLandRightsForTile a loc isExecuting s = (GameActions.Result.ok, s) := by
    unfold MapBuyLandRightsForTile
    rw [hs]
    simp only [hset, LandSetRightSetting.SetOwnershipWithChecks, hown,
      entranceLoopReturns_owned e _ hent, if_true, ite_self]
  rw [h]
  exact ⟨rfl, rfl, rfl⟩

/-- The statement C7 on tile (2,1) of `sampleState`, which is unowned and
carries a park entrance, executing. -/
theorem C7_entrance_tile_with_surface_not_bought_witness :
    (MapBuyLandRightsForTile sampleBuyAction { x := 64, y := 32 } true sampleState).1.Error =
      GameActions.Status.Ok ∧
    (MapBuyLandRightsForTile sampleBuyAction { x := 64, y := 32 } true sampleState).1.Cost = 0 ∧
    (MapBuyLandRightsForTile sampleBuyAction { x := 64, y := 32 } true sampleState).2 =
      sampleState :=
  C7_entrance_tile_with_surface_not_bought sampleBuyAction { x := 64, y := 32 } sampleState
    { Ownership := OWNERSHIP_UNOWNED, ParkFences := 0, BaseHeight := 14 } true
    (by decide) (by decide) rfl rfl

/-- C7 as stated fails: tile (3,1) of `sampleState` carries a park entrance
element that is not a ghost and has no surface element; there the per-tile
result of `SetOwnershipWithChecks` with `OWNERSHIP_OWNED` is InvalidParameters,
not Ok, in a query and in an execution. -/
theorem C7_counterexample_entrance_without_surface :
    hasNonGhostParkEntrance sampleState { x := 96, y := 32 } = true ∧
    (MapBuyLandRightsForTile sampleBuyAction { x := 96, y := 32 } false sampleState).1.Error =
      GameActions.Status.InvalidParameters ∧
    (MapBuyLandRightsForTile sampleBuyAction { x := 96, y := 32 } true sampleState).1.Error =
      GameActions.Status.InvalidParameters ∧
    ¬ ((MapBuyLandRightsForTile sampleBuyAction { x := 96, y := 32 } false sampleState).1.Error =
      GameActions.Status.Ok) ∧
    ¬ ((MapBuyLandRightsForTile sampleBuyAction { x := 96, y := 32 } true sampleState).1.Error =
      GameActions.Status.Ok) := by
  decide

/-! ## The range loop of the land rights action -/

/-- C8: in the editor or with the sandbox cheat, for every range and state,
in a query (`isExecuting` false) and in an execution (`isExecuting` true):
the overall result is Ok; its cost is the `money64` sum, over the locations
of the normalised, clamped range, of `tileCost`, which is the per-tile cost
where the per-tile result is Ok and 0 elsewhere, and it is the exact sum
when that sum is inside the `money64` range; a location whose surface element
is missing has a per-tile result InvalidParameters and adds 0; the final
state is the one of the per-tile steps of all the locations, none is
skipped after a failure; and on a map of at most 1001 by 1001 tiles every
location of the clamped range passes `LocationValid`. -/
theorem C8_cost_is_sum_over_ok_tiles (a : LandSetRightsAction) (s : GameState)
    (isExecuting : Bool) (h : s.ScreenFlagsEditor = true ∨ s.SandboxMode = true) :
    (a.QueryExecute isExecuting s).1.Error = GameActions.Status.Ok ∧
    (a.QueryExecute isExecuting s).1.Cost =
      wrapInt64 (((loopLocations (ClampRangeWithinMap s a.range.Normalise)).map (tileCost a s)).sum) ∧
    (-9223372036854775808 ≤
        ((loopLocations (ClampRangeWithinMap s a.range.Normalise)).map (tileCost a s)).sum ∧
      ((loopLocations (ClampRangeWithinMap s a.range.Normalise)).map (tileCost a s)).sum <
        9223372036854775808 →
      (a.QueryExecute isExecuting s).1.Cost =
        ((loopLocations (ClampRangeWithinMap s a.range.Normalise)).map (tileCost a s)).sum) ∧
    (∀ loc, MapGetSurfaceElementAt s loc = none →
      (MapBuyLandRightsForTile a loc isExecuting s).1.Error =
        GameActions.Status.InvalidParameters ∧
      tileCost a s loc = 0) ∧
    (a.QueryExecute isExecuting s).2 =
      (loopLocations (ClampRangeWithinMap s a.range.Normalise)).foldl
        (fun st loc => tileStepState a isExecuting loc st) s ∧
    (s.MapSize.x ≤ 1001 ∧ s.MapSize.y ≤ 1001 →
      ∀ loc ∈ loopLocations (ClampRangeWithinMap s a.range.Normalise),
        LocationValid loc = true) := by
  have hq := QueryExecute_editor a isExecuting s h
  refine ⟨by rw [hq.1]; rfl, by rw [hq.1], ?_, ?_, hq.2, ?_⟩
  · intro hr
    rw [hq.1]
    exact wrapInt64_of_range _ hr.1 hr.2
  · intro loc hloc
    have hres : ∀ b, (MapBuyLandRightsForTile a loc b s).1.Error =
        GameActions.Status.InvalidParameters := by
      intro b
      unfold MapBuyLandRightsForTile
      rw [hloc]
      rfl
    refine ⟨hres isExecuting, tileCost_of_not_ok a s loc ?_⟩
    rw [hres false]
    decide
  · intro hsize loc hloc
    unfold loopLocations at hloc
    rw [List.mem_flatMap] at hloc
    obtain ⟨y, hy, hl⟩ := hloc
    rw [List.mem_map] at hl
    obtain ⟨x, hx, rfl⟩ := hl
    have h1 := mem_stepValues _ _ _ hx
    have h2 := mem_stepValues _ _ _ hy
    simp only [ClampRangeWithinMap, GetMapSizeMaxXY, GetMapSizeUnits, COORDS_XY_STEP] at h1 h2
    simp only [LocationValid, MapIsLocationValid, MAXIMUM_MAP_SIZE_BIG, Bool.and_eq_true,
      decide_eq_true_eq]
    omega

/-- The statement C8 for `sampleBuyAction` on `sampleState`, executing: of the
four tiles of the row, (1,1) is bought for 900, (2,1) is refused at cost 0,
(3,1) and (4,1) have no surface; the cost is 900. -/
theorem C8_cost_is_sum_over_ok_tiles_witness :
    (sampleBuyAction.QueryExecute true sampleState).1.Error = GameActions.Status.Ok ∧
    (sampleBuyAction.QueryExecute true sampleState).1.Cost = 900 ∧
    MapGetSurfaceElementAt sampleState { x := 96, y := 32 } = none ∧
    tileCost sampleBuyAction sampleState { x := 96, y := 32 } = 0 :=
  ⟨(C8_cost_is_sum_over_ok_tiles sampleBuyAction sampleState true (Or.inl rfl)).1,
    (C8_cost_is_sum_over_ok_tiles sampleBuyAction sampleState true (Or.inl rfl)).2.1.trans
      (by decide),
    by decide,
    ((C8_cost_is_sum_over_ok_tiles sampleBuyAction sampleState true (Or.inl rfl)).2.2.2.1
      { x := 96, y := 32 } (by decide)).2⟩

/-- C9: for every land rights action, when the game is not in an editor
screen mode and the sandbox cheat is off, Query and Execute both return the
status NotInEditorMode and the state they received, so that every tile
(ownership and fences) and the peep spawns are unchanged. -/
theorem C9_not_in_editor_mode (a : LandSetRightsAction) (s : GameState)
    (h1 : s.ScreenFlagsEditor = false) (h2 : s.SandboxMode = false) :
    (a.Query s).1.Error = GameActions.Status.NotInEditorMode ∧ (a.Query s).2 = s ∧
    (a.Execute s).1.Error = GameActions.Status.NotInEditorMode ∧ (a.Execute s).2 = s := by
  unfold LandSetRightsAction.Query LandSetRightsAction.Execute
  rw [QueryExecute_not_editor a false s h1 h2, QueryExecute_not_editor a true s h1 h2]
  exact ⟨rfl, rfl, rfl, rfl⟩

/-- The statement C9 for `sampleBuyAction` on `samplePlayState`. -/
theorem C9_not_in_editor_mode_witness :
    (sampleBuyAction.Query samplePlayState).1.Error = GameActions.Status.NotInEditorMode ∧
    (sampleBuyAction.Query samplePlayState).2 = samplePlayState ∧
    (sampleBuyAction.Execute samplePlayState).1.Error = GameActions.Status.NotInEditorMode ∧
    (sampleBuyAction.Execute samplePlayState).2 = samplePlayState :=
  C9_not_in_editor_mode sampleBuyAction samplePlayState rfl rfl

/-- C10, as the code has it: for every land rights action whose setting is
none of the five defined settings (a value from 5 on), the per-tile step
returns InvalidParameters at every location and changes nothing; Query and
Execute do not pass that status on: they return Ok in the editor or with the
sandbox cheat and NotInEditorMode otherwise, with cost 0 and the state they
received. -/
theorem C10_bad_setting_fails_per_tile_only (a : LandSetRightsAction) (s : GameState)
    (isExecuting : Bool) (h : 5 ≤ a.setting) :
    (∀ loc, (MapBuyLandRightsForTile a loc isExecuting s).1.Error =
        GameActions.Status.InvalidParameters ∧
      (MapBuyLandRightsForTile a loc isExecuting s).2 = s) ∧
    (a.QueryExecute isExecuting s).1.Error =
      (if s.ScreenFlagsEditor = true ∨ s.SandboxMode = true then GameActions.Status.Ok
        else GameActions.Status.NotInEditorMode) ∧
    (a.QueryExecute isExecuting s).1.Cost = 0 ∧
    (a.QueryExecute isExecuting s).2 = s := by
  refine ⟨fun loc => MapBuyLandRightsForTile_bad_setting a loc isExecuting s h, ?_⟩
  by_cases hed : s.ScreenFlagsEditor = true ∨ s.SandboxMode = true
  · rw [(QueryExecute_editor a isExecuting s hed).1, (QueryExecute_editor a isExecuting s hed).2,
      if_pos hed]
    refine ⟨rfl, ?_, ?_⟩
    · rw [sum_tileCost_zero]
      · rfl
      · intro l _
        apply tileCost_of_not_ok
        rw [(MapBuyLandRightsForTile_bad_setting a l false s h).1]
        decide
    · exact foldl_tileStepState_fixed a isExecuting s _
        (fun l _ => (MapBuyLandRightsForTile_bad_setting a l isExecuting s h).2)
  · have h1 : s.ScreenFlagsEditor = false := by
      cases hh : s.ScreenFlagsEditor <;> simp [hh] at hed ⊢
    have h2 : s.SandboxMode = false := by
      cases hh : s.SandboxMode <;> simp [hh] at hed ⊢
    rw [QueryExecute_not_editor a isExecuting s h1 h2, if_neg hed]
    exact ⟨rfl, rfl, rfl⟩

/-- The statement C10 for `sampleBadSettingAction`, whose setting is 7, on
`sampleState`, executing. -/
theorem C10_bad_setting_fails_per_tile_only_witness :
    (MapBuyLandRightsForTile sampleBadSettingAction { x := 32, y := 32 } true sampleState).1.Error =
      GameActions.Status.InvalidParameters ∧
    (sampleBadSettingAction.QueryExecute true sampleState).1.Error = GameActions.Status.Ok ∧
    (sampleBadSettingAction.QueryExecute true sampleState).2 = sampleState :=
  ⟨((C10_bad_setting_fails_per_tile_only sampleBadSettingAction sampleState true
      (by decide)).1 { x := 32, y := 32 }).1,
    (C10_bad_setting_fails_per_tile_only sampleBadSettingAction sampleState true
      (by decide)).2.1,
    (C10_bad_setting_fails_per_tile_only sampleBadSettingAction sampleState true
      (by decide)).2.2.2⟩

/-- C10 as stated fails: with the setting 7, Query and Execute on
`sampleState` (in the editor) return Ok, and on `samplePlayState` they return
NotInEditorMode; neither status is InvalidParameters. -/
theorem C10_counterexample_bad_setting_returns_ok :
    (sampleBadSettingAction.Query sampleState).1.Error = GameActions.Status.Ok ∧
    (sampleBadSettingAction.Execute sampleState).1.Error = GameActions.Status.Ok ∧
    (sampleBadSettingAction.Query samplePlayState).1.Error =
      GameActions.Status.NotInEditorMode ∧
    (sampleBadSettingAction.Execute samplePlayState).1.Error =
      GameActions.Status.NotInEditorMode ∧
    ¬ ((sampleBadSettingAction.Query sampleState).1.Error =
      GameActions.Status.InvalidParameters) ∧
    ¬ ((sampleBadSettingAction.Execute sampleState).1.Error =
      GameActions.Status.InvalidParameters) := by
  decide


/-! ## Lemmas for histories, fences, probability and ownership bits -/

/-- A per-tile result that is not Ok is InvalidParameters, with the title `STR_ERR_INVALID_PARAMETER` and one of the two messages. -/
theorem MapBuyLandRightsForTile_error_shape (a : LandSetRightsAction) (loc : CoordsXY) (b : Bool)
    (s : GameState) :
    (MapBuyLandRightsForTile a loc b s).1.Error ≠ GameActions.Status.Ok →
      (MapBuyLandRightsForTile a loc b s).1.Error = GameActions.Status.InvalidParameters ∧
      (MapBuyLandRightsForTile a loc b s).1.ErrorTitle = StringId.STR_ERR_INVALID_PARAMETER ∧
      ((MapBuyLandRightsForTile a loc b s).1.ErrorMessage =
          StringId.STR_ERR_SURFACE_ELEMENT_NOT_FOUND ∨
        (MapBuyLandRightsForTile a loc b s).1.ErrorMessage = StringId.STR_ERR_VALUE_OUT_OF_RANGE) := by
  obtain ⟨r, st, o⟩ := a
  unfold MapBuyLandRightsForTile
  cases MapGetSurfaceElementAt s loc with
  | none => intro _; exact ⟨rfl, rfl, Or.inl rfl⟩
  | some e =>
    match st with
    | 0 => cases b <;> intro h <;> exact absurd rfl h
    | 1 => cases b <;> intro h <;> exact absurd rfl h
    | 2 => cases b <;> intro h <;> exact absurd rfl h
    | 3 => cases b <;> intro h <;> exact absurd rfl h
    | 4 =>
      simp only
      split_ifs <;> intro h <;> exact absurd rfl h
    | n + 5 => intro _; exact ⟨rfl, rfl, Or.inr rfl⟩

/-- A result of the park parameter action that is not Ok is InvalidParameters, with title and message set. -/
theorem ParkSetParameter_error_shape (p : ParkSetParameterAction) (s : GameState) :
    ((p.Query s).1.Error ≠ GameActions.Status.Ok →
      (p.Query s).1.Error = GameActions.Status.InvalidParameters ∧
      (p.Query s).1.ErrorTitle = StringId.STR_ERR_INVALID_PARAMETER ∧
      (p.Query s).1.ErrorMessage = StringId.STR_ERR_VALUE_OUT_OF_RANGE) ∧
    ((p.Execute s).1.Error ≠ GameActions.Status.Ok →
      (p.Execute s).1.Error = GameActions.Status.InvalidParameters ∧
      (p.Execute s).1.ErrorTitle = StringId.STR_ERR_INVALID_PARAMETER ∧
      (p.Execute s).1.ErrorMessage = StringId.STR_ERR_VALUE_OUT_OF_RANGE) := by
  obtain ⟨par, v⟩ := p
  match par with
  | 0 =>
    simp only [ParkSetParameterAction.Query, ParkSetParameterAction.Execute, ParkParameter.Count]
    refine ⟨fun h => absurd rfl h, ?_⟩
    split_ifs <;> exact fun h => absurd rfl h
  | 1 =>
    simp only [ParkSetParameterAction.Query, ParkSetParameterAction.Execute, ParkParameter.Count]
    refine ⟨fun h => absurd rfl h, ?_⟩
    split_ifs <;> exact fun h => absurd rfl h
  | 2 =>
    simp only [ParkSetParameterAction.Query, ParkSetParameterAction.Execute, ParkParameter.Count]
    exact ⟨fun h => absurd rfl h, fun h => absurd rfl h⟩
  | n + 3 =>
    simp only [ParkSetParameterAction.Query, ParkSetParameterAction.Execute, ParkParameter.Count]
    exact ⟨fun _ => ⟨by simp; rfl, by simp; rfl, by simp; rfl⟩, fun _ => ⟨rfl, rfl, rfl⟩⟩

/-- The shifting loop keeps the length of the array. -/
theorem shift_length {T : Type} : ∀ (k : Nat) (history : List T),
    (HistoryPushRecord.shift history k).length = history.length := by
  intro k
  induction k with
  | zero => intro history; rfl
  | succ k ih =>
    intro history
    unfold HistoryPushRecord.shift
    cases history[k]? with
    | none => exact ih history
    | some item => simp only [ih, List.length_set]

/-- The array after the shifting loop run from `k` down: the entries 1 to `k` hold their left neighbours of before, the others are unchanged. -/
theorem shift_getElem {T : Type} : ∀ (k : Nat) (history : List T), k < history.length →
    ∀ j, (HistoryPushRecord.shift history k)[j]? =
      if 1 ≤ j ∧ j ≤ k then history[j - 1]? else history[j]? := by
  intro k
  induction k with
  | zero =>
    intro history _ j
    have : ¬ (1 ≤ j ∧ j ≤ 0) := by omega
    rw [if_neg this]
    rfl
  | succ k ih =>
    intro history hk j
    unfold HistoryPushRecord.shift
    cases hget : history[k]? with
    | none =>
      rw [List.getElem?_eq_none_iff] at hget
      omega
    | some item =>
      simp only
      rw [ih _ (by rw [List.length_set]; omega) j]
      by_cases h1 : 1 ≤ j ∧ j ≤ k
      · rw [if_pos h1, if_pos (by omega), List.getElem?_set_ne (by omega)]
      · rw [if_neg h1]
        by_cases h2 : j = k + 1
        · subst h2
          rw [if_pos (by omega), List.getElem?_set, if_pos rfl, if_pos hk]
          simp only [Nat.add_sub_cancel, hget]
        · rw [if_neg (by omega), List.getElem?_set_ne (by omega)]

/-- On an array of `N` entries `HistoryPushRecord` puts the new item in front and drops the last entry. -/
theorem HistoryPushRecord_eq {T : Type} (N : Nat) (hN : 1 ≤ N) (history : List T)
    (hlen : history.length = N) (newItem : T) :
    HistoryPushRecord N history newItem = (newItem :: history).take N := by
  apply List.ext_getElem?
  intro j
  unfold HistoryPushRecord
  rw [List.getElem?_set, List.getElem?_take, shift_length, shift_getElem _ _ (by omega)]
  cases j with
  | zero =>
    simp only [if_true, show 0 < history.length by omega, show 0 < N by omega, List.getElem?_cons_zero]
  | succ j =>
    rw [if_neg (by omega)]
    simp only [List.getElem?_cons_succ, Nat.add_sub_cancel]
    by_cases hj : j + 1 < N
    · rw [if_pos hj, if_pos (by omega)]
    · rw [if_neg hj, if_neg (by omega)]
      exact List.getElem?_eq_none (by omega)

/-- Pushing the records `rs` one after the other leaves the first `N` entries of the reversed records followed by the old array. -/
theorem foldl_HistoryPushRecord {T : Type} (N : Nat) (hN : 1 ≤ N) :
    ∀ (rs history : List T), history.length = N →
      rs.foldl (HistoryPushRecord N) history = (rs.reverse ++ history).take N := by
  intro rs
  induction rs with
  | nil =>
    intro history hlen
    simp only [List.foldl_nil, List.reverse_nil, List.nil_append]
    rw [List.take_of_length_le (by omega)]
  | cons r rs ih =>
    intro history hlen
    rw [List.foldl_cons, HistoryPushRecord_eq N hN history hlen r,
      ih _ (by rw [List.length_take, List.length_cons]; omega)]
    rw [List.reverse_cons, List.append_assoc, List.singleton_append]
    rw [List.take_append_eq_append_take,
      @List.take_append_eq_append_take _ rs.reverse (r :: history) N, List.take_take]
    congr 2
    omega

/-- Writing the fence mask a surface already has changes nothing. -/
theorem modifyFirstSurface_id_of_fences (n : Nat) : ∀ (l : List TileElement) (e : SurfaceElement),
    firstSurface l = some e → e.GetParkFences = n →
    modifyFirstSurface (fun x => x.SetParkFences n) l = l := by
  intro l
  induction l with
  | nil => intro e h; simp [firstSurface] at h
  | cons hd tl ih =>
    intro e h hn
    cases hd with
    | Surface x =>
      simp only [firstSurface, Option.some.injEq] at h
      subst h
      simp only [modifyFirstSurface, SurfaceElement.SetParkFences]
      simp only [SurfaceElement.GetParkFences] at hn
      rw [← hn]
    | Entrance x =>
      simp only [firstSurface] at h
      simp only [modifyFirstSurface, ih e h hn]
    | Other =>
      simp only [firstSurface] at h
      simp only [modifyFirstSurface, ih e h hn]

/-- The conditional write of `ParkUpdateFences` gives the state of the plain write. -/
theorem storeFences_eq (s : GameState) (c : CoordsXY) (e : SurfaceElement) (n : Nat)
    (h : MapGetSurfaceElementAt s c = some e) :
    storeFences s c e n = s.modifySurfaceAt c (fun x => x.SetParkFences n) := by
  unfold storeFences
  by_cases hn : e.GetParkFences ≠ n
  · rw [if_pos hn]
  · rw [if_neg hn]
    have hn' : e.GetParkFences = n := by
      by_contra hh
      exact hn hh
    have : (fun tx ty => if tx = c.ToTileCoords.x ∧ ty = c.ToTileCoords.y then
        modifyFirstSurface (fun x => x.SetParkFences n) (s.Tiles tx ty) else s.Tiles tx ty) =
        s.Tiles := by
      funext tx ty
      split_ifs with hh
      · obtain ⟨rfl, rfl⟩ := hh
        exact modifyFirstSurface_id_of_fences n _ e h hn'
      · rfl
    unfold GameState.modifySurfaceAt
    rw [this]

/-- The function `ParkUpdateFences` sets the fence mask of the tile to `fenceTarget`. -/
theorem ParkUpdateFences_eq (c : CoordsXY) (s : GameState) :
    ParkUpdateFences c s = setFencesAt (fenceTarget s c) c s := by
  unfold ParkUpdateFences fenceTarget
  by_cases hE : MapIsEdge s c = true
  · rw [if_pos hE, if_pos hE]; rfl
  · rw [if_neg hE, if_neg hE]
    cases hS : MapGetSurfaceElementAt s c with
    | none => rfl
    | some e =>
      simp only
      by_cases ho : e.GetOwnership &&& OWNERSHIP_OWNED = 0
      · rw [if_pos ho, if_pos ho]
        by_cases hem : (s.elementsAt c).isEmpty = true
        · rw [if_pos hem, if_pos hem]; rfl
        · rw [if_neg hem, if_neg hem]
          rw [storeFences_eq s c e _ hS]
          by_cases ha : (!(s.elementsAt c).any isNonGhostParkEntrance) = true
          · simp only [ha, if_true]; rfl
          · simp only [ha, if_false]
            simp only [Bool.false_eq_true, if_false]
            rfl
      · rw [if_neg ho, if_neg ho, storeFences_eq s c e _ hS]
        rfl

/-- The function `MapIsLocationInPark` reads the fence inputs only. -/
theorem MapIsLocationInPark_congr (s1 s2 : GameState) (h : sameFenceInputs s1 s2) (p : CoordsXY) :
    MapIsLocationInPark s1 p = MapIsLocationInPark s2 p := by
  unfold MapIsLocationInPark MapGetSurfaceElementAt GameState.elementsAt
  have hA := (h.2 p.ToTileCoords.x p.ToTileCoords.y).1
  cases h1 : firstSurface (s1.Tiles p.ToTileCoords.x p.ToTileCoords.y) <;>
    cases h2 : firstSurface (s2.Tiles p.ToTileCoords.x p.ToTileCoords.y) <;>
    simp [h1, h2] at hA ⊢
  rw [hA]

/-- The directional bits read the fence inputs only. -/
theorem neighbourFences_congr (s1 s2 : GameState) (h : sameFenceInputs s1 s2) (c : CoordsXY) :
    neighbourFences s1 c = neighbourFences s2 c := by
  unfold neighbourFences
  simp only [MapIsLocationInPark_congr s1 s2 h]

/-- The fence mask `ParkUpdateFences` arrives at reads the fence inputs only. -/
theorem fenceTarget_congr (s1 s2 : GameState) (h : sameFenceInputs s1 s2) (c : CoordsXY) :
    fenceTarget s1 c = fenceTarget s2 c := by
  have hedge : MapIsEdge s1 c = MapIsEdge s2 c := by
    unfold MapIsEdge GetMapSizeUnits
    rw [h.1]
  have hA := (h.2 c.ToTileCoords.x c.ToTileCoords.y).1
  have hB := (h.2 c.ToTileCoords.x c.ToTileCoords.y).2.1
  have hC := (h.2 c.ToTileCoords.x c.ToTileCoords.y).2.2
  unfold fenceTarget MapGetSurfaceElementAt GameState.elementsAt
  rw [hedge, hB, hC, neighbourFences_congr s1 s2 h]
  cases h1 : firstSurface (s1.Tiles c.ToTileCoords.x c.ToTileCoords.y) <;>
    cases h2 : firstSurface (s2.Tiles c.ToTileCoords.x c.ToTileCoords.y) <;>
    simp [h1, h2] at hA ⊢
  rw [hA]

/-- A write to the fence mask keeps the fence inputs of a tile. -/
theorem modifyFirstSurface_fence_inputs (n : Nat) (l : List TileElement) :
    (firstSurface (modifyFirstSurface (fun e => e.SetParkFences n) l)).map
        SurfaceElement.GetOwnership = (firstSurface l).map SurfaceElement.GetOwnership ∧
    (modifyFirstSurface (fun e => e.SetParkFences n) l).isEmpty = l.isEmpty ∧
    (modifyFirstSurface (fun e => e.SetParkFences n) l).any isNonGhostParkEntrance =
      l.any isNonGhostParkEntrance := by
  induction l with
  | nil => exact ⟨rfl, rfl, rfl⟩
  | cons hd tl ih =>
    cases hd with
    | Surface x => exact ⟨rfl, rfl, rfl⟩
    | Entrance x =>
      refine ⟨?_, rfl, ?_⟩
      · simpa only [modifyFirstSurface, firstSurface] using ih.1
      · simp only [modifyFirstSurface, List.any_cons, ih.2.2]
    | Other =>
      refine ⟨?_, rfl, ?_⟩
      · simpa only [modifyFirstSurface, firstSurface] using ih.1
      · simp only [modifyFirstSurface, List.any_cons, ih.2.2]

/-- Setting a fence mask keeps the fence inputs of the state. -/
theorem setFencesAt_fence_inputs (t : Option Nat) (c : CoordsXY) (s : GameState) :
    sameFenceInputs (setFencesAt t c s) s := by
  cases t with
  | none => exact ⟨rfl, fun _ _ => ⟨rfl, rfl, rfl⟩⟩
  | some n =>
    refine ⟨rfl, fun tx ty => ?_⟩
    simp only [setFencesAt, GameState.modifySurfaceAt]
    split_ifs
    · exact modifyFirstSurface_fence_inputs n _
    · exact ⟨rfl, rfl, rfl⟩

/-- Fence masks of two different tiles can be set in either order. -/
theorem setFencesAt_comm (t1 t2 : Option Nat) (c1 c2 : CoordsXY) (s : GameState)
    (h : c1.ToTileCoords ≠ c2.ToTileCoords) :
    setFencesAt t2 c2 (setFencesAt t1 c1 s) = setFencesAt t1 c1 (setFencesAt t2 c2 s) := by
  have hne : ∀ tx ty : Int, ¬ ((tx = c1.ToTileCoords.x ∧ ty = c1.ToTileCoords.y) ∧
      (tx = c2.ToTileCoords.x ∧ ty = c2.ToTileCoords.y)) := by
    intro tx ty hh
    apply h
    cases hA : c1.ToTileCoords
    cases hB : c2.ToTileCoords
    rw [hA, hB] at hh
    simp only at hh
    rw [← hh.1.1, ← hh.1.2, ← hh.2.1, ← hh.2.2]
  cases t1 with
  | none => rfl
  | some n1 =>
    cases t2 with
    | none => rfl
    | some n2 =>
      simp only [setFencesAt, GameState.modifySurfaceAt, GameState.mk.injEq, and_true, true_and]
      funext tx ty
      split_ifs with ha hb hb <;>
        first
          | rfl
          | exact absurd ⟨hb, ha⟩ (hne tx ty)

/-- Two calls of `ParkUpdateFences` on different tiles commute. -/
theorem ParkUpdateFences_comm_of_tile_ne (c1 c2 : CoordsXY) (s : GameState)
    (h : c1.ToTileCoords ≠ c2.ToTileCoords) :
    ParkUpdateFences c2 (ParkUpdateFences c1 s) = ParkUpdateFences c1 (ParkUpdateFences c2 s) := by
  rw [ParkUpdateFences_eq c1 s, ParkUpdateFences_eq c2 s, ParkUpdateFences_eq c2, ParkUpdateFences_eq c1,
    fenceTarget_congr _ s (setFencesAt_fence_inputs _ _ _),
    fenceTarget_congr _ s (setFencesAt_fence_inputs _ _ _)]
  exact setFencesAt_comm _ _ _ _ _ h

/-- A location with a coordinate below 32 is on the map edge: `ParkUpdateFences` returns at once. -/
theorem ParkUpdateFences_of_low (c : CoordsXY) (s : GameState) (h : c.x < 32 ∨ c.y < 32) :
    ParkUpdateFences c s = s := by
  unfold ParkUpdateFences
  have : MapIsEdge s c = true := by
    unfold MapIsEdge
    simp only [decide_eq_true_eq]
    omega
  rw [if_pos this]

/-- Two calls of `ParkUpdateFences` on locations of `fenceLocations coords` commute. -/
theorem ParkUpdateFences_comm_of_mem (coords c1 c2 : CoordsXY) (s : GameState)
    (h1 : c1 ∈ fenceLocations coords) (h2 : c2 ∈ fenceLocations coords) :
    ParkUpdateFences c2 (ParkUpdateFences c1 s) = ParkUpdateFences c1 (ParkUpdateFences c2 s) := by
  by_cases hlow1 : c1.x < 32 ∨ c1.y < 32
  · rw [ParkUpdateFences_of_low c1 s hlow1, ParkUpdateFences_of_low c1 _ hlow1]
  · by_cases hlow2 : c2.x < 32 ∨ c2.y < 32
    · rw [ParkUpdateFences_of_low c2 s hlow2, ParkUpdateFences_of_low c2 _ hlow2]
    · by_cases heq : c1 = c2
      · rw [heq]
      · apply ParkUpdateFences_comm_of_tile_ne
        intro htile
        apply heq
        obtain ⟨x, y⟩ := coords
        obtain ⟨x1, y1⟩ := c1
        obtain ⟨x2, y2⟩ := c2
        simp only [fenceLocations, COORDS_XY_STEP, List.mem_cons, CoordsXY.mk.injEq,
          List.mem_singleton, List.not_mem_nil, or_false] at h1 h2
        simp only [CoordsXY.ToTileCoords, COORDS_XY_STEP, TileCoordsXY.mk.injEq] at htile
        simp only at hlow1 hlow2
        rw [Int.tdiv_eq_ediv (by omega) (by omega), Int.tdiv_eq_ediv (by omega) (by omega),
          Int.tdiv_eq_ediv (by omega) (by omega), Int.tdiv_eq_ediv (by omega) (by omega)] at htile
        simp only [CoordsXY.mk.injEq]
        omega

/-- When park value minus bank loan is inside the `money64` range, the company value is the exact value park value - loan + cash, clamped. -/
theorem CalculateCompanyValue_of_subtraction_in_range (s : GameState)
    (h0 : INT64_MIN ≤ s.ParkValue - s.BankLoan) (h1 : s.ParkValue - s.BankLoan ≤ INT64_MAX) :
    CalculateCompanyValue s = clamp (s.ParkValue - s.BankLoan + s.Cash) INT64_MIN INT64_MAX := by
  unfold CalculateCompanyValue AddClamp_money64
  simp only [INT64_MIN, INT64_MAX] at h0 h1
  rw [wrapInt64_of_range _ h0 (by omega)]

/-- Setting the bits `k` changes no bit of a mask disjoint from `k`. -/
theorem or_and_of_disjoint (f k m : Nat) (h : m &&& k = 0) : (f ||| k) &&& m = f &&& m := by
  apply Nat.eq_of_testBit_eq
  intro i
  have hi := congrArg (fun n => Nat.testBit n i) h
  simp only [Nat.testBit_and, Nat.zero_testBit] at hi
  simp only [Nat.testBit_and, Nat.testBit_or]
  cases hf : f.testBit i <;> cases hk : k.testBit i <;> cases hm : m.testBit i <;> simp_all

/-- Masking with the ownership nibble twice is masking once. -/
theorem and_nibble_twice (n : Nat) : n &&& 240 &&& 240 = n &&& 240 := by
  rw [Nat.and_assoc]
  rfl

/-- The ownership nibble holds the owned bit. -/
theorem and_nibble_owned (n : Nat) : n &&& 240 &&& OWNERSHIP_OWNED = n &&& OWNERSHIP_OWNED := by
  rw [Nat.and_assoc]
  rfl

/-- The ownership nibble of a consistent mask is consistent. -/
theorem maskConsistent_nibble (o : Nat) (h : OwnershipMaskConsistent o) :
    OwnershipMaskConsistent (o &&& 240) := by
  unfold OwnershipMaskConsistent at h ⊢
  have h1 : o &&& 240 &&& OWNERSHIP_OWNED = o &&& OWNERSHIP_OWNED := and_nibble_owned o
  have h2 : o &&& 240 &&& OWNERSHIP_AVAILABLE = o &&& OWNERSHIP_AVAILABLE := by
    rw [Nat.and_assoc]; rfl
  have h3 : o &&& 240 &&& OWNERSHIP_CONSTRUCTION_RIGHTS_OWNED =
      o &&& OWNERSHIP_CONSTRUCTION_RIGHTS_OWNED := by
    rw [Nat.and_assoc]; rfl
  have h4 : o &&& 240 &&& OWNERSHIP_CONSTRUCTION_RIGHTS_AVAILABLE =
      o &&& OWNERSHIP_CONSTRUCTION_RIGHTS_AVAILABLE := by
    rw [Nat.and_assoc]; rfl
  rw [h1, h2, h3, h4]
  exact h

set_option maxRecDepth 100000 in
/-- Up to 70 raises by a quarter the bound stays below 2^32. -/
theorem awardBound_lt : ∀ k, k ≤ 70 → awardBound k < 4294967296 := by
  decide

/-- The bound is not negative. -/
theorem awardBound_nonneg : ∀ k, 0 ≤ awardBound k := by
  intro k
  induction k with
  | zero => decide
  | succ k ih =>
    show 0 ≤ awardBound k + awardBound k / 4
    omega

/-- The loop over the awards keeps the order of two probabilities, as long as the number of positive awards leaves the greater one below 2^32. -/
theorem awardLoop_mono : ∀ (awards : List Award) (p1 p2 : Int) (k : Nat),
    0 ≤ p1 → p1 ≤ p2 → p2 ≤ awardBound k → k + positiveAwards awards ≤ 70 →
    awards.foldl awardLoopBody p1 ≤ awards.foldl awardLoopBody p2 := by
  intro awards
  induction awards with
  | nil => intro p1 p2 k _ h _ _; exact h
  | cons award rest ih =>
    intro p1 p2 k h0 h12 hb hk
    rw [List.foldl_cons, List.foldl_cons]
    by_cases hpos : award.Positive = true
    · have hcount : positiveAwards (award :: rest) = positiveAwards rest + 1 := by
        unfold positiveAwards
        rw [List.countP_cons_of_pos _ _ (by simpa using hpos)]
      have hlt := awardBound_lt (k + 1) (by omega)
      have hstep : awardBound (k + 1) = awardBound k + awardBound k / 4 := rfl
      have e1 : awardLoopBody p1 award = p1 + p1 / 4 := by
        simp only [awardLoopBody, hpos, if_true, wrapUInt32]
        omega
      have e2 : awardLoopBody p2 award = p2 + p2 / 4 := by
        simp only [awardLoopBody, hpos, if_true, wrapUInt32]
        omega
      rw [e1, e2]
      exact ih _ _ (k + 1) (by omega) (by omega) (by omega) (by omega)
    · have hcount : positiveAwards (award :: rest) = positiveAwards rest := by
        unfold positiveAwards
        rw [List.countP_cons_of_neg _ _ (by simpa using hpos)]
      have hlt := awardBound_lt k (by omega)
      have e1 : awardLoopBody p1 award = p1 - p1 / 4 := by
        simp only [awardLoopBody, hpos, wrapUInt32]
        simp only [Bool.false_eq_true, if_false]
        omega
      have e2 : awardLoopBody p2 award = p2 - p2 / 4 := by
        simp only [awardLoopBody, hpos, wrapUInt32]
        simp only [Bool.false_eq_true, if_false]
        omega
      rw [e1, e2]
      exact ih _ _ k (by omega) (by omega) (by omega) (by omega)

/-- The probability before the awards, as a function of the first value. -/
theorem probabilityBeforeAwards_shape (s : GameState) :
    ∃ d : Int, (d = 1 ∨ d = 4 ∨ d = 16 ∨ d = 64 ∨ d = 256 ∨ d = 1024) ∧
      (∀ r : Nat, probabilityBeforeAwards { s with ParkRating := r } =
        (50 + clamp ((r : Int) - 200) 0 650) / d) := by
  have hbase : ∀ r : Nat, wrapUInt32 (50 + clamp ((r : Int) - 200) 0 650) =
      50 + clamp ((r : Int) - 200) 0 650 := by
    intro r
    unfold wrapUInt32 clamp
    split_ifs <;> omega
  unfold probabilityBeforeAwards
  simp only [hbase]
  have hfee : ∀ r : Nat, ParkGetEntranceFee { s with ParkRating := r } = ParkGetEntranceFee s :=
    fun r => rfl
  simp only [hfee]
  by_cases h1 : wrapUInt32 ((s.NumGuestsInPark : Int) + (s.NumGuestsHeadingForPark : Int)) >
      (s.SuggestedGuestMaximum : Int) <;>
  by_cases h2 : s.ParkFlags &&& PARK_FLAGS_DIFFICULT_GUEST_GENERATION ≠ 0 <;>
  by_cases h3 : wrapUInt32 ((s.NumGuestsInPark : Int) + (s.NumGuestsHeadingForPark : Int)) > 7000 <;>
  by_cases h4 : ParkGetEntranceFee s > s.TotalRideValueForMoney <;>
  by_cases h5 : Int.tdiv (ParkGetEntranceFee s) 2 > s.TotalRideValueForMoney <;>
  simp only [h1, h2, h3, h4, h5, if_true, if_false] <;>
  first
    | exact ⟨1, by omega, fun r => by omega⟩
    | exact ⟨4, by omega, fun r => by omega⟩
    | exact ⟨16, by omega, fun r => by omega⟩
    | exact ⟨64, by omega, fun r => by omega⟩
    | exact ⟨256, by omega, fun r => by omega⟩
    | exact ⟨1024, by omega, fun r => by omega⟩

/-- The base value lies between 50 and 700. -/
theorem base_bounds (r : Nat) :
    50 ≤ 50 + clamp ((r : Int) - 200) 0 650 ∧ 50 + clamp ((r : Int) - 200) 0 650 ≤ 700 := by
  unfold clamp
  split_ifs <;> omega

/-- The base value is monotone in the rating. -/
theorem base_mono (r1 r2 : Nat) (h : r1 ≤ r2) :
    50 + clamp ((r1 : Int) - 200) 0 650 ≤ 50 + clamp ((r2 : Int) - 200) 0 650 := by
  unfold clamp
  split_ifs <;> omega

/-- A mask with the owned and the construction rights owned bits cleared is consistent. -/
theorem maskConsistent_unown_land (o : Nat) :
    OwnershipMaskConsistent
      (o &&& (255 ^^^ (OWNERSHIP_OWNED ||| OWNERSHIP_CONSTRUCTION_RIGHTS_OWNED))) := by
  unfold OwnershipMaskConsistent
  have h1 : (o &&& (255 ^^^ (OWNERSHIP_OWNED ||| OWNERSHIP_CONSTRUCTION_RIGHTS_OWNED))) &&&
      OWNERSHIP_OWNED = 0 := by
    rw [Nat.and_assoc]
    have : (255 ^^^ (OWNERSHIP_OWNED ||| OWNERSHIP_CONSTRUCTION_RIGHTS_OWNED)) &&& OWNERSHIP_OWNED = 0 := by
      decide
    rw [this, Nat.and_zero]
  have h2 : (o &&& (255 ^^^ (OWNERSHIP_OWNED ||| OWNERSHIP_CONSTRUCTION_RIGHTS_OWNED))) &&&
      OWNERSHIP_CONSTRUCTION_RIGHTS_OWNED = 0 := by
    rw [Nat.and_assoc]
    have : (255 ^^^ (OWNERSHIP_OWNED ||| OWNERSHIP_CONSTRUCTION_RIGHTS_OWNED)) &&&
        OWNERSHIP_CONSTRUCTION_RIGHTS_OWNED = 0 := by
      decide
    rw [this, Nat.and_zero]
  rw [h1, h2]
  exact ⟨fun h => h.1 rfl, fun h => h.1 rfl⟩

/-- Clearing the construction rights owned bit keeps a mask consistent. -/
theorem maskConsistent_unown_rights (o : Nat) (h : OwnershipMaskConsistent o) :
    OwnershipMaskConsistent (o &&& (255 ^^^ OWNERSHIP_CONSTRUCTION_RIGHTS_OWNED)) := by
  unfold OwnershipMaskConsistent at h ⊢
  have h1 : (o &&& (255 ^^^ OWNERSHIP_CONSTRUCTION_RIGHTS_OWNED)) &&& OWNERSHIP_OWNED =
      o &&& OWNERSHIP_OWNED := by
    rw [Nat.and_assoc]
    have : (255 ^^^ OWNERSHIP_CONSTRUCTION_RIGHTS_OWNED) &&& OWNERSHIP_OWNED = OWNERSHIP_OWNED := by
      decide
    rw [this]
  have h2 : (o &&& (255 ^^^ OWNERSHIP_CONSTRUCTION_RIGHTS_OWNED)) &&& OWNERSHIP_AVAILABLE =
      o &&& OWNERSHIP_AVAILABLE := by
    rw [Nat.and_assoc]
    have : (255 ^^^ OWNERSHIP_CONSTRUCTION_RIGHTS_OWNED) &&& OWNERSHIP_AVAILABLE =
        OWNERSHIP_AVAILABLE := by
      decide
    rw [this]
  have h3 : (o &&& (255 ^^^ OWNERSHIP_CONSTRUCTION_RIGHTS_OWNED)) &&&
      OWNERSHIP_CONSTRUCTION_RIGHTS_OWNED = 0 := by
    rw [Nat.and_assoc]
    have : (255 ^^^ OWNERSHIP_CONSTRUCTION_RIGHTS_OWNED) &&&
        OWNERSHIP_CONSTRUCTION_RIGHTS_OWNED = 0 := by
      decide
    rw [this, Nat.and_zero]
  rw [h1, h2, h3]
  exact ⟨h.1, fun hh => hh.1 rfl⟩

/-- Consistency reads the rights view of the tiles only. -/
theorem OwnershipConsistent_of_view (s s' : GameState)
    (hv : ∀ tx ty, rightsView (s'.Tiles tx ty) = rightsView (s.Tiles tx ty))
    (h : OwnershipConsistent s) : OwnershipConsistent s' := by
  intro tx ty e' he'
  have h1 := congrArg Prod.fst (hv tx ty)
  simp only [rightsView, he', Option.map_some'] at h1
  cases hs : firstSurface (s.Tiles tx ty) with
  | none => simp [hs] at h1
  | some e =>
    simp only [hs, Option.map_some', Option.some.injEq, Prod.mk.injEq] at h1
    have := h tx ty e hs
    simp only [SurfaceElement.GetOwnership] at this ⊢
    rw [h1.1]
    exact this

/-- A write of the ownership keeps consistency when the new mask is consistent whenever the old one is. -/
theorem OwnershipConsistent_modify (s : GameState) (loc : CoordsXY) (g : SurfaceElement → Nat)
    (h : OwnershipConsistent s)
    (hg : ∀ e, OwnershipMaskConsistent e.GetOwnership → OwnershipMaskConsistent (g e)) :
    OwnershipConsistent (s.modifySurfaceAt loc (fun e => e.SetOwnership (g e))) := by
  intro tx ty e' he'
  simp only [GameState.modifySurfaceAt] at he'
  split_ifs at he' with hloc
  · rw [firstSurface_modifyFirstSurface] at he'
    cases hs : firstSurface (s.Tiles tx ty) with
    | none => simp [hs] at he'
    | some e =>
      simp only [hs, Option.map_some', Option.some.injEq] at he'
      rw [← he']
      show OwnershipMaskConsistent (g e &&& 240 &&& 240)
      exact maskConsistent_nibble _ (maskConsistent_nibble _ (hg e (h tx ty e hs)))
  · exact h tx ty e' he'

/-- The writes of the `SetOwnershipWithChecks` case with a consistent mask keep consistency. -/
theorem OwnershipConsistent_set_checked (s : GameState) (loc : CoordsXY) (o : Nat)
    (spawns : List PeepSpawn) (h : OwnershipConsistent s) (hmask : OwnershipMaskConsistent o) :
    OwnershipConsistent
      { ParkUpdateFencesAroundTile loc
          (({ s with PeepSpawns := spawns } : GameState).modifySurfaceAt loc
            (fun e => e.SetOwnership o)) with MapLandRightsUpdateSuccess := true } := by
  have h1 : OwnershipConsistent ({ s with PeepSpawns := spawns } : GameState) := h
  have h2 := OwnershipConsistent_modify _ loc (fun _ => o) h1 (fun _ _ => hmask)
  exact OwnershipConsistent_of_view _ _ (ParkUpdateFencesAroundTile_frame _ _).2 h2

/-- The per-tile step keeps consistency for the settings UnownLand and UnownConstructionRights, for `SetOwnershipWithChecks` with a consistent mask, and for an out-of-range setting. -/
theorem MapBuyLandRightsForTile_consistent (a : LandSetRightsAction) (loc : CoordsXY) (b : Bool)
    (s : GameState)
    (ha : a.setting = LandSetRightSetting.UnownLand ∨
      a.setting = LandSetRightSetting.UnownConstructionRights ∨
      (a.setting = LandSetRightSetting.SetOwnershipWithChecks ∧
        OwnershipMaskConsistent a.ownership) ∨
      5 ≤ a.setting)
    (h : OwnershipConsistent s) :
    OwnershipConsistent (MapBuyLandRightsForTile a loc b s).2 := by
  cases b with
  | false => rw [MapBuyLandRightsForTile_query_state]; exact h
  | true =>
    obtain ⟨r, st, o⟩ := a
    unfold MapBuyLandRightsForTile
    cases MapGetSurfaceElementAt s loc with
    | none => exact h
    | some e =>
      match st, ha with
      | 0, _ =>
        exact OwnershipConsistent_of_view _ _ (ParkUpdateFencesAroundTile_frame _ _).2
          (OwnershipConsistent_modify s loc _ h (fun e _ => maskConsistent_unown_land _))
      | 1, _ =>
        exact OwnershipConsistent_modify s loc _ h (fun e he => maskConsistent_unown_rights _ he)
      | 2, ha => simp [LandSetRightSetting.UnownLand, LandSetRightSetting.UnownConstructionRights,
          LandSetRightSetting.SetOwnershipWithChecks] at ha
      | 3, ha => simp [LandSetRightSetting.UnownLand, LandSetRightSetting.UnownConstructionRights,
          LandSetRightSetting.SetOwnershipWithChecks] at ha
      | 4, ha =>
        have hmask : OwnershipMaskConsistent o := by
          simpa [LandSetRightSetting.UnownLand, LandSetRightSetting.UnownConstructionRights,
            LandSetRightSetting.SetOwnershipWithChecks] using ha
        simp only [if_true]
        by_cases h1 : o = e.GetOwnership
        · rw [if_pos h1]; exact h
        · rw [if_neg h1]
          by_cases h2 : entranceLoopReturns o e (entranceElements (s.elementsAt loc)) = true
          · rw [if_pos h2]; exact h
          · rw [if_neg h2]
            by_cases h3 : o ≠ OWNERSHIP_UNOWNED
            · rw [if_pos h3]
              exact OwnershipConsistent_set_checked s loc o _ h hmask
            · rw [if_neg h3]
              exact OwnershipConsistent_set_checked s loc o s.PeepSpawns h hmask
      | n + 5, _ => exact h

/-- The per-tile state steps keep consistency, for the same settings. -/
theorem foldl_tileStepState_consistent (a : LandSetRightsAction) (b : Bool)
    (ha : a.setting = LandSetRightSetting.UnownLand ∨
      a.setting = LandSetRightSetting.UnownConstructionRights ∨
      (a.setting = LandSetRightSetting.SetOwnershipWithChecks ∧
        OwnershipMaskConsistent a.ownership) ∨
      5 ≤ a.setting) :
    ∀ (locs : List CoordsXY) (s : GameState), OwnershipConsistent s →
      OwnershipConsistent (locs.foldl (fun st loc => tileStepState a b loc st) s) := by
  intro locs
  induction locs with
  | nil => intro s h; exact h
  | cons loc tl ih =>
    intro s h
    rw [List.foldl_cons]
    apply ih
    unfold tileStepState
    split_ifs
    · exact MapBuyLandRightsForTile_consistent a loc b s ha h
    · exact h

/-- The ownership masks of `sampleState` are consistent. -/
theorem sampleState_consistent : OwnershipConsistent sampleState := by
  intro tx ty e h
  simp only [sampleState, sampleTiles] at h
  split_ifs at h <;>
    simp only [firstSurface, sampleSurface, sampleParkEntrance, Option.some.injEq] at h
  all_goals first
    | (subst h; unfold OwnershipMaskConsistent; decide)
    | exact absurd h (by simp)

/-- A rating within 0..999 is stored unchanged in the `uint16_t`. -/
theorem rating_stored (v : Int) (h0 : 0 ≤ v) (h1 : v ≤ 999) : (v % 65536).toNat ≤ 999 := by
  omega

/-- With a forced rating of at most 999 (negative for none) the rating is within 0..999. -/
theorem CalculateParkRating_le (s : GameState) (h : s.ForcedParkRating ≤ 999) :
    0 ≤ CalculateParkRating s ∧ CalculateParkRating s ≤ 999 := by
  unfold CalculateParkRating
  by_cases hf : s.ForcedParkRating ≥ 0
  · rw [if_pos hf]
    exact ⟨hf, h⟩
  · rw [if_neg hf]
    exact clamp_bounds _


/-! ## Error results, histories and fences -/

/-- C11, as the code has it: every result of the two actions that is not Ok
has its error message set.  The only such result of `QueryExecute` (of Query
with `isExecuting` false, of Execute with true) is NotInEditorMode, with the
title `STR_NONE` and the message `STR_LAND_NOT_FOR_SALE`; the per-tile step
and Query and Execute of the park parameter action return InvalidParameters
with the title `STR_ERR_INVALID_PARAMETER` and a message. -/
theorem C11_error_results_have_message (a : LandSetRightsAction) (p : ParkSetParameterAction)
    (s : GameState) (loc : CoordsXY) (isExecuting : Bool) :
    ((a.QueryExecute isExecuting s).1.Error ≠ GameActions.Status.Ok →
      (a.QueryExecute isExecuting s).1.Error = GameActions.Status.NotInEditorMode ∧
      (a.QueryExecute isExecuting s).1.ErrorTitle = StringId.STR_NONE ∧
      (a.QueryExecute isExecuting s).1.ErrorMessage = StringId.STR_LAND_NOT_FOR_SALE) ∧
    ((MapBuyLandRightsForTile a loc isExecuting s).1.Error ≠ GameActions.Status.Ok →
      (MapBuyLandRightsForTile a loc isExecuting s).1.Error =
        GameActions.Status.InvalidParameters ∧
      (MapBuyLandRightsForTile a loc isExecuting s).1.ErrorTitle =
        StringId.STR_ERR_INVALID_PARAMETER ∧
      ((MapBuyLandRightsForTile a loc isExecuting s).1.ErrorMessage =
          StringId.STR_ERR_SURFACE_ELEMENT_NOT_FOUND ∨
        (MapBuyLandRightsForTile a loc isExecuting s).1.ErrorMessage =
          StringId.STR_ERR_VALUE_OUT_OF_RANGE)) ∧
    ((p.Query s).1.Error ≠ GameActions.Status.Ok →
      (p.Query s).1.Error = GameActions.Status.InvalidParameters ∧
      (p.Query s).1.ErrorTitle = StringId.STR_ERR_INVALID_PARAMETER ∧
      (p.Query s).1.ErrorMessage = StringId.STR_ERR_VALUE_OUT_OF_RANGE) ∧
    ((p.Execute s).1.Error ≠ GameActions.Status.Ok →
      (p.Execute s).1.Error = GameActions.Status.InvalidParameters ∧
      (p.Execute s).1.ErrorTitle = StringId.STR_ERR_INVALID_PARAMETER ∧
      (p.Execute s).1.ErrorMessage = StringId.STR_ERR_VALUE_OUT_OF_RANGE) := by
  refine ⟨?_, MapBuyLandRightsForTile_error_shape a loc isExecuting s,
    (ParkSetParameter_error_shape p s).1, (ParkSetParameter_error_shape p s).2⟩
  by_cases hed : s.ScreenFlagsEditor = true ∨ s.SandboxMode = true
  · rw [(QueryExecute_editor a isExecuting s hed).1]
    exact fun h => absurd rfl h
  · have h1 : s.ScreenFlagsEditor = false := by
      cases hh : s.ScreenFlagsEditor <;> simp [hh] at hed ⊢
    have h2 : s.SandboxMode = false := by
      cases hh : s.SandboxMode <;> simp [hh] at hed ⊢
    rw [QueryExecute_not_editor a isExecuting s h1 h2]
    exact fun _ => ⟨rfl, rfl, rfl⟩

/-- The statement C11 for `sampleBuyAction` on `samplePlayState`, executing,
and for the per-tile step on tile (4,1) of `sampleState`, which has no
surface. -/
theorem C11_error_results_have_message_witness :
    (sampleBuyAction.QueryExecute true samplePlayState).1.ErrorMessage =
      StringId.STR_LAND_NOT_FOR_SALE ∧
    (MapBuyLandRightsForTile sampleBuyAction { x := 128, y := 32 } true sampleState).1.ErrorTitle =
      StringId.STR_ERR_INVALID_PARAMETER :=
  ⟨((C11_error_results_have_message sampleBuyAction { parameter := 0, value := 0 }
      samplePlayState { x := 128, y := 32 } true).1 (by decide)).2.2,
    ((C11_error_results_have_message sampleBuyAction { parameter := 0, value := 0 }
      sampleState { x := 128, y := 32 } true).2.1 (by decide)).2.1⟩

/-- C11 as stated fails: outside of the editor Query and Execute of
`sampleBuyAction` return NotInEditorMode with the error title `STR_NONE`. -/
theorem C11_counterexample_not_in_editor_title_none :
    (sampleBuyAction.Query samplePlayState).1.Error = GameActions.Status.NotInEditorMode ∧
    (sampleBuyAction.Query samplePlayState).1.ErrorTitle = StringId.STR_NONE ∧
    (sampleBuyAction.Execute samplePlayState).1.Error = GameActions.Status.NotInEditorMode ∧
    (sampleBuyAction.Execute samplePlayState).1.ErrorTitle = StringId.STR_NONE := by
  decide

/-- C12: for every capacity N >= 1 and every buffer of N entries,
`HistoryPushRecord` puts the new item at index 0 and moves the previous entry
i-1 to index i (1 <= i < N), so that the previous last entry is dropped and
the length stays N; after pushing N+1 records `rs` in their order the buffer
holds the N most recent ones, most recent first: it is the reversed list cut
to N, with record number N - j (counted from 0) at index j. -/
theorem C12_history_push_keeps_most_recent {T : Type} (N : Nat) (hN : 1 ≤ N) (history : List T) (hlen : history.length = N)
    (newItem : T) :
    (HistoryPushRecord N history newItem).length = N ∧
    (HistoryPushRecord N history newItem)[0]? = some newItem ∧
    (∀ i, 1 ≤ i → i < N → (HistoryPushRecord N history newItem)[i]? = history[i - 1]?) ∧
    (∀ rs : List T, rs.length = N + 1 →
      rs.foldl (HistoryPushRecord N) history = rs.reverse.take N ∧
      (rs.foldl (HistoryPushRecord N) history).length = N ∧
      ∀ j, j < N → (rs.foldl (HistoryPushRecord N) history)[j]? = rs[N - j]?) := by
  rw [HistoryPushRecord_eq N hN history hlen newItem]
  refine ⟨?_, ?_, ?_, ?_⟩
  · rw [List.length_take, List.length_cons]; omega
  · rw [List.getElem?_take, if_pos (by omega), List.getElem?_cons_zero]
  · intro i h1 h2
    rw [List.getElem?_take, if_pos h2]
    obtain ⟨k, rfl⟩ : ∃ k, i = k + 1 := ⟨i - 1, by omega⟩
    rw [List.getElem?_cons_succ, Nat.add_sub_cancel]
  · intro rs hrs
    have h := foldl_HistoryPushRecord N hN rs history hlen
    have h2 : (rs.reverse ++ history).take N = rs.reverse.take N := by
      rw [List.take_append_eq_append_take, List.length_reverse, hrs]
      simp
    rw [h, h2]
    refine ⟨rfl, ?_, ?_⟩
    · rw [List.length_take, List.length_reverse]; omega
    · intro j hj
      rw [List.getElem?_take, if_pos hj, List.getElem?_reverse (by omega), hrs]
      congr 1

/-- The statement C12 for a buffer of four entries and five records. -/
theorem C12_history_push_keeps_most_recent_witness :
    HistoryPushRecord 4 [1, 2, 3, 4] 9 = [9, 1, 2, 3] ∧
    [5, 6, 7, 8, 9].foldl (HistoryPushRecord 4) [1, 2, 3, 4] = [9, 8, 7, 6] :=
  ⟨by decide,
    ((@C12_history_push_keeps_most_recent Nat 4 (by decide) [1, 2, 3, 4] rfl 9).2.2.2
      [5, 6, 7, 8, 9] rfl).1.trans (by decide)⟩

/-- C13: for every state and every location, applying `ParkUpdateFences` to
the location and its four neighbours in any order gives the state that
`ParkUpdateFencesAroundTile` gives with its own order (centre, +x, -x, +y,
-y); so every tile has the same fence mask. -/
theorem C13_fence_update_order_independent (s : GameState) (coords : CoordsXY) (order : List CoordsXY)
    (h : order.Perm (fenceLocations coords)) :
    order.foldl (fun st c => ParkUpdateFences c st) s = ParkUpdateFencesAroundTile coords s := by
  have hfold : ParkUpdateFencesAroundTile coords s =
      (fenceLocations coords).foldl (fun st c => ParkUpdateFences c st) s := rfl
  rw [hfold]
  apply List.Perm.foldl_eq' h
  intro x hx y hy z
  exact ParkUpdateFences_comm_of_mem coords x y z (h.subset hx) (h.subset hy)

/-- The statement C13 around tile (2,2) of `sampleState`, in the reverse
order. -/
theorem C13_fence_update_order_independent_witness :
    (fenceLocations { x := 64, y := 64 }).reverse.foldl (fun st c => ParkUpdateFences c st)
      sampleState = ParkUpdateFencesAroundTile { x := 64, y := 64 } sampleState :=
  C13_fence_update_order_independent sampleState { x := 64, y := 64 } _ (List.reverse_perm _)

/-! ## Park rating, probability and company value -/

/-- C14, as the code has it: with no forced rating, 0 guests in the park, no
guest entities, no rides, no litter, casualty penalty 0 and the difficult
rating flag unset, `CalculateParkRating` returns exactly 0: the terms are
1150 - 150 - 500 - 200 - 100 - 200 - 0. -/
theorem C14_empty_park_rating_is_zero (s : GameState) (hforced : s.ForcedParkRating < 0)
    (hguests : s.NumGuestsInPark = 0) (hentities : s.Guests = []) (hrides : s.Rides = [])
    (hlitter : s.LitterList = []) (hpenalty : s.ParkRatingCasualtyPenalty = 0)
    (hflag : s.ParkFlags &&& PARK_FLAGS_DIFFICULT_PARK_RATING = 0) :
    CalculateParkRating s = 0 := by
  unfold CalculateParkRating ratingGuests ratingRides ratingLitter
  rw [if_neg (by omega)]
  simp only [hguests, hentities, hrides, hlitter, hpenalty, hflag]
  decide

/-- The statement C14 on `sampleState`. -/
theorem C14_empty_park_rating_is_zero_witness : CalculateParkRating sampleState = 0 :=
  C14_empty_park_rating_is_zero sampleState (by decide) rfl rfl rfl rfl rfl (by decide)

/-- C14 as stated fails: `sampleState` has no forced rating, no guests, rides
or litter, no casualty penalty and no flag, and its rating is 0, not 500. -/
theorem C14_counterexample_rating_not_500 :
    sampleState.ForcedParkRating < 0 ∧ sampleState.NumGuestsInPark = 0 ∧
    sampleState.Guests = [] ∧ sampleState.Rides = [] ∧ sampleState.LitterList = [] ∧
    sampleState.ParkRatingCasualtyPenalty = 0 ∧
    sampleState.ParkFlags &&& PARK_FLAGS_DIFFICULT_PARK_RATING = 0 ∧
    CalculateParkRating sampleState = 0 ∧ ¬ (CalculateParkRating sampleState = 500) := by
  decide

/-- C15, as the code has it: for two game states that differ only in the
stored park rating, r1 <= r2, and have at most 70 positive awards,
`CalculateGuestGenerationProbability` on the first is at most its value on the
second, for every guest count, suggested maximum, entrance fee and ride
value. -/
theorem C15_probability_monotone_in_rating (s : GameState) (r1 r2 : Nat) (h : r1 ≤ r2) (hawards : positiveAwards s.Awards ≤ 70) :
    CalculateGuestGenerationProbability { s with ParkRating := r1 } ≤
      CalculateGuestGenerationProbability { s with ParkRating := r2 } := by
  obtain ⟨d, hd, hshape⟩ := probabilityBeforeAwards_shape s
  unfold CalculateGuestGenerationProbability
  rw [hshape r1, hshape r2]
  have hm := base_mono r1 r2 h
  have hb1 := base_bounds r1
  have hb2 := base_bounds r2
  have h700 : awardBound 0 = 700 := rfl
  apply awardLoop_mono _ _ _ 0
  · rcases hd with rfl | rfl | rfl | rfl | rfl | rfl <;> omega
  · rcases hd with rfl | rfl | rfl | rfl | rfl | rfl <;> omega
  · rcases hd with rfl | rfl | rfl | rfl | rfl | rfl <;> omega
  · simpa using hawards

/-- The statement C15 on `sampleState` with the ratings 300 and 600. -/
theorem C15_probability_monotone_in_rating_witness :
    CalculateGuestGenerationProbability { sampleState with ParkRating := 300 } ≤
      CalculateGuestGenerationProbability { sampleState with ParkRating := 600 } :=
  C15_probability_monotone_in_rating sampleState 300 600 (by decide) (by decide)

set_option maxRecDepth 100000 in
/-- C15 as stated fails: with 71 positive awards the 32-bit probability of the
rating 718 overflows and that of the rating 717 does not; the state with the
lower rating has the higher probability. -/
theorem C15_counterexample_overflow_with_71_awards :
    (sampleManyAwardsState 717).ParkRating ≤ (sampleManyAwardsState 718).ParkRating ∧
    CalculateGuestGenerationProbability (sampleManyAwardsState 717) = 4293619641 ∧
    CalculateGuestGenerationProbability (sampleManyAwardsState 718) = 8204689 ∧
    ¬ (CalculateGuestGenerationProbability (sampleManyAwardsState 717) ≤
      CalculateGuestGenerationProbability (sampleManyAwardsState 718)) := by
  decide

/-- C16, as the code has it: for two game states that differ only in guest
counts, one with the guest total at most 7000 and the other above 7000, both
on the same side of the suggested-guest-maximum test, the probability before
the loop over the awards on the second is the one on the first divided by 4
(integer division); with an empty award list so is the value
`CalculateGuestGenerationProbability` returns. -/
theorem C16_probability_quartered_above_7000 (s : GameState) (guests heading : Nat)
    (hle : numGuests s ≤ 7000)
    (hgt : numGuests { s with NumGuestsInPark := guests, NumGuestsHeadingForPark := heading } > 7000)
    (hside : numGuests s > (s.SuggestedGuestMaximum : Int) ↔
      numGuests { s with NumGuestsInPark := guests, NumGuestsHeadingForPark := heading } >
        (s.SuggestedGuestMaximum : Int)) :
    probabilityBeforeAwards { s with NumGuestsInPark := guests, NumGuestsHeadingForPark := heading } =
      probabilityBeforeAwards s / 4 ∧
    (s.Awards = [] →
      CalculateGuestGenerationProbability
          { s with NumGuestsInPark := guests, NumGuestsHeadingForPark := heading } =
        CalculateGuestGenerationProbability s / 4) := by
  have hmain : probabilityBeforeAwards
      { s with NumGuestsInPark := guests, NumGuestsHeadingForPark := heading } =
      probabilityBeforeAwards s / 4 := by
    unfold numGuests at hle hgt hside
    simp only at hgt hside
    unfold probabilityBeforeAwards
    have hfee : ParkGetEntranceFee
        { s with NumGuestsInPark := guests, NumGuestsHeadingForPark := heading } =
        ParkGetEntranceFee s := rfl
    simp only [hfee]
    rw [if_pos hgt, if_neg (by omega : ¬ wrapUInt32 ((s.NumGuestsInPark : Int) +
      (s.NumGuestsHeadingForPark : Int)) > 7000)]
    by_cases h1 : wrapUInt32 ((s.NumGuestsInPark : Int) + (s.NumGuestsHeadingForPark : Int)) >
        (s.SuggestedGuestMaximum : Int)
    · rw [if_pos h1, if_pos (hside.mp h1)]
      split_ifs <;> rfl
    · rw [if_neg h1, if_neg (fun hh => h1 (hside.mpr hh))]
      split_ifs <;> rfl
  refine ⟨hmain, ?_⟩
  intro hawards
  unfold CalculateGuestGenerationProbability
  simp only [hawards, List.foldl_nil]
  exact hmain

/-- The statement C16 on `sampleOneAwardState 0` against 7001 guests. -/
theorem C16_probability_quartered_above_7000_witness :
    probabilityBeforeAwards
        { sampleOneAwardState 0 with NumGuestsInPark := 7001, NumGuestsHeadingForPark := 0 } =
      probabilityBeforeAwards (sampleOneAwardState 0) / 4 :=
  (C16_probability_quartered_above_7000 (sampleOneAwardState 0) 7001 0 (by decide) (by decide)
    (by decide)).1

/-- C16 as stated fails: with the rating 205, one positive award and a
suggested maximum of 8000, the probability is 68 with no guests and 16 with
7001 guests, and 68 / 4 is 17. -/
theorem C16_counterexample_one_positive_award :
    numGuests (sampleOneAwardState 0) ≤ 7000 ∧
    numGuests (sampleOneAwardState 7001) > 7000 ∧
    ¬ (numGuests (sampleOneAwardState 0) > ((sampleOneAwardState 0).SuggestedGuestMaximum : Int)) ∧
    ¬ (numGuests (sampleOneAwardState 7001) >
      ((sampleOneAwardState 7001).SuggestedGuestMaximum : Int)) ∧
    CalculateGuestGenerationProbability (sampleOneAwardState 0) = 68 ∧
    CalculateGuestGenerationProbability (sampleOneAwardState 7001) = 16 ∧
    ¬ (CalculateGuestGenerationProbability (sampleOneAwardState 7001) =
      CalculateGuestGenerationProbability (sampleOneAwardState 0) / 4) := by
  decide

/-- C17 fails on the code: with the greatest park value, a bank loan of -1 and
no cash, the unclamped subtraction park value - bank loan leaves the 64-bit
range, and `CalculateCompanyValue` returns the least `money64`, while the exact
value park value - bank loan + cash, clamped, is the greatest `money64`. -/
theorem C17_company_value_wraps_in_subtraction :
    sampleOverflowState.ParkValue = INT64_MAX ∧ sampleOverflowState.BankLoan = -1 ∧
    sampleOverflowState.Cash = 0 ∧
    CalculateCompanyValue sampleOverflowState = INT64_MIN ∧
    clamp (sampleOverflowState.ParkValue - sampleOverflowState.BankLoan + sampleOverflowState.Cash)
      INT64_MIN INT64_MAX = INT64_MAX := by
  decide

/-! ## Park flags, ownership bits and the stored rating -/

/-- C19, as the code has it: Execute of a land rights action keeps the
ownership bits of all tiles consistent when the setting is UnownLand or
UnownConstructionRights, when it is SetOwnershipWithChecks with a mask that
is itself consistent, and when it is out of range; for every range. -/
theorem C19_consistency_kept_by_unown_and_checked (a : LandSetRightsAction) (s : GameState)
    (ha : a.setting = LandSetRightSetting.UnownLand ∨
      a.setting = LandSetRightSetting.UnownConstructionRights ∨
      (a.setting = LandSetRightSetting.SetOwnershipWithChecks ∧
        OwnershipMaskConsistent a.ownership) ∨
      5 ≤ a.setting)
    (h : OwnershipConsistent s) : OwnershipConsistent (a.Execute s).2 := by
  unfold LandSetRightsAction.Execute
  by_cases hed : s.ScreenFlagsEditor = true ∨ s.SandboxMode = true
  · rw [(QueryExecute_editor a true s hed).2]
    exact foldl_tileStepState_consistent a true ha _ s h
  · have h1 : s.ScreenFlagsEditor = false := by
      cases hh : s.ScreenFlagsEditor <;> simp [hh] at hed ⊢
    have h2 : s.SandboxMode = false := by
      cases hh : s.SandboxMode <;> simp [hh] at hed ⊢
    rw [QueryExecute_not_editor a true s h1 h2]
    exact h

/-- The statement C19 for `sampleBuyAction` on `sampleState`. -/
theorem C19_consistency_kept_by_unown_and_checked_witness :
    OwnershipConsistent (sampleBuyAction.Execute sampleState).2 :=
  C19_consistency_kept_by_unown_and_checked sampleBuyAction sampleState
    (Or.inr (Or.inr (Or.inl ⟨rfl, by unfold OwnershipMaskConsistent; decide⟩)))
    sampleState_consistent

/-- C19 as stated fails: `sampleState` is consistent; after SetForSale on the
owned tile (2,2) that tile has the owned and the available bit, and after
SetOwnershipWithChecks with the mask of both bits so has tile (1,1). -/
theorem C19_counterexample_set_for_sale_on_owned_tile :
    OwnershipConsistent sampleState ∧
    ¬ OwnershipConsistent (sampleForSaleAction.Execute sampleState).2 ∧
    ¬ OwnershipConsistent (sampleBothBitsAction.Execute sampleState).2 := by
  refine ⟨sampleState_consistent, ?_, ?_⟩
  · intro h
    have h1 := h 2 2 { Ownership := 160, ParkFences := 0, BaseHeight := 14 } (by decide)
    revert h1
    unfold OwnershipMaskConsistent
    decide
  · intro h
    have h1 := h 1 1 { Ownership := 160, ParkFences := 0, BaseHeight := 14 } (by decide)
    revert h1
    unfold OwnershipMaskConsistent
    decide

/-- C20, as the code has it: the stored park rating is 0 after
`Park::Initialise` (for callees that do not write it), and it is at most 999
after the 512-tick recomputation when the forced rating in effect is at most
999 (negative for none), and after `ParkSetForcedRating(r)` for every r that
is at most 999. -/
theorem C20_stored_rating_within_bounds (s : GameState) :
    (∀ FinanceInit FinanceResetHistory AwardReset : GameState → GameState,
      (∀ st, (FinanceInit st).ParkRating = st.ParkRating) →
      (∀ st, (FinanceResetHistory st).ParkRating = st.ParkRating) →
      (∀ st, (AwardReset st).ParkRating = st.ParkRating) →
      (Park.Initialise FinanceInit FinanceResetHistory AwardReset s).ParkRating = 0) ∧
    (s.ForcedParkRating ≤ 999 → s.CurrentTicks % 512 = 0 →
      (Park.UpdateEvery512Ticks s).ParkRating ≤ 999) ∧
    (∀ r : Int, r ≤ 999 → (ParkSetForcedRating r s).ParkRating ≤ 999) := by
  refine ⟨?_, ?_, ?_⟩
  · intro f1 f2 f3 h1 h2 h3
    unfold Park.Initialise Park.ResetHistories
    simp only [h3, h2, h1]
  · intro h ht
    unfold Park.UpdateEvery512Ticks
    simp only [ht, if_true]
    exact rating_stored _ (CalculateParkRating_le s h).1 (CalculateParkRating_le s h).2
  · intro r hr
    unfold ParkSetForcedRating
    simp only
    exact rating_stored _ (CalculateParkRating_le _ hr).1 (CalculateParkRating_le _ hr).2

/-- The statement C20 on `sampleState`: initialising with callees that change
nothing, the recomputation, and forcing the rating 640. -/
theorem C20_stored_rating_within_bounds_witness :
    (Park.Initialise id id id sampleState).ParkRating = 0 ∧
    (Park.UpdateEvery512Ticks sampleState).ParkRating ≤ 999 ∧
    (ParkSetForcedRating 640 sampleState).ParkRating ≤ 999 :=
  ⟨(C20_stored_rating_within_bounds sampleState).1 id id id (fun _ => rfl) (fun _ => rfl)
      (fun _ => rfl),
    (C20_stored_rating_within_bounds sampleState).2.1 (by decide) (by decide),
    (C20_stored_rating_within_bounds sampleState).2.2 640 (by decide)⟩

/-- C20 as stated fails: `ParkSetForcedRating(5000)` stores the rating 5000,
and so does the 512-tick recomputation while that rating is forced. -/
theorem C20_counterexample_forced_rating_5000 :
    (ParkSetForcedRating 5000 sampleState).ParkRating = 5000 ∧
    (Park.UpdateEvery512Ticks { sampleState with ForcedParkRating := 5000 }).ParkRating = 5000 ∧
    ¬ ((ParkSetForcedRating 5000 sampleState).ParkRating ≤ 999) := by
  decide


/-! ## Lemmas for fences, per-tile settings, park value and happiness -/

/-- A sequence with a surface element is not empty. -/
theorem firstSurface_ne_nil (l : List TileElement) (e : SurfaceElement)
    (h : firstSurface l = some e) : l.isEmpty = false := by
  cases l with
  | nil => simp [firstSurface] at h
  | cons hd tl => rfl

/-- On a tile with a surface element that is not on the map edge
`ParkUpdateFences` arrives at its last statement: with 0 when the tile is
owned or carries a park entrance that is not a ghost, else with the four
directional bits. -/
theorem fenceTarget_of_surface (s : GameState) (c : CoordsXY) (e : SurfaceElement)
    (hE : MapIsEdge s c = false) (hS : MapGetSurfaceElementAt s c = some e) :
    fenceTarget s c =
      some (if e.GetOwnership &&& OWNERSHIP_OWNED ≠ 0 ∨ hasNonGhostParkEntrance s c = true then 0
        else neighbourFences s c) := by
  have hne : (s.elementsAt c).isEmpty = false := firstSurface_ne_nil _ e hS
  unfold fenceTarget hasNonGhostParkEntrance
  rw [if_neg (by simp [hE]), hS]
  simp only [hne]
  by_cases ho : e.GetOwnership &&& OWNERSHIP_OWNED = 0
  · rw [if_pos ho]
    cases hany : (s.elementsAt c).any isNonGhostParkEntrance <;> simp [ho]
  · rw [if_neg ho, if_pos (Or.inl ho)]

/-- The four directional bits: the mask is below 16 and bit 3, 2, 1, 0 is the
first, second, third, fourth truth value. -/
theorem fence_bits (b1 b2 b3 b4 : Bool) :
    ((if b1 = true then 8 else 0) ||| (if b2 = true then 4 else 0) |||
        (if b3 = true then 2 else 0) ||| (if b4 = true then 1 else 0) : Nat) < 16 ∧
    Nat.testBit ((if b1 = true then 8 else 0) ||| (if b2 = true then 4 else 0) |||
        (if b3 = true then 2 else 0) ||| (if b4 = true then 1 else 0)) 3 = b1 ∧
    Nat.testBit ((if b1 = true then 8 else 0) ||| (if b2 = true then 4 else 0) |||
        (if b3 = true then 2 else 0) ||| (if b4 = true then 1 else 0)) 2 = b2 ∧
    Nat.testBit ((if b1 = true then 8 else 0) ||| (if b2 = true then 4 else 0) |||
        (if b3 = true then 2 else 0) ||| (if b4 = true then 1 else 0)) 1 = b3 ∧
    Nat.testBit ((if b1 = true then 8 else 0) ||| (if b2 = true then 4 else 0) |||
        (if b3 = true then 2 else 0) ||| (if b4 = true then 1 else 0)) 0 = b4 := by
  cases b1 <;> cases b2 <;> cases b3 <;> cases b4 <;> decide

/-- The surface element of a tile after a write to it. -/
theorem MapGetSurfaceElementAt_modifySurfaceAt (s : GameState) (c : CoordsXY)
    (f : SurfaceElement → SurfaceElement) :
    MapGetSurfaceElementAt (s.modifySurfaceAt c f) c = (MapGetSurfaceElementAt s c).map f := by
  unfold MapGetSurfaceElementAt GameState.elementsAt GameState.modifySurfaceAt
  simp only [and_self, if_true]
  exact firstSurface_modifyFirstSurface f _

/-- The fence updates keep the ownership mask of every tile. -/
theorem ownership_ParkUpdateFencesAroundTile (c p : CoordsXY) (s : GameState) :
    (MapGetSurfaceElementAt (ParkUpdateFencesAroundTile c s) p).map SurfaceElement.GetOwnership =
      (MapGetSurfaceElementAt s p).map SurfaceElement.GetOwnership := by
  have h := (ParkUpdateFencesAroundTile_frame c s).2 p.ToTileCoords.x p.ToTileCoords.y
  unfold rightsView at h
  have h1 := congrArg Prod.fst h
  simp only at h1
  have h2 := congrArg (Option.map (fun v : Nat × Nat => v.1 &&& 240)) h1
  simp only [Option.map_map] at h2
  unfold MapGetSurfaceElementAt GameState.elementsAt
  exact h2

/-- The per-tile step of `SetOwnershipWithChecks` when the mask differs and
the entrance loop runs to its end. -/
theorem MapBuyLandRightsForTile_checked (a : LandSetRightsAction) (loc : CoordsXY)
    (s : GameState) (e : SurfaceElement) (b : Bool)
    (hs : MapGetSurfaceElementAt s loc = some e)
    (hset : a.setting = LandSetRightSetting.SetOwnershipWithChecks)
    (hne : a.ownership ≠ e.GetOwnership)
    (hloop : entranceLoopReturns a.ownership e (entranceElements (s.elementsAt loc)) = false) :
    MapBuyLandRightsForTile a loc b s =
      ({ GameActions.Result.ok with Cost := s.LandPrice },
        if b = true then
          { ParkUpdateFencesAroundTile loc
              ((if a.ownership ≠ OWNERSHIP_UNOWNED then
                  { s with PeepSpawns := erasePeepSpawnsAt loc s.PeepSpawns }
                else s).modifySurfaceAt loc (fun x => x.SetOwnership a.ownership)) with
            MapLandRightsUpdateSuccess := true }
        else s) := by
  obtain ⟨r, st, o⟩ := a
  simp only [LandSetRightSetting.SetOwnershipWithChecks] at hset
  subst hset
  simp only at hne hloop
  unfold MapBuyLandRightsForTile
  rw [hs]
  simp only [hne, hloop, if_false, Bool.false_eq_true]
  cases b <;> simp

/-- The function `ParkUpdateFences` keeps the peep spawns. -/
theorem PeepSpawns_ParkUpdateFences (c : CoordsXY) (s : GameState) :
    (ParkUpdateFences c s).PeepSpawns = s.PeepSpawns := by
  rw [ParkUpdateFences_eq]
  cases fenceTarget s c <;> rfl

/-- The function `ParkUpdateFencesAroundTile` keeps the peep spawns. -/
theorem PeepSpawns_ParkUpdateFencesAroundTile (c : CoordsXY) (s : GameState) :
    (ParkUpdateFencesAroundTile c s).PeepSpawns = s.PeepSpawns := by
  unfold ParkUpdateFencesAroundTile
  simp only [PeepSpawns_ParkUpdateFences]

/-- After the executed purchase the tile has the ownership nibble of the
requested mask. -/
theorem MapBuyLandRightsForTile_checked_ownership (a : LandSetRightsAction) (loc : CoordsXY)
    (s : GameState) (e : SurfaceElement)
    (hs : MapGetSurfaceElementAt s loc = some e)
    (hset : a.setting = LandSetRightSetting.SetOwnershipWithChecks)
    (hne : a.ownership ≠ e.GetOwnership)
    (hloop : entranceLoopReturns a.ownership e (entranceElements (s.elementsAt loc)) = false) :
    (MapGetSurfaceElementAt (MapBuyLandRightsForTile a loc true s).2 loc).map
      SurfaceElement.GetOwnership = some (a.ownership &&& 240) := by
  rw [MapBuyLandRightsForTile_checked a loc s e true hs hset hne hloop]
  simp only [if_true]
  show (MapGetSurfaceElementAt (ParkUpdateFencesAroundTile loc _) loc).map _ = _
  rw [ownership_ParkUpdateFencesAroundTile, MapGetSurfaceElementAt_modifySurfaceAt]
  have h1 : MapGetSurfaceElementAt (if a.ownership ≠ OWNERSHIP_UNOWNED then
      { s with PeepSpawns := erasePeepSpawnsAt loc s.PeepSpawns } else s) loc = some e := by
    split_ifs
    · exact hs
    · exact hs
  rw [h1]
  show some (a.ownership &&& 240 &&& 240) = _
  rw [and_nibble_twice]

/-- With a requested mask of construction rights owned or available, the
entrance loop runs to its end exactly when every park entrance of the tile
lies within the band of the surface. -/
theorem entranceLoopReturns_rights (o : Nat) (e : SurfaceElement)
    (ho : o = OWNERSHIP_CONSTRUCTION_RIGHTS_OWNED ∨ o = OWNERSHIP_CONSTRUCTION_RIGHTS_AVAILABLE) :
    ∀ l : List EntranceElement,
      entranceLoopReturns o e l = false ↔ parkEntrancesWithinBand e l := by
  intro l
  have h1 : ¬ (o = OWNERSHIP_OWNED ∨ o = OWNERSHIP_AVAILABLE) := by
    rcases ho with rfl | rfl <;> decide
  induction l with
  | nil => simp [entranceLoopReturns, parkEntrancesWithinBand]
  | cons x rest ih =>
    unfold entranceLoopReturns parkEntrancesWithinBand
    unfold parkEntrancesWithinBand at ih
    by_cases hx : x.EntranceType ≠ ENTRANCE_TYPE_PARK_ENTRANCE
    · rw [if_pos hx]
      constructor
      · intro h y hy
        rcases List.mem_cons.mp hy with rfl | hy
        · intro hh; exact absurd hh hx
        · exact ih.mp h y hy
      · intro h
        exact ih.mpr (fun y hy => h y (List.mem_cons_of_mem _ hy))
    · rw [if_neg hx, if_neg h1]
      have hx' : x.EntranceType = ENTRANCE_TYPE_PARK_ENTRANCE := by
        by_contra hh; exact hx hh
      by_cases hb : ((x.BaseHeight : Int) - 3 > (e.BaseHeight : Int) ∨ x.BaseHeight < e.BaseHeight)
      · rw [if_pos ⟨ho, hb⟩]
        constructor
        · intro h; simp at h
        · intro h
          have := h x (List.mem_cons_self _ _) hx'
          omega
      · rw [if_neg (fun hh => hb hh.2)]
        constructor
        · intro h y hy
          rcases List.mem_cons.mp hy with rfl | hy
          · intro _; omega
          · exact ih.mp h y hy
        · intro h
          exact ih.mpr (fun y hy => h y (List.mem_cons_of_mem _ hy))

/-- The corner of a tile lies on the tile. -/
theorem tileOrigin_tile (tx ty : Int) : (tileOrigin tx ty).ToTileCoords = { x := tx, y := ty } := by
  unfold tileOrigin CoordsXY.ToTileCoords COORDS_XY_STEP
  simp only [TileCoordsXY.mk.injEq]
  exact ⟨Int.mul_tdiv_cancel tx (by decide), Int.mul_tdiv_cancel ty (by decide)⟩

/-- For non-negative coordinates the truncating division is the floor. -/
theorem toTile_of_nonneg (c : CoordsXY) (hx : 0 ≤ c.x) (hy : 0 ≤ c.y) :
    c.ToTileCoords = { x := c.x / 32, y := c.y / 32 } := by
  unfold CoordsXY.ToTileCoords COORDS_XY_STEP
  rw [Int.tdiv_eq_ediv hx (by decide), Int.tdiv_eq_ediv hy (by decide)]

/-- The park test reads the fence inputs of the tile only. -/
theorem MapIsLocationInPark_inputs (s1 s2 : GameState) (p : CoordsXY)
    (h : fenceInputs (s1.elementsAt p) = fenceInputs (s2.elementsAt p)) :
    MapIsLocationInPark s1 p = MapIsLocationInPark s2 p := by
  unfold fenceInputs at h
  have h1 := congrArg Prod.fst h
  simp only at h1
  unfold MapIsLocationInPark MapGetSurfaceElementAt
  cases ha : firstSurface (s1.elementsAt p) <;> cases hb : firstSurface (s2.elementsAt p) <;>
    simp [ha, hb] at h1 ⊢
  by_cases hv : MapIsLocationValid p = true
  · simp only [hv, if_true]
    by_cases h0 : (‹SurfaceElement›).GetOwnership &&& OWNERSHIP_OWNED = 0 <;> simp_all
  · simp only [hv]
    simp

/-- The fence mask `ParkUpdateFences` arrives at reads the map size and the
fence inputs of the five tiles around the location only. -/
theorem fenceTarget_inputs (s1 s2 : GameState) (c : CoordsXY) (hm : s1.MapSize = s2.MapSize)
    (h : ∀ p ∈ fenceLocations c, fenceInputs (s1.elementsAt p) = fenceInputs (s2.elementsAt p)) :
    fenceTarget s1 c = fenceTarget s2 c := by
  have hedge : MapIsEdge s1 c = MapIsEdge s2 c := by
    unfold MapIsEdge GetMapSizeUnits
    rw [hm]
  have hn : neighbourFences s1 c = neighbourFences s2 c := by
    unfold neighbourFences
    rw [MapIsLocationInPark_inputs s1 s2 _ (h _ (by simp [fenceLocations])),
      MapIsLocationInPark_inputs s1 s2 _ (h _ (by simp [fenceLocations])),
      MapIsLocationInPark_inputs s1 s2 _ (h _ (by simp [fenceLocations])),
      MapIsLocationInPark_inputs s1 s2 _ (h _ (by simp [fenceLocations]))]
  have hc := h c (by simp [fenceLocations])
  unfold fenceInputs at hc
  simp only [Prod.mk.injEq] at hc
  obtain ⟨hA, hB, hC⟩ := hc
  unfold fenceTarget MapGetSurfaceElementAt
  rw [hedge, hB, hC, hn]
  cases h1 : firstSurface (s1.elementsAt c) <;> cases h2 : firstSurface (s2.elementsAt c) <;>
    simp [h1, h2] at hA ⊢
  by_cases h0 : (‹SurfaceElement›).GetOwnership &&& OWNERSHIP_OWNED = 0 <;> simp_all

/-- The map edge test reads the tile of a location only. -/
theorem MapIsEdge_tileOrigin (s : GameState) (c : CoordsXY) (hx : 0 ≤ c.x) (hy : 0 ≤ c.y) :
    MapIsEdge s (tileOrigin c.ToTileCoords.x c.ToTileCoords.y) = MapIsEdge s c := by
  rw [toTile_of_nonneg c hx hy]
  unfold MapIsEdge GetMapSizeUnits tileOrigin COORDS_XY_STEP
  simp only [decide_eq_decide]
  omega

/-- The elements at the corner of a tile are those of the tile. -/
theorem elementsAt_tileOrigin (s : GameState) (tx ty : Int) :
    s.elementsAt (tileOrigin tx ty) = s.Tiles tx ty := by
  unfold GameState.elementsAt
  rw [tileOrigin_tile]

/-- The park test reads the tile of a location only. -/
theorem MapIsLocationInPark_of_same_tile (s : GameState) (p q : CoordsXY)
    (hpx : 0 ≤ p.x) (hpy : 0 ≤ p.y) (hqx : 0 ≤ q.x) (hqy : 0 ≤ q.y)
    (hx : p.x / 32 = q.x / 32) (hy : p.y / 32 = q.y / 32) :
    MapIsLocationInPark s p = MapIsLocationInPark s q := by
  have ht : p.ToTileCoords = q.ToTileCoords := by
    rw [toTile_of_nonneg p hpx hpy, toTile_of_nonneg q hqx hqy, hx, hy]
  have hv : MapIsLocationValid p = MapIsLocationValid q := by
    unfold MapIsLocationValid MAXIMUM_MAP_SIZE_BIG
    congr 1 <;> (simp only [decide_eq_decide]; omega)
  unfold MapIsLocationInPark MapGetSurfaceElementAt GameState.elementsAt
  rw [hv, ht]

/-- The fence mask `ParkUpdateFences` arrives at reads the tile of the location only. -/
theorem fenceTarget_tileOrigin (s : GameState) (c : CoordsXY) (hE : MapIsEdge s c = false) :
    fenceTarget s (tileOrigin c.ToTileCoords.x c.ToTileCoords.y) = fenceTarget s c := by
  have hb : 32 ≤ c.x ∧ 32 ≤ c.y := by
    unfold MapIsEdge at hE
    simp only [decide_eq_false_iff_not] at hE
    omega
  have hE' := MapIsEdge_tileOrigin s c (by omega) (by omega)
  have hel : s.elementsAt (tileOrigin c.ToTileCoords.x c.ToTileCoords.y) = s.elementsAt c := by
    rw [elementsAt_tileOrigin]; rfl
  have hn : neighbourFences s (tileOrigin c.ToTileCoords.x c.ToTileCoords.y) =
      neighbourFences s c := by
    rw [toTile_of_nonneg c (by omega) (by omega)]
    unfold neighbourFences tileOrigin COORDS_XY_STEP
    simp only
    rw [MapIsLocationInPark_of_same_tile s { x := c.x / 32 * 32 - 32, y := c.y / 32 * 32 }
        { x := c.x - 32, y := c.y } (by simp only; omega) (by simp only; omega)
        (by simp only; omega) (by simp only; omega) (by simp only; omega) (by simp only; omega),
      MapIsLocationInPark_of_same_tile s { x := c.x / 32 * 32, y := c.y / 32 * 32 - 32 }
        { x := c.x, y := c.y - 32 } (by simp only; omega) (by simp only; omega)
        (by simp only; omega) (by simp only; omega) (by simp only; omega) (by simp only; omega),
      MapIsLocationInPark_of_same_tile s { x := c.x / 32 * 32 + 32, y := c.y / 32 * 32 }
        { x := c.x + 32, y := c.y } (by simp only; omega) (by simp only; omega)
        (by simp only; omega) (by simp only; omega) (by simp only; omega) (by simp only; omega),
      MapIsLocationInPark_of_same_tile s { x := c.x / 32 * 32, y := c.y / 32 * 32 + 32 }
        { x := c.x, y := c.y + 32 } (by simp only; omega) (by simp only; omega)
        (by simp only; omega) (by simp only; omega) (by simp only; omega) (by simp only; omega)]
  unfold fenceTarget MapGetSurfaceElementAt
  rw [hE', hel, hn]

/-- Freshness of a tile reads the map size, the fence inputs of the tile and
of its four neighbours, and the stored fence mask of the tile. -/
theorem FencesFreshAt_congr (s1 s2 : GameState) (tx ty : Int) (hm : s1.MapSize = s2.MapSize)
    (hin : ∀ p ∈ fenceLocations (tileOrigin tx ty),
      fenceInputs (s1.elementsAt p) = fenceInputs (s2.elementsAt p))
    (hst : (firstSurface (s1.Tiles tx ty)).map SurfaceElement.GetParkFences =
      (firstSurface (s2.Tiles tx ty)).map SurfaceElement.GetParkFences)
    (h : FencesFreshAt s1 tx ty) : FencesFreshAt s2 tx ty := by
  intro e2 he2 hedge2
  have hedge1 : MapIsEdge s1 (tileOrigin tx ty) = false := by
    unfold MapIsEdge GetMapSizeUnits at hedge2 ⊢
    rw [hm]; exact hedge2
  rw [he2] at hst
  cases he1 : firstSurface (s1.Tiles tx ty) with
  | none => rw [he1] at hst; simp at hst
  | some e1 =>
    rw [he1] at hst
    simp only [Option.map_some', Option.some.injEq] at hst
    rw [← fenceTarget_inputs s1 s2 _ hm hin, h e1 he1 hedge1, hst]

/-- The tiles of a state after a write to one surface element. -/
theorem modifySurfaceAt_tiles (s : GameState) (c : CoordsXY) (f : SurfaceElement → SurfaceElement)
    (tx ty : Int) :
    (s.modifySurfaceAt c f).Tiles tx ty =
      if tx = c.ToTileCoords.x ∧ ty = c.ToTileCoords.y then modifyFirstSurface f (s.Tiles tx ty)
      else s.Tiles tx ty := rfl

/-- After `ParkUpdateFences` on a location that is not on the map edge the
tile of the location stores the mask the function computes for it. -/
theorem ParkUpdateFences_fresh_self (c : CoordsXY) (s : GameState) (hx : 0 ≤ c.x) (hy : 0 ≤ c.y) :
    FencesFreshAt (ParkUpdateFences c s) c.ToTileCoords.x c.ToTileCoords.y := by
  intro e' he' hedge'
  have hsame := setFencesAt_fence_inputs (fenceTarget s c) c s
  rw [ParkUpdateFences_eq] at he' hedge' ⊢
  rw [fenceTarget_congr _ s hsame]
  have hedge : MapIsEdge s (tileOrigin c.ToTileCoords.x c.ToTileCoords.y) = false := by
    unfold MapIsEdge GetMapSizeUnits at hedge' ⊢
    rw [← hsame.1]; exact hedge'
  have hE : MapIsEdge s c = false := by
    rw [← MapIsEdge_tileOrigin s c hx hy]; exact hedge
  rw [fenceTarget_tileOrigin s c hE]
  cases ht : fenceTarget s c with
  | none =>
    rw [ht] at he'
    have he : MapGetSurfaceElementAt s c = some e' := he'
    rw [fenceTarget_of_surface s c e' hE he] at ht
    simp at ht
  | some n =>
    rw [ht] at he'
    simp only [setFencesAt, modifySurfaceAt_tiles, and_self, if_true] at he'
    rw [firstSurface_modifyFirstSurface] at he'
    cases h0 : firstSurface (s.Tiles c.ToTileCoords.x c.ToTileCoords.y) with
    | none => rw [h0] at he'; simp at he'
    | some e0 =>
      rw [h0] at he'
      simp only [Option.map_some', Option.some.injEq] at he'
      rw [← he']
      rfl

/-- The function `ParkUpdateFences` keeps the freshness of every tile. -/
theorem ParkUpdateFences_fresh_keep (c : CoordsXY) (s : GameState) (tx ty : Int)
    (h : FencesFreshAt s tx ty) : FencesFreshAt (ParkUpdateFences c s) tx ty := by
  by_cases hE : MapIsEdge s c = true
  · unfold ParkUpdateFences
    rw [if_pos hE]; exact h
  · have hE' : MapIsEdge s c = false := by simpa using hE
    have hb : 32 ≤ c.x ∧ 32 ≤ c.y := by
      unfold MapIsEdge at hE'
      simp only [decide_eq_false_iff_not] at hE'
      omega
    by_cases ht : tx = c.ToTileCoords.x ∧ ty = c.ToTileCoords.y
    · obtain ⟨rfl, rfl⟩ := ht
      exact ParkUpdateFences_fresh_self c s (by omega) (by omega)
    · have hsame := setFencesAt_fence_inputs (fenceTarget s c) c s
      intro e' he' hedge'
      rw [ParkUpdateFences_eq] at he' hedge' ⊢
      rw [fenceTarget_congr _ s hsame]
      have hedge : MapIsEdge s (tileOrigin tx ty) = false := by
        unfold MapIsEdge GetMapSizeUnits at hedge' ⊢
        rw [← hsame.1]; exact hedge'
      have he : firstSurface (s.Tiles tx ty) = some e' := by
        cases hT : fenceTarget s c with
        | none => rw [hT] at he'; exact he'
        | some n =>
          rw [hT] at he'
          simp only [setFencesAt, modifySurfaceAt_tiles, if_neg ht] at he'
          exact he'
      exact h e' he hedge

/-- A sequence of calls of `ParkUpdateFences` on locations with non-negative
coordinates leaves fresh every tile that was fresh, and the tile of every
location of the sequence. -/
theorem foldl_ParkUpdateFences_fresh : ∀ (locations : List CoordsXY) (s : GameState) (tx ty : Int),
    (∀ p ∈ locations, 0 ≤ p.x ∧ 0 ≤ p.y) →
    (FencesFreshAt s tx ty ∨
      ∃ p ∈ locations, p.ToTileCoords.x = tx ∧ p.ToTileCoords.y = ty) →
    FencesFreshAt (locations.foldl (fun st p => ParkUpdateFences p st) s) tx ty := by
  intro locations
  induction locations with
  | nil =>
    intro s tx ty _ h
    rcases h with h | ⟨p, hp, _⟩
    · exact h
    · simp at hp
  | cons q rest ih =>
    intro s tx ty hnn h
    rw [List.foldl_cons]
    apply ih _ _ _ (fun p hp => hnn p (List.mem_cons_of_mem _ hp))
    rcases h with h | ⟨p, hp, hpx, hpy⟩
    · exact Or.inl (ParkUpdateFences_fresh_keep q s tx ty h)
    · rcases List.mem_cons.mp hp with rfl | hp
      · left
        rw [← hpx, ← hpy]
        exact ParkUpdateFences_fresh_self p s (hnn p (List.mem_cons_self _ _)).1
          (hnn p (List.mem_cons_self _ _)).2
      · exact Or.inr ⟨p, hp, hpx, hpy⟩

/-- The function `ParkUpdateFencesAroundTile` is the sequence of the calls of
`ParkUpdateFences` on the five locations. -/
theorem ParkUpdateFencesAroundTile_eq_foldl (c : CoordsXY) (s : GameState) :
    ParkUpdateFencesAroundTile c s =
      (fenceLocations c).foldl (fun st p => ParkUpdateFences p st) s := rfl

/-- After `ParkUpdateFencesAroundTile` on a location with coordinates of at
least 32, every tile that was fresh is fresh, and so are the tiles of the five
locations. -/
theorem ParkUpdateFencesAroundTile_fresh (c : CoordsXY) (s : GameState) (tx ty : Int)
    (hx : 32 ≤ c.x) (hy : 32 ≤ c.y)
    (h : FencesFreshAt s tx ty ∨
      ∃ p ∈ fenceLocations c, p.ToTileCoords.x = tx ∧ p.ToTileCoords.y = ty) :
    FencesFreshAt (ParkUpdateFencesAroundTile c s) tx ty := by
  rw [ParkUpdateFencesAroundTile_eq_foldl]
  apply foldl_ParkUpdateFences_fresh _ _ _ _ _ h
  intro p hp
  simp only [fenceLocations, COORDS_XY_STEP, List.mem_cons, List.mem_singleton,
    List.not_mem_nil, or_false] at hp
  rcases hp with rfl | rfl | rfl | rfl | rfl <;> constructor <;> (try simp only) <;> omega

/-- The five locations around the corner of a tile are the corners of the
tile and of its four neighbours. -/
theorem fenceLocations_tileOrigin (tx ty : Int) :
    fenceLocations (tileOrigin tx ty) =
      [tileOrigin tx ty, tileOrigin (tx + 1) ty, tileOrigin (tx - 1) ty,
        tileOrigin tx (ty + 1), tileOrigin tx (ty - 1)] := by
  unfold fenceLocations tileOrigin COORDS_XY_STEP
  simp only [List.cons.injEq, CoordsXY.mk.injEq, and_true, true_and]
  refine ⟨?_, ?_, ?_, ?_⟩ <;> ring

/-- The tiles of the five locations around a location with coordinates of at
least 32: the tile of the location and its four neighbours. -/
theorem fenceLocations_tiles (c : CoordsXY) (hx : 32 ≤ c.x) (hy : 32 ≤ c.y) (tx ty : Int) :
    (∃ p ∈ fenceLocations c, p.ToTileCoords.x = tx ∧ p.ToTileCoords.y = ty) ↔
      ((c.x / 32 = tx ∧ c.y / 32 = ty) ∨ (c.x / 32 + 1 = tx ∧ c.y / 32 = ty) ∨
        (c.x / 32 - 1 = tx ∧ c.y / 32 = ty) ∨ (c.x / 32 = tx ∧ c.y / 32 + 1 = ty) ∨
        (c.x / 32 = tx ∧ c.y / 32 - 1 = ty)) := by
  have e1 : ∀ v : Int, 0 ≤ v → Int.tdiv v 32 = v / 32 := fun v hv => Int.tdiv_eq_ediv hv (by decide)
  simp only [fenceLocations, COORDS_XY_STEP, List.mem_cons, List.mem_singleton,
    List.not_mem_nil, or_false, exists_eq_or_imp, exists_eq_left, CoordsXY.ToTileCoords]
  rw [e1 c.x (by omega), e1 c.y (by omega), e1 (c.x + 32) (by omega), e1 (c.x - 32) (by omega),
    e1 (c.y + 32) (by omega), e1 (c.y - 32) (by omega)]
  omega

/-- A write to the surface of one tile keeps the freshness of every tile that
is neither that tile nor one of its four neighbours. -/
theorem modifySurfaceAt_fresh_far (s : GameState) (c : CoordsXY)
    (f : SurfaceElement → SurfaceElement) (tx ty : Int) (hx : 32 ≤ c.x) (hy : 32 ≤ c.y)
    (hfar : ¬ ∃ p ∈ fenceLocations c, p.ToTileCoords.x = tx ∧ p.ToTileCoords.y = ty)
    (h : FencesFreshAt s tx ty) : FencesFreshAt (s.modifySurfaceAt c f) tx ty := by
  rw [fenceLocations_tiles c hx hy] at hfar
  have hc := toTile_of_nonneg c (by omega) (by omega)
  have htile : ∀ ux uy : Int, ¬ (ux = c.x / 32 ∧ uy = c.y / 32) →
      (s.modifySurfaceAt c f).Tiles ux uy = s.Tiles ux uy := by
    intro ux uy hne
    rw [modifySurfaceAt_tiles, hc, if_neg hne]
  apply FencesFreshAt_congr s (s.modifySurfaceAt c f) tx ty rfl ?_ ?_ h
  · intro p hp
    rw [fenceLocations_tileOrigin] at hp
    simp only [List.mem_cons, List.mem_singleton, List.not_mem_nil, or_false] at hp
    rcases hp with rfl | rfl | rfl | rfl | rfl <;>
      rw [elementsAt_tileOrigin, elementsAt_tileOrigin, htile _ _ (by omega)]
  · rw [htile _ _ (by omega)]

/-- A write of an ownership mask with the same owned bit keeps the fence
inputs and the stored fence mask of the tile. -/
theorem fenceInputs_modify_ownership (g : SurfaceElement → Nat)
    (hg : ∀ e : SurfaceElement,
      (g e &&& OWNERSHIP_OWNED = 0 ↔ e.GetOwnership &&& OWNERSHIP_OWNED = 0)) :
    ∀ l : List TileElement,
      fenceInputs (modifyFirstSurface (fun e => e.SetOwnership (g e)) l) = fenceInputs l ∧
      (firstSurface (modifyFirstSurface (fun e => e.SetOwnership (g e)) l)).map
          SurfaceElement.GetParkFences = (firstSurface l).map SurfaceElement.GetParkFences := by
  intro l
  induction l with
  | nil => exact ⟨rfl, rfl⟩
  | cons hd tl ih =>
    cases hd with
    | Surface x =>
      refine ⟨?_, rfl⟩
      have key : (x.SetOwnership (g x)).GetOwnership &&& OWNERSHIP_OWNED =
          g x &&& OWNERSHIP_OWNED := by
        show g x &&& 240 &&& 240 &&& OWNERSHIP_OWNED = _
        rw [and_nibble_owned, and_nibble_owned]
      simp only [fenceInputs, modifyFirstSurface, firstSurface, Option.map_some',
        List.isEmpty_cons, List.any_cons,
        isNonGhostParkEntrance, Bool.false_or, Prod.mk.injEq, Option.some.injEq, and_true,
        decide_eq_decide, key]
      exact hg x
    | Entrance x =>
      obtain ⟨i1, i2⟩ := ih
      unfold fenceInputs at i1 ⊢
      simp only [Prod.mk.injEq] at i1
      refine ⟨?_, ?_⟩
      · simp only [modifyFirstSurface, firstSurface, List.isEmpty_cons, List.any_cons, i1.1, i1.2.2]
      · simpa only [modifyFirstSurface, firstSurface] using i2
    | Other =>
      obtain ⟨i1, i2⟩ := ih
      unfold fenceInputs at i1 ⊢
      simp only [Prod.mk.injEq] at i1
      refine ⟨?_, ?_⟩
      · simp only [modifyFirstSurface, firstSurface, List.isEmpty_cons, List.any_cons, i1.1, i1.2.2]
      · simpa only [modifyFirstSurface, firstSurface] using i2

/-- A write of an ownership mask with the same owned bit keeps the freshness
of every tile. -/
theorem modifySurfaceAt_fresh_same_owned (s : GameState) (c : CoordsXY)
    (g : SurfaceElement → Nat)
    (hg : ∀ e : SurfaceElement,
      (g e &&& OWNERSHIP_OWNED = 0 ↔ e.GetOwnership &&& OWNERSHIP_OWNED = 0))
    (tx ty : Int) (h : FencesFreshAt s tx ty) :
    FencesFreshAt (s.modifySurfaceAt c (fun e => e.SetOwnership (g e))) tx ty := by
  apply FencesFreshAt_congr s (s.modifySurfaceAt c (fun e => e.SetOwnership (g e))) tx ty rfl ?_ ?_ h
  · intro p _
    unfold GameState.elementsAt
    rw [modifySurfaceAt_tiles]
    split_ifs
    · exact ((fenceInputs_modify_ownership g hg _).1).symm
    · rfl
  · rw [modifySurfaceAt_tiles]
    split_ifs
    · exact ((fenceInputs_modify_ownership g hg _).2).symm
    · rfl

/-- Clearing the bit of the construction rights keeps the owned bit. -/
theorem and_clear_rights_owned (o : Nat) :
    (o &&& (255 ^^^ OWNERSHIP_CONSTRUCTION_RIGHTS_OWNED)) &&& OWNERSHIP_OWNED =
      o &&& OWNERSHIP_OWNED := by
  rw [Nat.and_assoc]
  rfl

/-- The per-tile step on a location with coordinates of at least 32 keeps the
freshness of every tile. -/
theorem MapBuyLandRightsForTile_fresh (a : LandSetRightsAction) (loc : CoordsXY) (b : Bool)
    (s : GameState) (tx ty : Int) (hx : 32 ≤ loc.x) (hy : 32 ≤ loc.y)
    (h : FencesFreshAt s tx ty) : FencesFreshAt (MapBuyLandRightsForTile a loc b s).2 tx ty := by
  cases b with
  | false => rw [MapBuyLandRightsForTile_query_state]; exact h
  | true =>
    have haround : ∀ (s1 : GameState) (f : SurfaceElement → SurfaceElement),
        FencesFreshAt s1 tx ty →
        FencesFreshAt (ParkUpdateFencesAroundTile loc (s1.modifySurfaceAt loc f)) tx ty := by
      intro s1 f h1
      by_cases hnear : ∃ p ∈ fenceLocations loc, p.ToTileCoords.x = tx ∧ p.ToTileCoords.y = ty
      · exact ParkUpdateFencesAroundTile_fresh loc _ tx ty hx hy (Or.inr hnear)
      · exact ParkUpdateFencesAroundTile_fresh loc _ tx ty hx hy
          (Or.inl (modifySurfaceAt_fresh_far s1 loc f tx ty hx hy hnear h1))
    obtain ⟨r, st, o⟩ := a
    unfold MapBuyLandRightsForTile
    cases hs : MapGetSurfaceElementAt s loc with
    | none => exact h
    | some e =>
      simp only
      match st with
      | 0 =>
        simp only [if_true]
        exact haround s _ h
      | 1 =>
        simp only [if_true]
        apply modifySurfaceAt_fresh_same_owned s loc
          (fun e => e.GetOwnership &&& (255 ^^^ OWNERSHIP_CONSTRUCTION_RIGHTS_OWNED)) _ tx ty h
        intro x
        rw [and_clear_rights_owned]
      | 2 =>
        simp only [if_true]
        apply modifySurfaceAt_fresh_same_owned s loc
          (fun e => e.GetOwnership ||| OWNERSHIP_AVAILABLE) _ tx ty h
        intro x
        rw [or_and_of_disjoint _ _ _ (by decide)]
      | 3 =>
        simp only [if_true]
        apply modifySurfaceAt_fresh_same_owned s loc
          (fun e => e.GetOwnership ||| OWNERSHIP_CONSTRUCTION_RIGHTS_AVAILABLE) _ tx ty h
        intro x
        rw [or_and_of_disjoint _ _ _ (by decide)]
      | 4 =>
        simp only [if_true]
        by_cases h1 : o = e.GetOwnership
        · rw [if_pos h1]; exact h
        · rw [if_neg h1]
          by_cases h2 : entranceLoopReturns o e (entranceElements (s.elementsAt loc)) = true
          · rw [if_pos h2]; exact h
          · rw [if_neg h2]
            show FencesFreshAt (ParkUpdateFencesAroundTile loc _) tx ty
            apply haround
            split_ifs
            · exact h
            · exact h
      | n + 5 => exact h

/-- The loop of `QueryExecute` over locations with coordinates of at least 32
keeps the freshness of every tile. -/
theorem tileStepState_fresh (a : LandSetRightsAction) (b : Bool) (tx ty : Int) :
    ∀ (locs : List CoordsXY) (s : GameState), (∀ loc ∈ locs, 32 ≤ loc.x ∧ 32 ≤ loc.y) →
      FencesFreshAt s tx ty →
      FencesFreshAt (locs.foldl (fun st loc => tileStepState a b loc st) s) tx ty := by
  intro locs
  induction locs with
  | nil => intro s _ h; exact h
  | cons loc rest ih =>
    intro s hb h
    rw [List.foldl_cons]
    apply ih _ (fun l hl => hb l (List.mem_cons_of_mem _ hl))
    unfold tileStepState
    split_ifs
    · exact MapBuyLandRightsForTile_fresh a loc b s tx ty (hb loc (List.mem_cons_self _ _)).1
        (hb loc (List.mem_cons_self _ _)).2 h
    · exact h

/-- The loop locations of a clamped range have coordinates of at least 32. -/
theorem loopLocations_ge (s : GameState) (r : MapRange) (loc : CoordsXY)
    (h : loc ∈ loopLocations (ClampRangeWithinMap s r)) : 32 ≤ loc.x ∧ 32 ≤ loc.y := by
  unfold loopLocations at h
  rw [List.mem_flatMap] at h
  obtain ⟨y, hy, hl⟩ := h
  rw [List.mem_map] at hl
  obtain ⟨x, hx, rfl⟩ := hl
  have h1 := mem_stepValues _ _ _ hx
  have h2 := mem_stepValues _ _ _ hy
  simp only [ClampRangeWithinMap, COORDS_XY_STEP] at h1 h2
  simp only
  omega

/-- The state after Execute: the one the per-tile steps leave, or the state
itself outside of the editor. -/
theorem Execute_state (a : LandSetRightsAction) (s : GameState) :
    (a.Execute s).2 =
      if s.ScreenFlagsEditor = true ∨ s.SandboxMode = true then
        (loopLocations (ClampRangeWithinMap s a.range.Normalise)).foldl
          (fun st loc => tileStepState a true loc st) s
      else s := by
  unfold LandSetRightsAction.Execute
  by_cases h : s.ScreenFlagsEditor = true ∨ s.SandboxMode = true
  · rw [if_pos h, (QueryExecute_editor a true s h).2]
  · have h1 : s.ScreenFlagsEditor = false := by
      cases hh : s.ScreenFlagsEditor <;> simp [hh] at h ⊢
    have h2 : s.SandboxMode = false := by
      cases hh : s.SandboxMode <;> simp [hh] at h ⊢
    rw [if_neg h, QueryExecute_not_editor a true s h1 h2]

/-- Execute keeps the freshness of every tile. -/
theorem Execute_fresh (a : LandSetRightsAction) (s : GameState) (tx ty : Int)
    (h : FencesFreshAt s tx ty) : FencesFreshAt (a.Execute s).2 tx ty := by
  rw [Execute_state]
  split_ifs
  · exact tileStepState_fresh a true tx ty _ s (fun loc hloc => loopLocations_ge s _ loc hloc) h
  · exact h

/-- In `sampleOwnedState` every tile is owned and stores the mask 0. -/
theorem sampleOwnedState_fresh : FencesFresh sampleOwnedState := by
  intro tx ty e he hedge
  have he' : e = { Ownership := OWNERSHIP_OWNED, ParkFences := 0, BaseHeight := 14 } := by
    simp only [sampleOwnedState, sampleSurface, firstSurface, Option.some.injEq] at he
    exact he.symm
  subst he'
  have hs : MapGetSurfaceElementAt sampleOwnedState (tileOrigin tx ty) =
      some { Ownership := OWNERSHIP_OWNED, ParkFences := 0, BaseHeight := 14 } := rfl
  rw [fenceTarget_of_surface _ _ _ hedge hs, if_pos (Or.inl (by decide))]
  rfl

/-- A write of an ownership mask with the same owned bit keeps the owned bit
and the stored fence mask of the tile. -/
theorem firstSurface_modify_ownership_view (g : SurfaceElement → Nat)
    (hg : ∀ e : SurfaceElement, g e &&& OWNERSHIP_OWNED = e.GetOwnership &&& OWNERSHIP_OWNED)
    (l : List TileElement) :
    (firstSurface (modifyFirstSurface (fun e => e.SetOwnership (g e)) l)).map
        (fun e => (e.GetOwnership &&& OWNERSHIP_OWNED, e.GetParkFences)) =
      (firstSurface l).map (fun e => (e.GetOwnership &&& OWNERSHIP_OWNED, e.GetParkFences)) := by
  rw [firstSurface_modifyFirstSurface, Option.map_map]
  congr 1
  funext e
  have key : (e.SetOwnership (g e)).GetOwnership &&& OWNERSHIP_OWNED =
      g e &&& OWNERSHIP_OWNED := by
    show g e &&& 240 &&& 240 &&& OWNERSHIP_OWNED = _
    rw [and_nibble_owned, and_nibble_owned]
  have kf : (e.SetOwnership (g e)).GetParkFences = e.GetParkFences := rfl
  simp only [Function.comp, Prod.mk.injEq, key, kf, and_true]
  exact hg e

/-- A value that is the floor of a coordinate to a multiple of 32 is a
multiple of 32. -/
theorem Floor2_mod (value c : Int) (h : Floor2 value = c) : c % 32 = 0 := by
  unfold Floor2 at h
  omega

/-- A write that stores what the first surface element holds keeps the
sequence. -/
theorem modifyFirstSurface_id (f : SurfaceElement → SurfaceElement) :
    ∀ (l : List TileElement) (e : SurfaceElement), firstSurface l = some e → f e = e →
      modifyFirstSurface f l = l := by
  intro l
  induction l with
  | nil => intro e h; simp [firstSurface] at h
  | cons hd tl ih =>
    intro e h hf
    cases hd with
    | Surface x =>
      simp only [firstSurface, Option.some.injEq] at h
      subst h
      simp only [modifyFirstSurface, hf]
    | Entrance x =>
      simp only [firstSurface] at h
      simp only [modifyFirstSurface, ih e h hf]
    | Other =>
      simp only [firstSurface] at h
      simp only [modifyFirstSurface, ih e h hf]

/-- A write that stores what the surface element holds keeps the state. -/
theorem modifySurfaceAt_id (s : GameState) (c : CoordsXY) (f : SurfaceElement → SurfaceElement)
    (e : SurfaceElement) (h : MapGetSurfaceElementAt s c = some e) (hf : f e = e) :
    s.modifySurfaceAt c f = s := by
  have : (fun tx ty => if tx = c.ToTileCoords.x ∧ ty = c.ToTileCoords.y then
      modifyFirstSurface f (s.Tiles tx ty) else s.Tiles tx ty) = s.Tiles := by
    funext tx ty
    split_ifs with hh
    · obtain ⟨rfl, rfl⟩ := hh
      exact modifyFirstSurface_id f _ e h hf
    · rfl
  unfold GameState.modifySurfaceAt
  rw [this]

/-- On a location whose tile is fresh `ParkUpdateFences` keeps the state. -/
theorem ParkUpdateFences_of_fresh (p : CoordsXY) (s : GameState) (hx : 0 ≤ p.x) (hy : 0 ≤ p.y)
    (h : FencesFreshAt s p.ToTileCoords.x p.ToTileCoords.y) : ParkUpdateFences p s = s := by
  rw [ParkUpdateFences_eq]
  cases ht : fenceTarget s p with
  | none => rfl
  | some n =>
    have hE : MapIsEdge s p = false := by
      cases hE : MapIsEdge s p
      · rfl
      · unfold fenceTarget at ht
        rw [if_pos hE] at ht
        simp at ht
    cases hs : MapGetSurfaceElementAt s p with
    | none =>
      unfold fenceTarget at ht
      rw [hs] at ht
      simp at ht
    | some e =>
      have hfresh := h e hs (by rw [MapIsEdge_tileOrigin s p hx hy]; exact hE)
      rw [fenceTarget_tileOrigin s p hE, ht] at hfresh
      simp only [Option.some.injEq] at hfresh
      show s.modifySurfaceAt p (fun x => x.SetParkFences n) = s
      apply modifySurfaceAt_id s p _ e hs
      rw [hfresh]
      rfl

/-- The function `ParkUpdateFencesAroundTile` keeps map size and editor flags. -/
theorem ParkUpdateFencesAroundTile_fields (c : CoordsXY) (s : GameState) :
    (ParkUpdateFencesAroundTile c s).MapSize = s.MapSize ∧
    (ParkUpdateFencesAroundTile c s).ScreenFlagsEditor = s.ScreenFlagsEditor ∧
    (ParkUpdateFencesAroundTile c s).SandboxMode = s.SandboxMode := by
  have h1 : ∀ (p : CoordsXY) (st : GameState),
      (ParkUpdateFences p st).MapSize = st.MapSize ∧
      (ParkUpdateFences p st).ScreenFlagsEditor = st.ScreenFlagsEditor ∧
      (ParkUpdateFences p st).SandboxMode = st.SandboxMode := by
    intro p st
    rw [ParkUpdateFences_eq]
    cases fenceTarget st p <;> exact ⟨rfl, rfl, rfl⟩
  unfold ParkUpdateFencesAroundTile
  simp only [h1, and_self]

/-- Integers that are congruent modulo 2^64 have the same `money64` value. -/
theorem wrapInt64_idem_mod (x y : Int) (h : x % 18446744073709551616 = y % 18446744073709551616) :
    wrapInt64 x = wrapInt64 y := by
  unfold wrapInt64
  omega

/-- The `money64` value of an integer is congruent to it modulo 2^64. -/
theorem wrapInt64_mod (x : Int) : wrapInt64 x % 18446744073709551616 = x % 18446744073709551616 := by
  unfold wrapInt64
  omega

/-- The value `CalculateRideValue` returns is congruent modulo 2^64 to the
exact product of a ride with a defined value, and to 0 otherwise. -/
theorem CalculateRideValue_mod (ride : Ride) :
    CalculateRideValue ride % 18446744073709551616 =
      (if ride.value ≠ RIDE_VALUE_UNDEFINED then rideValueProduct ride else 0) %
        18446744073709551616 := by
  unfold CalculateRideValue rideValueProduct
  by_cases h : ride.value ≠ RIDE_VALUE_UNDEFINED
  · rw [if_pos h, if_pos h, wrapInt64_mod, Int.mul_emod, wrapInt64_mod, wrapInt64_mod,
      Int.add_emod, wrapInt64_mod, ← Int.add_emod, ← Int.mul_emod]
    congr 2
    ring
  · rw [if_neg h, if_neg h]

/-- The loop of `CalculateParkValue` is congruent modulo 2^64 to the exact sum. -/
theorem foldl_rideValue_mod : ∀ (rides : List Ride) (init : Int),
    (rides.foldl (fun result ride => wrapInt64 (result + CalculateRideValue ride)) init) %
        18446744073709551616 =
      (init + definedRidesValue rides) % 18446744073709551616 := by
  intro rides
  induction rides with
  | nil => intro init; simp [definedRidesValue]
  | cons r rest ih =>
    intro init
    rw [List.foldl_cons, ih]
    have h1 := CalculateRideValue_mod r
    have h2 := wrapInt64_mod (init + CalculateRideValue r)
    unfold definedRidesValue at *
    by_cases h : r.value ≠ RIDE_VALUE_UNDEFINED
    · rw [if_pos h] at h1
      rw [List.filter_cons_of_pos (by simpa using h), List.map_cons, List.sum_cons]
      omega
    · rw [if_neg h] at h1
      rw [List.filter_cons_of_neg (by simpa using h)]
      omega

/-- The park value is the `money64` value of the exact sum. -/
theorem CalculateParkValue_eq (s : GameState) :
    CalculateParkValue s =
      wrapInt64 (definedRidesValue s.Rides + 70 * (s.NumGuestsInPark : Int)) := by
  unfold CalculateParkValue
  simp only
  apply wrapInt64_idem_mod
  have h1 := foldl_rideValue_mod s.Rides 0
  have h2 := wrapInt64_mod ((s.NumGuestsInPark : Int) * GBP 7 0)
  have h3 : GBP 7 0 = 70 := by decide
  rw [h3] at h2 ⊢
  omega

/-- The loop body of `CalculateSuggestedMaxGuests` in terms of the two ride
tests. -/
theorem suggestedMaxGuestsLoopBody_eq (d : Bool) (acc : Int × Int) (ride : Ride) :
    suggestedMaxGuestsLoopBody d acc ride =
      if rideIsRunning ride then
        (wrapUInt32 (acc.1 + (ride.BonusValue : Int)),
          if d && rideGivesDifficultBonus ride then wrapUInt32 (acc.2 + (ride.BonusValue : Int) * 2)
          else acc.2)
      else acc := by
  unfold suggestedMaxGuestsLoopBody rideIsRunning rideGivesDifficultBonus
  cases hs : decide (ride.status = RideStatus.Open) <;> cases hb : ride.BrokenDown <;>
    cases hc : ride.Crashed <;> cases d <;> cases ht : ride.Tested <;>
    cases hk : ride.HasTrack <;> cases hl : ride.HasDataLogging <;>
    simp_all
  split_ifs <;> simp_all <;> omega

/-- The two sums of the loop of `CalculateSuggestedMaxGuests` stay 32-bit
unsigned values. -/
theorem foldl_suggestedMaxGuests_range (d : Bool) : ∀ (rides : List Ride) (acc : Int × Int),
    0 ≤ acc.1 → acc.1 < 4294967296 → 0 ≤ acc.2 → acc.2 < 4294967296 →
    (0 ≤ (rides.foldl (suggestedMaxGuestsLoopBody d) acc).1 ∧
      (rides.foldl (suggestedMaxGuestsLoopBody d) acc).1 < 4294967296) ∧
    (0 ≤ (rides.foldl (suggestedMaxGuestsLoopBody d) acc).2 ∧
      (rides.foldl (suggestedMaxGuestsLoopBody d) acc).2 < 4294967296) := by
  intro rides
  induction rides with
  | nil => intro acc h1 h2 h3 h4; exact ⟨⟨h1, h2⟩, h3, h4⟩
  | cons r rest ih =>
    intro acc h1 h2 h3 h4
    rw [List.foldl_cons]
    have hb : (0 ≤ (suggestedMaxGuestsLoopBody d acc r).1 ∧
        (suggestedMaxGuestsLoopBody d acc r).1 < 4294967296) ∧
        (0 ≤ (suggestedMaxGuestsLoopBody d acc r).2 ∧
        (suggestedMaxGuestsLoopBody d acc r).2 < 4294967296) := by
      rw [suggestedMaxGuestsLoopBody_eq]
      unfold wrapUInt32
      split_ifs <;> refine ⟨⟨?_, ?_⟩, ?_, ?_⟩ <;> omega
    exact ih _ hb.1.1 hb.1.2 hb.2.1 hb.2.2

/-- The two sums of the loop of `CalculateSuggestedMaxGuests` are congruent
modulo 2^32 to the exact sums. -/
theorem foldl_suggestedMaxGuests (d : Bool) : ∀ (rides : List Ride) (acc : Int × Int),
    (rides.foldl (suggestedMaxGuestsLoopBody d) acc).1 % 4294967296 =
        (acc.1 + bonusSum rides) % 4294967296 ∧
    (d = true → (rides.foldl (suggestedMaxGuestsLoopBody d) acc).2 % 4294967296 =
        (acc.2 + difficultBonusSum rides) % 4294967296) := by
  intro rides
  induction rides with
  | nil => intro acc; simp [bonusSum, difficultBonusSum]
  | cons r rest ih =>
    intro acc
    have hw : ∀ x : Int, wrapUInt32 x % 4294967296 = x % 4294967296 := by
      intro x; unfold wrapUInt32; omega
    rw [List.foldl_cons, suggestedMaxGuestsLoopBody_eq]
    unfold bonusSum difficultBonusSum at *
    by_cases hr : rideIsRunning r = true
    · rw [if_pos hr, List.filter_cons_of_pos hr, List.map_cons, List.sum_cons]
      by_cases hg : rideGivesDifficultBonus r = true
      · rw [List.filter_cons_of_pos hg, List.map_cons, List.sum_cons]
        obtain ⟨i1, i2⟩ := ih (wrapUInt32 (acc.1 + (r.BonusValue : Int)),
          if (d && rideGivesDifficultBonus r) = true then wrapUInt32 (acc.2 + (r.BonusValue : Int) * 2)
          else acc.2)
        dsimp only at i1 i2
        have e1 := hw (acc.1 + (r.BonusValue : Int))
        have e2 := hw (acc.2 + (r.BonusValue : Int) * 2)
        refine ⟨by omega, ?_⟩
        intro hd; subst hd
        have := i2 rfl
        simp only [hg, Bool.and_self, if_true] at this ⊢
        omega
      · rw [List.filter_cons_of_neg hg]
        obtain ⟨i1, i2⟩ := ih (wrapUInt32 (acc.1 + (r.BonusValue : Int)),
          if (d && rideGivesDifficultBonus r) = true then wrapUInt32 (acc.2 + (r.BonusValue : Int) * 2)
          else acc.2)
        dsimp only at i1 i2
        have e1 := hw (acc.1 + (r.BonusValue : Int))
        refine ⟨by omega, ?_⟩
        intro hd; subst hd
        have := i2 rfl
        simp only [hg, Bool.and_false, Bool.false_eq_true, if_false] at this ⊢
        exact this
    · rw [if_neg hr, List.filter_cons_of_neg hr]
      exact ih acc

/-- The two exact sums are not negative. -/
theorem bonusSum_nonneg (rides : List Ride) : 0 ≤ bonusSum rides ∧ 0 ≤ difficultBonusSum rides := by
  unfold bonusSum difficultBonusSum
  constructor
  · apply List.sum_nonneg
    intro x hx
    simp only [List.mem_map] at hx
    obtain ⟨r, _, rfl⟩ := hx
    omega
  · apply List.sum_nonneg
    intro x hx
    simp only [List.mem_map] at hx
    obtain ⟨r, _, rfl⟩ := hx
    omega

/-- The probability before the awards is the entrance fee step on the
probability before the entrance fee. -/
theorem probabilityBeforeAwards_eq (s : GameState) :
    probabilityBeforeAwards s =
      if ParkGetEntranceFee s > s.TotalRideValueForMoney then
        if Int.tdiv (ParkGetEntranceFee s) 2 > s.TotalRideValueForMoney then
          probabilityBeforeEntranceFee s / 4 / 4
        else probabilityBeforeEntranceFee s / 4
      else probabilityBeforeEntranceFee s := rfl

/-- The guest change modifier by the thresholds -20 and 20. -/
theorem guestChangeModifier_eq (s : GameState) :
    guestChangeModifier s =
      if changeInGuestsInPark s ≤ -20 then 1 else if changeInGuestsInPark s < 20 then 0 else 2 := by
  unfold guestChangeModifier changeInGuestsInPark
  simp only
  split_ifs <;> first | rfl | omega

/-- The 32-bit difference of the guest counts is the exact one when that
lies in the 32-bit signed range. -/
theorem changeInGuestsInPark_exact (s : GameState)
    (h : -2147483648 ≤ (s.NumGuestsInPark : Int) - (s.NumGuestsInParkLastWeek : Int) ∧
      (s.NumGuestsInPark : Int) - (s.NumGuestsInParkLastWeek : Int) < 2147483648) :
    changeInGuestsInPark s = (s.NumGuestsInPark : Int) - (s.NumGuestsInParkLastWeek : Int) := by
  unfold changeInGuestsInPark wrapInt32
  omega

set_option maxRecDepth 1000000 in
/-- For every clamped percentage from 15 to 98 the loop returns 4 x (9 + n)
at the least n from 1 to 54 that passes the test. -/
theorem happinessLoop_table : ∀ c : Nat, c < 99 → 15 ≤ c →
    ∃ n : Nat, n < 55 ∧ 1 ≤ n ∧ (c : Int) ≤ ((314159 * (9 + (n : Int))) / 100000) / 2 ∧
      (∀ m : Nat, m < n → 1 ≤ m → ¬ (c : Int) ≤ ((314159 * (9 + (m : Int))) / 100000) / 2) ∧
      happinessLoop (c : Int) 54 1 = some (4 * (9 + (n : Int))) := by
  decide

set_option maxRecDepth 1000000 in
/-- The value of the loop does not fall from one clamped percentage to the
next. -/
theorem happinessLoop_step : ∀ c : Nat, c < 98 → 15 ≤ c →
    (happinessLoop (c : Int) 54 1).getD 40 ≤ (happinessLoop ((c + 1 : Nat) : Int) 54 1).getD 40 := by
  decide

/-- The value of the loop does not fall when the clamped percentage rises. -/
theorem happinessLoop_mono (c1 c2 : Nat) (h1 : 15 ≤ c1) (h : c1 ≤ c2) (h2 : c2 ≤ 98) :
    (happinessLoop (c1 : Int) 54 1).getD 40 ≤ (happinessLoop (c2 : Int) 54 1).getD 40 := by
  induction c2, h using Nat.le_induction with
  | base => exact le_refl _
  | succ k hk ih =>
    exact le_trans (ih (by omega)) (happinessLoop_step k (by omega) (by omega))

/-- The clamped percentage is a number from 15 to 98, 15 for a percentage of
at most 15, and not falling in the percentage. -/
theorem clamp_percentage (p : Nat) :
    ∃ c : Nat, 15 ≤ c ∧ c ≤ 98 ∧ clamp (p : Int) 15 98 = (c : Int) ∧
      clamp (p : Int) 15 98 % 256 = (c : Int) ∧ (p ≤ 15 → c = 15) ∧
      c = min (max p 15) 98 := by
  refine ⟨min (max p 15) 98, by omega, by omega, ?_, ?_, by omega, rfl⟩
  · unfold clamp; split_ifs <;> omega
  · unfold clamp; split_ifs <;> omega

/-- The function `CalculateGuestInitialHappiness` by the loop on the clamped
percentage. -/
theorem CalculateGuestInitialHappiness_eq (p c : Nat) (h : clamp (p : Int) 15 98 % 256 = (c : Int)) :
    CalculateGuestInitialHappiness p = (happinessLoop (c : Int) 54 1).getD 40 := by
  unfold CalculateGuestInitialHappiness
  simp only [h]
  cases happinessLoop (c : Int) 54 1 <;> rfl


/-! ## Fences after a land rights action -/


/-- C21: if before a LandSetRights Execute every tile that has a surface
element and is not on the map edge stores the fence mask `ParkUpdateFences`
computes for it from the ownership masks and the entrances, then the same
holds after the Execute, for every setting, range and ownership mask, and a
call of `ParkUpdateFences` on any location with non-negative coordinates then
changes nothing.  The executed per-tile steps of `UnownLand` and of a purchase
with `SetOwnershipWithChecks` recompute the fences of the tile and of its four
neighbours, whatever the fences were before; the three other settings keep the
owned bit, the one ownership bit the fences read, and the stored fences. -/
theorem C21_fences_stay_fresh (a : LandSetRightsAction) (s : GameState) (h : FencesFresh s) :
    FencesFresh (a.Execute s).2 ∧
    (∀ p : CoordsXY, 0 ≤ p.x → 0 ≤ p.y →
      ParkUpdateFences p (a.Execute s).2 = (a.Execute s).2) ∧
    (∀ (loc : CoordsXY) (e : SurfaceElement), 32 ≤ loc.x → 32 ≤ loc.y →
      MapGetSurfaceElementAt s loc = some e →
      (a.setting = LandSetRightSetting.UnownLand ∨
        (a.setting = LandSetRightSetting.SetOwnershipWithChecks ∧ a.ownership ≠ e.GetOwnership ∧
          entranceLoopReturns a.ownership e (entranceElements (s.elementsAt loc)) = false)) →
      (MapBuyLandRightsForTile a loc true s).2.MapSize = s.MapSize ∧
      ∀ p ∈ fenceLocations loc,
        FencesFreshAt (MapBuyLandRightsForTile a loc true s).2 p.ToTileCoords.x p.ToTileCoords.y) ∧
    (a.setting = LandSetRightSetting.UnownConstructionRights ∨
        a.setting = LandSetRightSetting.SetForSale ∨
        a.setting = LandSetRightSetting.SetConstructionRightsForSale →
      ∀ (loc : CoordsXY) (tx ty : Int),
        (firstSurface ((MapBuyLandRightsForTile a loc true s).2.Tiles tx ty)).map
            (fun e => (e.GetOwnership &&& OWNERSHIP_OWNED, e.GetParkFences)) =
          (firstSurface (s.Tiles tx ty)).map
            (fun e => (e.GetOwnership &&& OWNERSHIP_OWNED, e.GetParkFences))) := by
  refine ⟨fun tx ty => Execute_fresh a s tx ty (h tx ty), ?_, ?_, ?_⟩
  · intro p hx hy
    exact ParkUpdateFences_of_fresh p _ hx hy (Execute_fresh a s _ _ (h _ _))
  · intro loc e hx hy hs hset
    have hkey : ∀ s1 : GameState, s1.MapSize = s.MapSize →
        (ParkUpdateFencesAroundTile loc s1).MapSize = s.MapSize ∧
        ∀ p ∈ fenceLocations loc,
          FencesFreshAt (ParkUpdateFencesAroundTile loc s1) p.ToTileCoords.x p.ToTileCoords.y := by
      intro s1 hm
      refine ⟨by rw [(ParkUpdateFencesAroundTile_fields loc s1).1, hm], ?_⟩
      intro p hp
      exact ParkUpdateFencesAroundTile_fresh loc s1 _ _ hx hy (Or.inr ⟨p, hp, rfl, rfl⟩)
    rcases hset with hset | ⟨hset, hne, hloop⟩
    · obtain ⟨r, st, o⟩ := a
      simp only [LandSetRightSetting.UnownLand] at hset
      subst hset
      unfold MapBuyLandRightsForTile
      rw [hs]
      simp only [if_true]
      exact hkey _ rfl
    · rw [MapBuyLandRightsForTile_checked a loc s e true hs hset hne hloop]
      simp only [if_true]
      have := hkey ((if a.ownership ≠ OWNERSHIP_UNOWNED then
          { s with PeepSpawns := erasePeepSpawnsAt loc s.PeepSpawns }
        else s).modifySurfaceAt loc (fun x => x.SetOwnership a.ownership))
        (by split_ifs <;> rfl)
      exact this
  · intro hset loc tx ty
    obtain ⟨r, st, o⟩ := a
    simp only [LandSetRightSetting.UnownConstructionRights, LandSetRightSetting.SetForSale,
      LandSetRightSetting.SetConstructionRightsForSale] at hset
    unfold MapBuyLandRightsForTile
    cases hs : MapGetSurfaceElementAt s loc with
    | none => rfl
    | some e =>
      rcases hset with rfl | rfl | rfl
      · simp only [if_true, modifySurfaceAt_tiles]
        split_ifs
        · exact firstSurface_modify_ownership_view _ (fun x => and_clear_rights_owned _) _
        · rfl
      · simp only [if_true, modifySurfaceAt_tiles]
        split_ifs
        · exact firstSurface_modify_ownership_view _
            (fun x => or_and_of_disjoint _ _ _ (by decide)) _
        · rfl
      · simp only [if_true, modifySurfaceAt_tiles]
        split_ifs
        · exact firstSurface_modify_ownership_view _
            (fun x => or_and_of_disjoint _ _ _ (by decide)) _
        · rfl

/-- The statement C21 for `sampleUnownAction` on `sampleOwnedState`: the
fences are fresh before and after the tile (2,2) is unowned. -/
theorem C21_fences_stay_fresh_witness :
    FencesFresh sampleOwnedState ∧ FencesFresh (sampleUnownAction.Execute sampleOwnedState).2 :=
  ⟨sampleOwnedState_fresh,
    (C21_fences_stay_fresh sampleUnownAction sampleOwnedState sampleOwnedState_fresh).1⟩

/-- C22: on a tile that has a surface element and is not on the map edge,
`ParkUpdateFences` stores a fence mask n below 16: 0 when the tile has the
owned bit or carries a park entrance that is not a ghost, and otherwise the
mask whose bit 3 is set iff the tile at x-32 is in the park, bit 2 iff the
tile at y-32 is, bit 1 iff the tile at x+32 is, bit 0 iff the tile at y+32
is; nothing else of the state changes.  On a map-edge location or a tile
without a surface element the state is unchanged. -/
theorem C22_fence_mask_of_tile (s : GameState) (c : CoordsXY) :
    (∀ e : SurfaceElement, MapIsEdge s c = false → MapGetSurfaceElementAt s c = some e →
      ∃ n : Nat,
        ParkUpdateFences c s = s.modifySurfaceAt c (fun x => x.SetParkFences n) ∧
        MapGetSurfaceElementAt (ParkUpdateFences c s) c = some (e.SetParkFences n) ∧
        n < 16 ∧
        (e.GetOwnership &&& OWNERSHIP_OWNED ≠ 0 ∨ hasNonGhostParkEntrance s c = true → n = 0) ∧
        (¬ (e.GetOwnership &&& OWNERSHIP_OWNED ≠ 0 ∨ hasNonGhostParkEntrance s c = true) →
          n.testBit 3 = MapIsLocationInPark s { x := c.x - 32, y := c.y } ∧
          n.testBit 2 = MapIsLocationInPark s { x := c.x, y := c.y - 32 } ∧
          n.testBit 1 = MapIsLocationInPark s { x := c.x + 32, y := c.y } ∧
          n.testBit 0 = MapIsLocationInPark s { x := c.x, y := c.y + 32 })) ∧
    (MapIsEdge s c = true ∨ MapGetSurfaceElementAt s c = none → ParkUpdateFences c s = s) := by
  constructor
  · intro e hE hS
    have ht := fenceTarget_of_surface s c e hE hS
    have hbits := fence_bits (MapIsLocationInPark s { x := c.x - COORDS_XY_STEP, y := c.y })
      (MapIsLocationInPark s { x := c.x, y := c.y - COORDS_XY_STEP })
      (MapIsLocationInPark s { x := c.x + COORDS_XY_STEP, y := c.y })
      (MapIsLocationInPark s { x := c.x, y := c.y + COORDS_XY_STEP })
    refine ⟨(if e.GetOwnership &&& OWNERSHIP_OWNED ≠ 0 ∨ hasNonGhostParkEntrance s c = true then 0
      else neighbourFences s c), ?_, ?_, ?_, ?_, ?_⟩
    · rw [ParkUpdateFences_eq, ht]; rfl
    · rw [ParkUpdateFences_eq, ht]
      show MapGetSurfaceElementAt (s.modifySurfaceAt c _) c = _
      rw [MapGetSurfaceElementAt_modifySurfaceAt, hS]; rfl
    · split_ifs
      · decide
      · exact hbits.1
    · intro h; rw [if_pos h]
    · intro h; rw [if_neg h]
      exact hbits.2
  · intro h
    rw [ParkUpdateFences_eq]
    have : fenceTarget s c = none := by
      unfold fenceTarget
      rcases h with h | h
      · rw [if_pos h]
      · rw [h]; simp
    rw [this]; rfl

/-! ## Park value, suggested guest maximum and entrance fee -/


/-- C23, as the code has it: for every ride list and guest count,
`CalculateParkValue` is the `money64` value of the sum, over the rides whose
value is defined (not `RIDE_VALUE_UNDEFINED`), of value x 10 x (customers in
the last 5 minutes + 4 x bonus value), plus 7.00 per guest in the park, and
it is that sum when the sum fits 64 bits; a ride whose value is undefined
contributes 0; the status of a ride is not read. -/
theorem C23_park_value_sums_defined_values (s : GameState) :
    CalculateParkValue s =
      wrapInt64 (definedRidesValue s.Rides + GBP 7 0 * (s.NumGuestsInPark : Int)) ∧
    (INT64_MIN ≤ definedRidesValue s.Rides + GBP 7 0 * (s.NumGuestsInPark : Int) ∧
      definedRidesValue s.Rides + GBP 7 0 * (s.NumGuestsInPark : Int) ≤ INT64_MAX →
      CalculateParkValue s =
        definedRidesValue s.Rides + GBP 7 0 * (s.NumGuestsInPark : Int)) ∧
    (∀ ride : Ride, ride.value = RIDE_VALUE_UNDEFINED → CalculateRideValue ride = 0) ∧
    (∀ ride : Ride, ride.value ≠ RIDE_VALUE_UNDEFINED →
      CalculateRideValue ride = wrapInt64 (rideValueProduct ride)) := by
  have h3 : GBP 7 0 = 70 := by decide
  have hmain := CalculateParkValue_eq s
  rw [h3]
  refine ⟨hmain, ?_, ?_, ?_⟩
  · intro h
    simp only [INT64_MIN, INT64_MAX] at h
    rw [hmain]
    exact wrapInt64_of_range _ (by omega) (by omega)
  · intro ride h
    unfold CalculateRideValue
    rw [if_neg (by simpa using h)]
  · intro ride h
    unfold CalculateRideValue rideValueProduct
    rw [if_pos h]
    apply wrapInt64_idem_mod
    rw [Int.mul_emod, wrapInt64_mod, wrapInt64_mod, Int.add_emod, wrapInt64_mod, ← Int.add_emod,
      ← Int.mul_emod]
    congr 2
    ring

/-- C23 as stated fails: the one ride of `sampleClosedRideState` is closed,
has the value 10 and one customer; the sum over the open rides plus 7.00 per
guest is 0, and `CalculateParkValue` returns 100. -/
theorem C23_counterexample_closed_ride_counts :
    sampleClosedRide.status ≠ RideStatus.Open ∧
    openRidesValue sampleClosedRideState.Rides +
      GBP 7 0 * (sampleClosedRideState.NumGuestsInPark : Int) = 0 ∧
    CalculateParkValue sampleClosedRideState = 100 ∧
    ¬ (CalculateParkValue sampleClosedRideState =
      openRidesValue sampleClosedRideState.Rides +
        GBP 7 0 * (sampleClosedRideState.NumGuestsInPark : Int)) := by
  decide

/-- C24: with S the sum of the bonus values over the rides that are open,
not broken down and not crashed, and B the sum of twice the bonus value over
those of them that are tested, have track, have data logging, a station
segment length of at least 600<<16 and an excitement of at least 6.00, both
as the `uint32_t` sums of the code, `CalculateSuggestedMaxGuests` returns
min(S, 65535) without the difficult-guest-generation flag and
min(min(S, 1000) + B, 65535) with it; with S below 2^32 and B + 1000 below
2^32 these are the exact sums; the result is never above 65535. -/
theorem C24_suggested_max_guests (s : GameState) :
    (s.ParkFlags &&& PARK_FLAGS_DIFFICULT_GUEST_GENERATION = 0 →
      CalculateSuggestedMaxGuests s = min (wrapUInt32 (bonusSum s.Rides)) 65535) ∧
    (s.ParkFlags &&& PARK_FLAGS_DIFFICULT_GUEST_GENERATION ≠ 0 →
      CalculateSuggestedMaxGuests s =
        min (wrapUInt32 (min (wrapUInt32 (bonusSum s.Rides)) 1000 +
          wrapUInt32 (difficultBonusSum s.Rides))) 65535) ∧
    (bonusSum s.Rides < 4294967296 → difficultBonusSum s.Rides + 1000 < 4294967296 →
      (s.ParkFlags &&& PARK_FLAGS_DIFFICULT_GUEST_GENERATION = 0 →
        CalculateSuggestedMaxGuests s = min (bonusSum s.Rides) 65535) ∧
      (s.ParkFlags &&& PARK_FLAGS_DIFFICULT_GUEST_GENERATION ≠ 0 →
        CalculateSuggestedMaxGuests s =
          min (min (bonusSum s.Rides) 1000 + difficultBonusSum s.Rides) 65535)) ∧
    0 ≤ CalculateSuggestedMaxGuests s ∧ CalculateSuggestedMaxGuests s ≤ 65535 := by
  have hnn := bonusSum_nonneg s.Rides
  have key : ∀ d : Bool,
      (s.Rides.foldl (suggestedMaxGuestsLoopBody d) (0, 0)).1 = wrapUInt32 (bonusSum s.Rides) ∧
      (d = true → (s.Rides.foldl (suggestedMaxGuestsLoopBody d) (0, 0)).2 =
        wrapUInt32 (difficultBonusSum s.Rides)) := by
    intro d
    obtain ⟨r1, r2⟩ := foldl_suggestedMaxGuests_range d s.Rides (0, 0) (by simp) (by simp)
      (by simp) (by simp)
    obtain ⟨m1, m2⟩ := foldl_suggestedMaxGuests d s.Rides (0, 0)
    unfold wrapUInt32
    simp only at m1 m2
    refine ⟨by omega, ?_⟩
    intro hd
    have := m2 hd
    omega
  have hA : s.ParkFlags &&& PARK_FLAGS_DIFFICULT_GUEST_GENERATION = 0 →
      CalculateSuggestedMaxGuests s = min (wrapUInt32 (bonusSum s.Rides)) 65535 := by
    intro h
    unfold CalculateSuggestedMaxGuests
    simp only [h, ne_eq, not_true_eq_false, decide_False, Bool.false_eq_true, if_false]
    rw [(key false).1]
  have hB : s.ParkFlags &&& PARK_FLAGS_DIFFICULT_GUEST_GENERATION ≠ 0 →
      CalculateSuggestedMaxGuests s =
        min (wrapUInt32 (min (wrapUInt32 (bonusSum s.Rides)) 1000 +
          wrapUInt32 (difficultBonusSum s.Rides))) 65535 := by
    intro h
    unfold CalculateSuggestedMaxGuests
    simp only [h, ne_eq, not_false_eq_true, decide_True, if_true]
    rw [(key true).1, (key true).2 rfl]
  refine ⟨hA, hB, ?_, ?_, ?_⟩
  · intro h1 h2
    constructor
    · intro h; rw [hA h]; unfold wrapUInt32; omega
    · intro h; rw [hB h]; unfold wrapUInt32; omega
  · by_cases h : s.ParkFlags &&& PARK_FLAGS_DIFFICULT_GUEST_GENERATION = 0
    · rw [hA h]; unfold wrapUInt32; omega
    · rw [hB h]; unfold wrapUInt32; omega
  · by_cases h : s.ParkFlags &&& PARK_FLAGS_DIFFICULT_GUEST_GENERATION = 0
    · rw [hA h]; omega
    · rw [hB h]; omega

/-- C25, as the code has it: in every game state in which the entrance fee
exceeds the total ride value for money, `CalculateGuestGenerationProbability`
quarters the probability once for that, and a second time if and only if the
entrance fee divided by 2 (integer division) is greater than the total ride
value for money, which for a fee that is not negative means a fee of at least
2 x total ride value for money + 2. -/
theorem C25_second_quartering_on_halved_fee (s : GameState)
    (h : ParkGetEntranceFee s > s.TotalRideValueForMoney) :
    (Int.tdiv (ParkGetEntranceFee s) 2 > s.TotalRideValueForMoney →
      CalculateGuestGenerationProbability s =
        s.Awards.foldl awardLoopBody (probabilityBeforeEntranceFee s / 4 / 4)) ∧
    (¬ Int.tdiv (ParkGetEntranceFee s) 2 > s.TotalRideValueForMoney →
      CalculateGuestGenerationProbability s =
        s.Awards.foldl awardLoopBody (probabilityBeforeEntranceFee s / 4)) ∧
    (0 ≤ ParkGetEntranceFee s →
      (Int.tdiv (ParkGetEntranceFee s) 2 > s.TotalRideValueForMoney ↔
        ParkGetEntranceFee s ≥ 2 * s.TotalRideValueForMoney + 2)) := by
  unfold CalculateGuestGenerationProbability
  rw [probabilityBeforeAwards_eq, if_pos h]
  refine ⟨?_, ?_, ?_⟩
  · intro h2; rw [if_pos h2]
  · intro h2; rw [if_neg h2]
  · intro h0
    rw [Int.tdiv_eq_ediv h0 (by decide)]
    omega

/-- The statement C25 on `sampleFeeState` with the fee 22: 22 / 2 is above 10,
the probability 50 is quartered twice to 3. -/
theorem C25_second_quartering_on_halved_fee_witness :
    CalculateGuestGenerationProbability { sampleFeeState with ParkEntranceFee := 22 } = 3 ∧
    probabilityBeforeEntranceFee { sampleFeeState with ParkEntranceFee := 22 } = 50 :=
  ⟨((C25_second_quartering_on_halved_fee { sampleFeeState with ParkEntranceFee := 22 }
      (by decide)).1 (by decide)).trans (by decide), by decide⟩

/-- C25 as stated fails: with the entrance fee 21 and the total ride value
for money 10 the fee is greater than 2 x 10, and the probability 50 is
quartered once only, to 12: 21 / 2 is 10, which is not above 10. -/
theorem C25_counterexample_fee_21_value_10 :
    ParkGetEntranceFee sampleFeeState = 21 ∧ sampleFeeState.TotalRideValueForMoney = 10 ∧
    ParkGetEntranceFee sampleFeeState > sampleFeeState.TotalRideValueForMoney ∧
    ParkGetEntranceFee sampleFeeState > 2 * sampleFeeState.TotalRideValueForMoney ∧
    probabilityBeforeEntranceFee sampleFeeState = 50 ∧
    CalculateGuestGenerationProbability sampleFeeState = 12 ∧
    ¬ (CalculateGuestGenerationProbability sampleFeeState =
      probabilityBeforeEntranceFee sampleFeeState / 4 / 4) := by
  decide

/-! ## The per-tile settings of the land rights action -/


/-- C27, as the code has it: when `SetOwnershipWithChecks` is executed on a
tile whose current mask differs from the requested mask and the entrance loop
runs to its end, the per-tile result is Ok with the land price as cost, and
the ownership mask of the tile becomes the requested mask restricted to the
ownership bits 0xF0, which is the requested mask when that has no other bit.
The peep spawns after the step are, for a requested mask other than
`OWNERSHIP_UNOWNED`, the spawns whose x and y floored to a multiple of 32 are
not both equal to the coordinates of the location of the step, in their
order: those not on the tile when the location is the corner of the tile, and
all spawns when a coordinate of the location is no multiple of 32.  For
`OWNERSHIP_UNOWNED` the spawns are as they were.  The query has the same cost
and keeps the state. -/
theorem C27_checked_purchase_effects (a : LandSetRightsAction) (loc : CoordsXY)
    (s : GameState) (e : SurfaceElement)
    (hs : MapGetSurfaceElementAt s loc = some e)
    (hset : a.setting = LandSetRightSetting.SetOwnershipWithChecks)
    (hne : a.ownership ≠ e.GetOwnership)
    (hloop : entranceLoopReturns a.ownership e (entranceElements (s.elementsAt loc)) = false) :
    (MapBuyLandRightsForTile a loc true s).1.Error = GameActions.Status.Ok ∧
    (MapBuyLandRightsForTile a loc true s).1.Cost = s.LandPrice ∧
    (MapGetSurfaceElementAt (MapBuyLandRightsForTile a loc true s).2 loc).map
      SurfaceElement.GetOwnership = some (a.ownership &&& 240) ∧
    (a.ownership &&& 240 = a.ownership →
      (MapGetSurfaceElementAt (MapBuyLandRightsForTile a loc true s).2 loc).map
        SurfaceElement.GetOwnership = some a.ownership) ∧
    (a.ownership ≠ OWNERSHIP_UNOWNED →
      (MapBuyLandRightsForTile a loc true s).2.PeepSpawns =
        s.PeepSpawns.filter
          (fun spawn => !(decide (Floor2 spawn.x = loc.x) && decide (Floor2 spawn.y = loc.y)))) ∧
    (a.ownership ≠ OWNERSHIP_UNOWNED →
      loc = tileOrigin loc.ToTileCoords.x loc.ToTileCoords.y →
      (MapBuyLandRightsForTile a loc true s).2.PeepSpawns =
        s.PeepSpawns.filter
          (fun spawn =>
            !(decide (Floor2 spawn.x = (tileOrigin loc.ToTileCoords.x loc.ToTileCoords.y).x) &&
              decide (Floor2 spawn.y = (tileOrigin loc.ToTileCoords.x loc.ToTileCoords.y).y)))) ∧
    (loc.x % 32 ≠ 0 ∨ loc.y % 32 ≠ 0 →
      (MapBuyLandRightsForTile a loc true s).2.PeepSpawns = s.PeepSpawns) ∧
    (a.ownership = OWNERSHIP_UNOWNED →
      (MapBuyLandRightsForTile a loc true s).2.PeepSpawns = s.PeepSpawns) ∧
    (∀ spawn : PeepSpawn, spawn ∈ (MapBuyLandRightsForTile a loc true s).2.PeepSpawns ↔
      spawn ∈ s.PeepSpawns ∧
        ¬ (a.ownership ≠ OWNERSHIP_UNOWNED ∧ Floor2 spawn.x = loc.x ∧ Floor2 spawn.y = loc.y)) ∧
    (MapBuyLandRightsForTile a loc true s).2.PeepSpawns.Sublist s.PeepSpawns ∧
    (MapBuyLandRightsForTile a loc false s).1.Cost = s.LandPrice ∧
    (MapBuyLandRightsForTile a loc false s).2 = s := by
  have hget := MapBuyLandRightsForTile_checked_ownership a loc s e hs hset hne hloop
  refine ⟨?_, ?_, hget, fun hnib => by rw [hnib] at hget; exact hget, ?_⟩
  · rw [MapBuyLandRightsForTile_checked a loc s e true hs hset hne hloop]
    rfl
  · rw [MapBuyLandRightsForTile_checked a loc s e true hs hset hne hloop]
  rw [MapBuyLandRightsForTile_checked a loc s e true hs hset hne hloop,
    MapBuyLandRightsForTile_checked a loc s e false hs hset hne hloop]
  simp only [if_true, Bool.false_eq_true, if_false]
  have hsp : ∀ s1 : GameState,
      ({ ParkUpdateFencesAroundTile loc
          (s1.modifySurfaceAt loc (fun x => x.SetOwnership a.ownership)) with
        MapLandRightsUpdateSuccess := true } : GameState).PeepSpawns = s1.PeepSpawns := by
    intro s1
    show (ParkUpdateFencesAroundTile loc _).PeepSpawns = _
    rw [PeepSpawns_ParkUpdateFencesAroundTile]
    rfl
  have hfinal : ({ ParkUpdateFencesAroundTile loc
          ((if a.ownership ≠ OWNERSHIP_UNOWNED then
              { s with PeepSpawns := erasePeepSpawnsAt loc s.PeepSpawns }
            else s).modifySurfaceAt loc (fun x => x.SetOwnership a.ownership)) with
        MapLandRightsUpdateSuccess := true } : GameState).PeepSpawns =
      if a.ownership ≠ OWNERSHIP_UNOWNED then
        s.PeepSpawns.filter
          (fun spawn => !(decide (Floor2 spawn.x = loc.x) && decide (Floor2 spawn.y = loc.y)))
      else s.PeepSpawns := by
    rw [hsp]
    split_ifs <;> rfl
  refine ⟨?_, ?_, ?_, ?_, ?_, ?_, trivial, trivial⟩
  · intro h; rw [hfinal, if_pos h]
  · intro h horigin
    rw [hfinal, if_pos h, ← horigin]
  · intro hmod
    rw [hfinal]
    split_ifs
    · apply List.filter_eq_self.mpr
      intro spawn _
      simp only [Bool.not_eq_true', Bool.and_eq_false_imp, decide_eq_true_eq,
        decide_eq_false_iff_not]
      intro hx hy
      have h1 := Floor2_mod _ _ hx
      have h2 := Floor2_mod _ _ hy
      omega
    · rfl
  · intro h; rw [hfinal, if_neg (by simpa using h)]
  · intro spawn
    rw [hfinal]
    by_cases h : a.ownership ≠ OWNERSHIP_UNOWNED
    · rw [if_pos h]
      simp only [List.mem_filter, Bool.not_eq_true', Bool.and_eq_false_imp, decide_eq_true_eq,
        decide_eq_false_iff_not]
      tauto
    · rw [if_neg h]
      tauto
  · rw [hfinal]
    split_ifs
    · exact List.filter_sublist _
    · exact List.Sublist.refl _

/-- The statement C27 for `sampleBuyAction` on the unowned tile (1,1) of
`sampleState`: the cost is 900, the mask becomes `OWNERSHIP_OWNED` and the
peep spawn at (48,48) is removed. -/
theorem C27_checked_purchase_effects_witness :
    (MapBuyLandRightsForTile sampleBuyAction { x := 32, y := 32 } true sampleState).1.Cost = 900 ∧
    (MapGetSurfaceElementAt
        (MapBuyLandRightsForTile sampleBuyAction { x := 32, y := 32 } true sampleState).2
        { x := 32, y := 32 }).map SurfaceElement.GetOwnership = some OWNERSHIP_OWNED ∧
    (MapBuyLandRightsForTile sampleBuyAction { x := 32, y := 32 } true sampleState).2.PeepSpawns =
      [] :=
  ⟨(C27_checked_purchase_effects sampleBuyAction { x := 32, y := 32 } sampleState
      { Ownership := 0, ParkFences := 0, BaseHeight := 14 } (by decide) (by decide) (by decide)
      (by decide)).2.1,
    (C27_checked_purchase_effects sampleBuyAction { x := 32, y := 32 } sampleState
      { Ownership := 0, ParkFences := 0, BaseHeight := 14 } (by decide) (by decide) (by decide)
      (by decide)).2.2.2.1 (by decide),
    ((C27_checked_purchase_effects sampleBuyAction { x := 32, y := 32 } sampleState
      { Ownership := 0, ParkFences := 0, BaseHeight := 14 } (by decide) (by decide) (by decide)
      (by decide)).2.2.2.2.1 (by decide)).trans (by decide)⟩

set_option maxRecDepth 100000 in
/-- C27, the claim as stated fails in two ways.  On the unowned tile (1,1) of
`sampleState` the step with the requested mask 33 stores the mask 32, not 33:
the ownership bits are the high nibble.  And the step of `sampleBuyAction` at
the location (40,40), which lies on the tile (1,1) with the corner (32,32),
buys the tile at the land price 900 and keeps the peep spawn at (48,48),
although the spawn floored to a multiple of 32 is at the corner of the bought
tile; the same holds for Execute of the action on that one location. -/
theorem C27_counterexample_low_bit_and_unaligned_location :
    (MapGetSurfaceElementAt sampleState { x := 32, y := 32 }).map SurfaceElement.GetOwnership =
      some OWNERSHIP_UNOWNED ∧
    sampleLowBitAction.setting = LandSetRightSetting.SetOwnershipWithChecks ∧
    sampleLowBitAction.ownership = 33 ∧
    entranceLoopReturns 33 { Ownership := 0, ParkFences := 0, BaseHeight := 14 }
      (entranceElements (sampleState.elementsAt { x := 32, y := 32 })) = false ∧
    (MapBuyLandRightsForTile sampleLowBitAction { x := 32, y := 32 } true sampleState).1.Cost =
      900 ∧
    (MapGetSurfaceElementAt
        (MapBuyLandRightsForTile sampleLowBitAction { x := 32, y := 32 } true sampleState).2
        { x := 32, y := 32 }).map SurfaceElement.GetOwnership = some 32 ∧
    (MapGetSurfaceElementAt
        (MapBuyLandRightsForTile sampleLowBitAction { x := 32, y := 32 } true sampleState).2
        { x := 32, y := 32 }).map SurfaceElement.GetOwnership ≠ some 33 ∧
    ({ x := 40, y := 40 } : CoordsXY).ToTileCoords = { x := 1, y := 1 } ∧
    tileOrigin 1 1 = { x := 32, y := 32 } ∧
    sampleState.PeepSpawns = [{ x := 48, y := 48, z := 112, direction := 0 }] ∧
    Floor2 48 = 32 ∧
    (MapGetSurfaceElementAt sampleState { x := 40, y := 40 }).map SurfaceElement.GetOwnership =
      some OWNERSHIP_UNOWNED ∧
    entranceLoopReturns OWNERSHIP_OWNED { Ownership := 0, ParkFences := 0, BaseHeight := 14 }
      (entranceElements (sampleState.elementsAt { x := 40, y := 40 })) = false ∧
    (MapBuyLandRightsForTile sampleBuyAction { x := 40, y := 40 } true sampleState).1.Cost = 900 ∧
    (MapGetSurfaceElementAt
        (MapBuyLandRightsForTile sampleBuyAction { x := 40, y := 40 } true sampleState).2
        { x := 40, y := 40 }).map SurfaceElement.GetOwnership = some OWNERSHIP_OWNED ∧
    (MapBuyLandRightsForTile sampleBuyAction { x := 40, y := 40 } true sampleState).2.PeepSpawns =
      [{ x := 48, y := 48, z := 112, direction := 0 }] ∧
    (MapGetSurfaceElementAt
        ((LandSetRightsAction.ofCoord { x := 40, y := 40 }
          LandSetRightSetting.SetOwnershipWithChecks OWNERSHIP_OWNED).Execute sampleState).2
        { x := 32, y := 32 }).map SurfaceElement.GetOwnership = some OWNERSHIP_OWNED ∧
    ((LandSetRightsAction.ofCoord { x := 40, y := 40 }
        LandSetRightSetting.SetOwnershipWithChecks OWNERSHIP_OWNED).Execute sampleState).2.PeepSpawns =
      [{ x := 48, y := 48, z := 112, direction := 0 }] := by
  decide

/-- C28: for every tile with a surface element and every requested mask
equal to `OWNERSHIP_CONSTRUCTION_RIGHTS_OWNED` or
`OWNERSHIP_CONSTRUCTION_RIGHTS_AVAILABLE` that differs from the current mask,
`SetOwnershipWithChecks` succeeds (Ok, cost equal to the land price, the
ownership mask replaced when executing, the state kept when querying) if
every park entrance on the tile has a base height h with surface base height
<= h <= surface base height + 3, and is a zero-cost step that keeps the state
otherwise; when executing, the mask is replaced if and only if every park
entrance lies in that band.  A tile without a park entrance is within the
band. -/
theorem C28_rights_purchase_iff_entrances_in_band (a : LandSetRightsAction) (loc : CoordsXY)
    (s : GameState) (e : SurfaceElement) (isExecuting : Bool)
    (hs : MapGetSurfaceElementAt s loc = some e)
    (hset : a.setting = LandSetRightSetting.SetOwnershipWithChecks)
    (hown : a.ownership = OWNERSHIP_CONSTRUCTION_RIGHTS_OWNED ∨
      a.ownership = OWNERSHIP_CONSTRUCTION_RIGHTS_AVAILABLE)
    (hne : a.ownership ≠ e.GetOwnership) :
    (parkEntrancesWithinBand e (entranceElements (s.elementsAt loc)) →
      (MapBuyLandRightsForTile a loc isExecuting s).1.Error = GameActions.Status.Ok ∧
      (MapBuyLandRightsForTile a loc isExecuting s).1.Cost = s.LandPrice ∧
      (MapGetSurfaceElementAt (MapBuyLandRightsForTile a loc true s).2 loc).map
        SurfaceElement.GetOwnership = some a.ownership ∧
      (MapBuyLandRightsForTile a loc false s).2 = s) ∧
    (¬ parkEntrancesWithinBand e (entranceElements (s.elementsAt loc)) →
      MapBuyLandRightsForTile a loc isExecuting s = (GameActions.Result.ok, s) ∧
      (MapBuyLandRightsForTile a loc isExecuting s).1.Cost = 0) ∧
    ((MapGetSurfaceElementAt (MapBuyLandRightsForTile a loc true s).2 loc).map
        SurfaceElement.GetOwnership = some a.ownership ↔
      parkEntrancesWithinBand e (entranceElements (s.elementsAt loc))) := by
  have hiff := entranceLoopReturns_rights a.ownership e hown (entranceElements (s.elementsAt loc))
  have hnib : a.ownership &&& 240 = a.ownership := by
    rcases hown with h | h <;> rw [h] <;> rfl
  have hget : entranceLoopReturns a.ownership e (entranceElements (s.elementsAt loc)) = false →
      (MapGetSurfaceElementAt (MapBuyLandRightsForTile a loc true s).2 loc).map
        SurfaceElement.GetOwnership = some a.ownership := by
    intro hl
    have h := MapBuyLandRightsForTile_checked_ownership a loc s e hs hset hne hl
    rw [hnib] at h
    exact h
  have hnoop : ¬ parkEntrancesWithinBand e (entranceElements (s.elementsAt loc)) →
      ∀ b, MapBuyLandRightsForTile a loc b s = (GameActions.Result.ok, s) := by
    intro hband b
    have hl : entranceLoopReturns a.ownership e (entranceElements (s.elementsAt loc)) = true := by
      cases h : entranceLoopReturns a.ownership e (entranceElements (s.elementsAt loc))
      · exact absurd (hiff.mp h) hband
      · rfl
    obtain ⟨r, st, o⟩ := a
    simp only [LandSetRightSetting.SetOwnershipWithChecks] at hset
    subst hset
    simp only at hne hl
    unfold MapBuyLandRightsForTile
    rw [hs]
    simp only [hne, hl, if_false, if_true]
  refine ⟨?_, ?_, ?_⟩
  · intro hband
    have hl := hiff.mpr hband
    refine ⟨?_, ?_, hget hl, ?_⟩
    · rw [MapBuyLandRightsForTile_checked a loc s e isExecuting hs hset hne hl]
      rfl
    · rw [MapBuyLandRightsForTile_checked a loc s e isExecuting hs hset hne hl]
    · rw [MapBuyLandRightsForTile_checked a loc s e false hs hset hne hl]
      rfl
  · intro hband
    rw [hnoop hband isExecuting]
    exact ⟨rfl, rfl⟩
  · constructor
    · intro h
      by_contra hband
      rw [hnoop hband true, hs] at h
      simp only [Option.map_some', Option.some.injEq] at h
      exact hne h.symm
    · intro hband
      exact hget (hiff.mpr hband)

/-- The statement C28 for `sampleRightsAction` on the tile (2,1) of
`sampleState`, whose park entrance is at the height 14 of the surface: the
purchase of the construction rights succeeds at the land price. -/
theorem C28_rights_purchase_iff_entrances_in_band_witness :
    (MapBuyLandRightsForTile sampleRightsAction { x := 64, y := 32 } true sampleState).1.Cost =
      sampleState.LandPrice ∧
    (MapGetSurfaceElementAt
        (MapBuyLandRightsForTile sampleRightsAction { x := 64, y := 32 } true sampleState).2
        { x := 64, y := 32 }).map SurfaceElement.GetOwnership =
      some OWNERSHIP_CONSTRUCTION_RIGHTS_OWNED :=
  have hband : parkEntrancesWithinBand { Ownership := 0, ParkFences := 0, BaseHeight := 14 }
      (entranceElements (sampleState.elementsAt { x := 64, y := 32 })) := by
    unfold parkEntrancesWithinBand
    decide
  ⟨((C28_rights_purchase_iff_entrances_in_band sampleRightsAction { x := 64, y := 32 } sampleState
      { Ownership := 0, ParkFences := 0, BaseHeight := 14 } true (by decide) (by decide)
      (Or.inl rfl) (by decide)).1 hband).2.1,
    ((C28_rights_purchase_iff_entrances_in_band sampleRightsAction { x := 64, y := 32 } sampleState
      { Ownership := 0, ParkFences := 0, BaseHeight := 14 } true (by decide) (by decide)
      (Or.inl rfl) (by decide)).1 hband).2.2.1⟩

/-! ## Guest change modifier and initial happiness -/


/-- C29, as the code has it: for every game state, with d the difference of
guests in park and guests in park last week, each cast to `int32_t`, which is
the difference guests in park - guests in park last week whenever that lies
in the 32-bit signed range, `UpdateHistories` sets the guest change modifier
to 1 when d <= -20, to 0 when -20 < d < 20 and to 2 when d >= 20, and sets
guests-in-park-last-week to the current guests in park. -/
theorem C29_guest_change_modifier (s : GameState) :
    (changeInGuestsInPark s ≤ -20 → (Park.UpdateHistories s).GuestChangeModifier = 1) ∧
    (-20 < changeInGuestsInPark s ∧ changeInGuestsInPark s < 20 →
      (Park.UpdateHistories s).GuestChangeModifier = 0) ∧
    (20 ≤ changeInGuestsInPark s → (Park.UpdateHistories s).GuestChangeModifier = 2) ∧
    (Park.UpdateHistories s).NumGuestsInParkLastWeek = s.NumGuestsInPark ∧
    (-2147483648 ≤ (s.NumGuestsInPark : Int) - (s.NumGuestsInParkLastWeek : Int) ∧
      (s.NumGuestsInPark : Int) - (s.NumGuestsInParkLastWeek : Int) < 2147483648 →
      changeInGuestsInPark s = (s.NumGuestsInPark : Int) - (s.NumGuestsInParkLastWeek : Int)) := by
  have hm : (Park.UpdateHistories s).GuestChangeModifier = guestChangeModifier s := by
    simp only [Park.UpdateHistories]
  have hl : (Park.UpdateHistories s).NumGuestsInParkLastWeek = s.NumGuestsInPark := by
    simp only [Park.UpdateHistories]
  rw [hm, guestChangeModifier_eq]
  refine ⟨?_, ?_, ?_, hl, changeInGuestsInPark_exact s⟩
  · intro h; rw [if_pos h]
  · intro h; rw [if_neg (by omega), if_pos h.2]
  · intro h; rw [if_neg (by omega), if_neg (by omega)]


/-- C29, the claim as stated fails: on `sampleLastWeekState`, with no guest
in the park and 4294967295 guests in the park last week, the difference
guests in park - guests in park last week is -4294967295, which is at most
-20, and `UpdateHistories` stores the modifier 0, not 1: the difference of
the two counts cast to `int32_t` is 1. -/
theorem C29_counterexample_last_week_4294967295 :
    sampleLastWeekState.NumGuestsInPark = 0 ∧
    sampleLastWeekState.NumGuestsInParkLastWeek = 4294967295 ∧
    (sampleLastWeekState.NumGuestsInPark : Int) -
      (sampleLastWeekState.NumGuestsInParkLastWeek : Int) ≤ -20 ∧
    changeInGuestsInPark sampleLastWeekState = 1 ∧
    (Park.UpdateHistories sampleLastWeekState).GuestChangeModifier = 0 ∧
    (Park.UpdateHistories sampleLastWeekState).GuestChangeModifier ≠ 1 := by
  have h : (Park.UpdateHistories sampleLastWeekState).GuestChangeModifier = 0 := by
    simp only [Park.UpdateHistories]
    decide
  refine ⟨rfl, rfl, by decide, by decide, h, ?_⟩
  rw [h]
  decide

/-- C30: for every percentage in 0..255, `CalculateGuestInitialHappiness`
returns 4 x (9 + n) for the least n in 1..54 with
floor(floor(314159 x (9 + n) / 100000) / 2) >= clamp(percentage, 15, 98); such
an n exists, so that the loop returns and the fallback after the loop is not
reached; the result lies in 40..252, is 40 for every percentage <= 15, and
does not fall when the percentage rises. -/
theorem C30_initial_happiness (p : Nat) (hp : p ≤ 255) :
    (∃ n : Nat, 1 ≤ n ∧ n ≤ 54 ∧ happinessCondition p n ∧
      (∀ m : Nat, 1 ≤ m → m < n → ¬ happinessCondition p m) ∧
      CalculateGuestInitialHappiness p = 4 * (9 + (n : Int))) ∧
    happinessLoop (clamp (p : Int) 15 98 % 256) 54 1 ≠ none ∧
    40 ≤ CalculateGuestInitialHappiness p ∧ CalculateGuestInitialHappiness p ≤ 252 ∧
    (p ≤ 15 → CalculateGuestInitialHappiness p = 40) ∧
    (∀ q : Nat, q ≤ 255 → p ≤ q →
      CalculateGuestInitialHappiness p ≤ CalculateGuestInitialHappiness q) := by
  obtain ⟨c, hc0, hc1, hc, hcm, hlow, hcdef⟩ := clamp_percentage p
  obtain ⟨n, hn, hn1, hcond, hleast, hloop⟩ := happinessLoop_table c (by omega) hc0
  have hval : CalculateGuestInitialHappiness p = 4 * (9 + (n : Int)) := by
    rw [CalculateGuestInitialHappiness_eq p c hcm, hloop]; rfl
  refine ⟨⟨n, hn1, by omega, ?_, ?_, hval⟩, ?_, ?_, ?_, ?_, ?_⟩
  · unfold happinessCondition; rw [hc]; exact hcond
  · intro m hm1 hm; unfold happinessCondition; rw [hc]; exact hleast m hm hm1
  · rw [hcm, hloop]; simp
  · rw [hval]; omega
  · rw [hval]; omega
  · intro h15
    have : c = 15 := hlow h15
    subst this
    rw [CalculateGuestInitialHappiness_eq p 15 hcm]
    decide
  · intro q _ hpq
    obtain ⟨d, hd0, hd1, _, hdm, _, hddef⟩ := clamp_percentage q
    rw [CalculateGuestInitialHappiness_eq p c hcm, CalculateGuestInitialHappiness_eq q d hdm]
    exact happinessLoop_mono c d hc0 (by omega) hd1

/-- The statement C30 on the percentages 50 and 0: the results lie in 40..252
and the one for 0 is 40. -/
theorem C30_initial_happiness_witness :
    40 ≤ CalculateGuestInitialHappiness 50 ∧ CalculateGuestInitialHappiness 50 ≤ 252 ∧
    CalculateGuestInitialHappiness 0 = 40 :=
  ⟨(C30_initial_happiness 50 (by decide)).2.2.1, (C30_initial_happiness 50 (by decide)).2.2.2.1,
    (C30_initial_happiness 0 (by decide)).2.2.2.2.1 (by decide)⟩

end OpenRCT2
